import Mathlib

/-!
Verification development for the SlimeLab particle physics engine
(the combat-enabled `PhysicsEngine` class).

The engine is embedded shallowly over `ℚ`.  JavaScript numbers are modelled
as rationals.  `Math.sqrt` appears in the source in two roles:

* in pure comparisons (`Math.sqrt d < c` with a nonnegative constant `c`),
  which are embedded sqrt-free using the equivalence
  `Real.sqrt d < c ↔ 0 ≤ c ∧ d < c * c` (for `d ≥ 0`, and `0 ≤ c` is automatic
  for the literal nonnegative thresholds involved);
* as an actual value flowing into the state (force normals, patrol movement,
  launch directions).  Those call sites receive an explicit square-root
  function `sq : ℚ → ℚ` as a parameter.  Theorems either hold for every
  choice of `sq` (when the stated property does not depend on the square
  root's value) or carry the hypothesis that `sq` is exact at the concrete
  argument in question.  For concrete executions we use `ratSqrt`, which
  agrees with the mathematical square root on perfect squares of rationals;
  all concrete configurations below are engineered so that every executed
  square root lands on a perfect square (distances realised by horizontal or
  vertical separations, or Pythagorean triples), making the runs exact.

JavaScript `Map` objects are modelled as association lists preserving
insertion order; callback invocations (`onSoundEvent`, `onGameStateChange`)
are recorded in event logs carried inside the engine state.
-/

namespace SlimeLab

/- Batteries marks the `Rat` arithmetic operations `@[irreducible]`, which
blocks `decide` from evaluating concrete rational arithmetic.  Restoring the
default reducibility only affects unfolding during elaboration; it does not
change any definitional equality, so no soundness is involved. -/
set_option autoImplicit false
set_option allowUnsafeReducibility true
attribute [local semireducible] Rat.add Rat.sub Rat.mul Rat.div Rat.neg Rat.inv Rat.normalize Rat.blt

/-- 2D vector (`Vector2` in the source). -/
structure Vec2 where
  x : ℚ
  y : ℚ
deriving DecidableEq, Repr

instance : Inhabited Vec2 := ⟨⟨0, 0⟩⟩

/-- Squared Euclidean distance between two points.  The source computes
`dx*dx + dy*dy` and then takes `Math.sqrt` of it where needed. -/
def distSq (a b : Vec2) : ℚ :=
  (b.x - a.x) * (b.x - a.x) + (b.y - a.y) * (b.y - a.y)

/-- Particle role (`type?: 'body' | 'eye'`).  The engine always assigns the
field at creation; the undefined case behaves like `body` in every test the
engine performs (`!== 'eye'` / `=== 'eye'`). -/
inductive PKind where
  | body
  | eye
deriving DecidableEq, Repr

/-- A slime particle (interface `Particle`). -/
structure Particle where
  id : ℕ
  position : Vec2
  velocity : Vec2
  force : Vec2
  mass : ℚ
  isFixed : Bool
  radius : ℚ
  kind : PKind
  isEmitted : Bool
  health : Option ℚ
  maxHealth : Option ℚ
deriving DecidableEq, Repr

/-- Placeholder particle used for out-of-range list reads (never reached on
in-range indices). -/
def dummyParticle : Particle :=
  ⟨0, ⟨0, 0⟩, ⟨0, 0⟩, ⟨0, 0⟩, 1, false, 10, PKind.body, false, none, none⟩

instance : Inhabited Particle := ⟨dummyParticle⟩

/-- A particle is alive iff its health is undefined or positive
(`p.health === undefined || p.health > 0`). -/
def aliveB (p : Particle) : Bool :=
  match p.health with
  | none => true
  | some h => decide (0 < h)

/-- An enemy (interface `Enemy`). -/
structure Enemy where
  id : ℕ
  position : Vec2
  velocity : Vec2
  size : ℚ
  patrolPoints : List Vec2
  currentPatrolIndex : ℕ
  patrolSpeed : ℚ
  damage : ℚ
  color : String
  health : ℚ
  maxHealth : ℚ
  isDead : Bool
deriving DecidableEq, Repr

instance : Inhabited Enemy :=
  ⟨⟨0, ⟨0, 0⟩, ⟨0, 0⟩, 40, [], 0, 80, 10, "#ef4444", 50, 50, false⟩⟩

/-- Render mode hint (consumed only by the excluded rendering collaborator). -/
inductive RenderMode where
  | blob
  | particles
  | debug
deriving DecidableEq, Repr

/-- The simulation configuration record (`SimulationConfig`). -/
structure SimulationConfig where
  gravity : ℚ
  particleCount : ℕ
  particleRadius : ℚ
  repulsionStrength : ℚ
  attractionStrength : ℚ
  interactionRadius : ℚ
  damping : ℚ
  mouseInteractionRadius : ℚ
  mouseForce : ℚ
  renderMode : RenderMode
deriving DecidableEq, Repr

/-- Keyboard input snapshot (`KeyboardInput`). -/
structure KeyboardInput where
  left : Bool
  right : Bool
  jump : Bool
deriving DecidableEq, Repr

/-- Game state record (`GameState`). -/
structure GameState where
  isGameOver : Bool
deriving DecidableEq, Repr

/-- Sound event kinds emitted through the sound callback. -/
inductive SoundKind where
  | jump
  | launch
  | bounce
  | reabsorb
  | hurt
  | gameOver
  | enemyHit
  | particleDeath
deriving DecidableEq, Repr

/-- A sound event (`SoundEvent`).  `intensity` is optional. -/
structure SoundEvent where
  kind : SoundKind
  intensity : Option ℚ
deriving DecidableEq, Repr

/-- A game-state change event (`GameStateEvent`). -/
structure GameStateEvent where
  isGameOver : Bool
  particleCount : Option ℕ
deriving DecidableEq, Repr

/- Constants from `constants.ts`. -/

def TIME_STEP : ℚ := 1 / 60
def ENEMY_SIZE : ℚ := 40
def ENEMY_SPEED : ℚ := 80
def ENEMY_DAMAGE : ℚ := 10
def ENEMY_COUNT : ℕ := 2
def ENEMY_MAX_HEALTH : ℚ := 50
def ENEMY_HIT_COOLDOWN : ℚ := 3 / 10
def PARTICLE_MAX_HEALTH : ℚ := 100
def PARTICLE_DAMAGE : ℚ := 15

/-- The engine state.  Fields mirror the mutable fields of the
`PhysicsEngine` class; the two callback channels are modelled as event logs
(`soundLog`, `stateLog`) to which the engine appends, and the
`enemyHitCooldowns` map as an insertion-ordered association list. -/
structure PhysicsEngine where
  particles : List Particle
  enemies : List Enemy
  gameState : GameState
  width : ℚ
  height : ℚ
  initialParticleCount : ℕ
  jumpCooldown : ℚ
  jumpWasPressed : Bool
  bounceSoundCooldown : ℚ
  enemyHitCooldowns : List (ℕ × ℚ)
  soundLog : List SoundEvent
  stateLog : List GameStateEvent
deriving DecidableEq, Repr

/-- Fuel-bounded Heron iteration for the integer square root (structural
recursion so that the kernel can evaluate it on concrete inputs). -/
def isqrtGo (n : ℕ) : ℕ → ℕ → ℕ
  | 0, g => g
  | fuel + 1, g =>
    let g2 := (g + n / g) / 2
    if g2 < g then isqrtGo n fuel g2 else g

/-- Integer square root (floor), exact on perfect squares of reasonable
size (96 Heron iterations cover every concrete value in this file). -/
def isqrt (n : ℕ) : ℕ :=
  if n ≤ 1 then n else isqrtGo n 96 (n / 2 + 1)

/-- Rational square root, exact on perfect squares: if `q = s * s` for some
rational `s ≥ 0` then `ratSqrt q = s` (numerator and denominator of the
reduced form are then both perfect squares); on other inputs it returns a
junk approximation.  The concrete runs below only apply it to perfect
squares, where it agrees with the mathematical square root. -/
def ratSqrt (q : ℚ) : ℚ :=
  if q ≤ 0 then 0 else (isqrt q.num.toNat : ℚ) / (isqrt q.den : ℚ)

/-- `Map.get(id)` on the cooldown map: first binding wins (keys are unique
in any state the engine produces). -/
def cdLookup (m : List (ℕ × ℚ)) (id : ℕ) : Option ℚ :=
  match m.find? (fun e => e.1 = id) with
  | none => none
  | some e => some e.2

/-- `Map.set(id, v)`: update the existing binding in place, else append
(JS `Map` preserves insertion order and keeps keys unique). -/
def cdSet (m : List (ℕ × ℚ)) (id : ℕ) (v : ℚ) : List (ℕ × ℚ) :=
  if m.any (fun e => e.1 = id) then
    m.map (fun e => if e.1 = id then (id, v) else e)
  else
    m ++ [(id, v)]

/-! ## Connectivity analyzer -/

/-- `areParticlesConnected`: the source computes
`Math.sqrt(dx*dx + dy*dy) < connectionDistance`; embedded sqrt-free via the
exact equivalence `Real.sqrt d < c ↔ 0 ≤ c ∧ d < c * c` (valid since
`d = dx² + dy² ≥ 0`). -/
def areParticlesConnected (p1 p2 : Particle) (connectionDistance : ℚ) : Bool :=
  decide (0 ≤ connectionDistance) &&
  decide (distSq p1.position p2.position < connectionDistance * connectionDistance)

/-- Indices of alive particles, in array order (`aliveIndices` in
`findMainGroup`). -/
def aliveIndices (ps : List Particle) : List ℕ :=
  (List.range ps.length).filter (fun i => aliveB (ps.getD i dummyParticle))

/-- Adjacency of the proximity graph built by `findMainGroup`: the source
adds the edge `{i, j}` (both directions) for every pair of alive indices
`i < j` passing the connection check; since the check is symmetric this is
the symmetric relation below. -/
def adjacentB (ps : List Particle) (r : ℚ) (i j : ℕ) : Bool :=
  decide (i ≠ j) && decide (i ∈ aliveIndices ps) && decide (j ∈ aliveIndices ps) &&
  areParticlesConnected (ps.getD i dummyParticle) (ps.getD j dummyParticle) r

/-- The adjacency list of node `i` (entries accumulate in increasing index
order in the source's pair scan). -/
def neighborList (ps : List Particle) (r : ℚ) (i : ℕ) : List ℕ :=
  (aliveIndices ps).filter (fun j => adjacentB ps r i j)

/-- The BFS `while (queue.length > 0)` loop of `findMainGroup`.  `fuel`
bounds the number of iterations; `bfsFuel` below is large enough that the
loop always drains the queue before the fuel runs out. -/
def bfsLoop (nbrs : ℕ → List ℕ) :
    ℕ → List ℕ → Finset ℕ → Finset ℕ → Finset ℕ × Finset ℕ
  | 0, _, visited, group => (visited, group)
  | _ + 1, [], visited, group => (visited, group)
  | fuel + 1, c :: queue, visited, group =>
    if c ∈ visited then
      bfsLoop nbrs fuel queue visited group
    else
      bfsLoop nbrs fuel (queue ++ (nbrs c).filter (fun n => n ∉ insert c visited))
        (insert c visited) (insert c group)

/-- Fuel bound for the BFS loop: every loop iteration pops one queue entry,
and entries are pushed only when an unvisited node is popped (at most
`ps.length` times, at most `ps.length` pushes each). -/
def bfsFuel (ps : List Particle) : ℕ :=
  ps.length * ps.length + ps.length + 1

/-- The outer `for (const i of aliveIndices)` loop of `findMainGroup`,
tracking the shared `visited` set, the current best group and its size;
a freshly found component replaces the best only when strictly larger
(`currentGroup.size > maxGroupSize`). -/
def findMainGroupLoop (ps : List Particle) (r : ℚ) :
    List ℕ → Finset ℕ → Finset ℕ → ℕ → Finset ℕ
  | [], _, best, _ => best
  | i :: rest, visited, best, bestSize =>
    if i ∈ visited then findMainGroupLoop ps r rest visited best bestSize
    else
      let res := bfsLoop (neighborList ps r) (bfsFuel ps) [i] visited ∅
      if bestSize < res.2.card then
        findMainGroupLoop ps r rest res.1 res.2 res.2.card
      else
        findMainGroupLoop ps r rest res.1 best bestSize

/-- `findMainGroup`: largest connected component of the proximity graph over
alive particles. -/
def findMainGroup (ps : List Particle) (r : ℚ) : Finset ℕ :=
  findMainGroupLoop ps r (aliveIndices ps) ∅ ∅ 0

/-! ## Emission / reabsorption lifecycle -/

/-- Squared speed of a particle. -/
def speedSq (p : Particle) : ℚ :=
  p.velocity.x * p.velocity.x + p.velocity.y * p.velocity.y

/-- The demotion condition of `checkReabsorption`, evaluated against the
current particle array `ps` (the source's `bodyParticles` array holds live
references, so anchors demoted earlier in the same pass count): the
candidate is alive, emitted, not an eye, its speed passes
`velocityMag > 50 → skip` (so speed ≤ 50, i.e. squared speed ≤ 2500), and
some alive non-eye particle with a different id is currently non-emitted
and strictly within distance 35 (squared distance < 1225). -/
def reabsorbCondB (ps : List Particle) (p : Particle) : Bool :=
  aliveB p && p.isEmitted && decide (p.kind ≠ PKind.eye) &&
  decide (speedSq p ≤ 2500) &&
  ps.any (fun q =>
    decide (q.kind ≠ PKind.eye) && aliveB q && decide (q.id ≠ p.id) &&
    !q.isEmitted && decide (distSq q.position p.position < 1225))

/-- One candidate step of `checkReabsorption`: demote particle `i` (and log
a reabsorb sound) when the demotion condition holds against the current
array. -/
def reabsorbStep (st : PhysicsEngine) (i : ℕ) : PhysicsEngine :=
  let p := st.particles.getD i dummyParticle
  if reabsorbCondB st.particles p then
    { st with
      particles := st.particles.set i { p with isEmitted := false },
      soundLog := st.soundLog ++ [⟨SoundKind.reabsorb, none⟩] }
  else st

/-- `checkReabsorption`: scan particles in array order, demoting each
eligible emitted particle back to the body (and logging a reabsorb sound);
demotions take effect immediately for later candidates. -/
def checkReabsorption (s : PhysicsEngine) : PhysicsEngine :=
  (List.range s.particles.length).foldl reabsorbStep s

/-! ## Launching -/

/-- Indices of particles eligible for launching: not an eye and not already
emitted (the `bodyParticles` filter of both launch routines). -/
def eligibleIndices (ps : List Particle) : List ℕ :=
  (List.range ps.length).filter (fun i =>
    let p := ps.getD i dummyParticle
    decide (p.kind ≠ PKind.eye) && !p.isEmitted)

/-- `launchParticle`: pick a random eligible (non-eye, non-emitted) particle
and launch it.  The uniform random pick is abstracted by `pick` (index into
the eligible list modulo its length) and the randomized launch velocity
(`cos/sin` of a random upward angle times a random speed) by `launchVel`. -/
def launchParticle (pick : ℕ) (launchVel : Vec2) (s : PhysicsEngine) : PhysicsEngine :=
  let cands := eligibleIndices s.particles
  match cands with
  | [] => s
  | c0 :: _ =>
    let idx := cands.getD (pick % cands.length) c0
    let p := s.particles.getD idx dummyParticle
    let p := { p with isEmitted := true, velocity := launchVel }
    { s with particles := s.particles.set idx p }

/-- Index selection of `launchChargedParticle`: the bottom-most (largest
`y`) eligible particle; the running-maximum scan with a strict `>` keeps the
first of several particles sharing the maximal `y`. -/
def selectBottomMost (ps : List Particle) : List ℕ → ℕ
  | [] => 0
  | c0 :: rest =>
    (rest.foldl
      (fun best j =>
        if best.2 < (ps.getD j dummyParticle).position.y then
          (j, (ps.getD j dummyParticle).position.y)
        else best)
      (c0, (ps.getD c0 dummyParticle).position.y)).1

/-- `launchChargedParticle`: launch the bottom-most eligible particle toward
`targetPosition` with speed `velocityMagnitude`; when the target is within
distance 1 of the particle, fall back to a straight-up launch (and return
early, skipping the launch sound). -/
def launchChargedParticle (sq : ℚ → ℚ) (targetPosition : Vec2)
    (velocityMagnitude : ℚ) (s : PhysicsEngine) : PhysicsEngine :=
  let cands := eligibleIndices s.particles
  if cands.isEmpty then s
  else
    let idx := selectBottomMost s.particles cands
    let p := s.particles.getD idx dummyParticle
    let p := { p with isEmitted := true,
                      health := some PARTICLE_MAX_HEALTH,
                      maxHealth := some PARTICLE_MAX_HEALTH }
    let dx := targetPosition.x - p.position.x
    let dy := targetPosition.y - p.position.y
    let distance := sq (dx * dx + dy * dy)
    if distance < 1 then
      let p := { p with velocity := (⟨0, -velocityMagnitude⟩ : Vec2) }
      { s with particles := s.particles.set idx p }
    else
      let p := { p with velocity := ⟨dx / distance * velocityMagnitude,
                                     dy / distance * velocityMagnitude⟩ }
      { s with particles := s.particles.set idx p,
               soundLog := s.soundLog ++
                 [⟨SoundKind.launch, some (min (velocityMagnitude / 1200) 1)⟩] }

/-! ## Enemies and combat -/

/-- `initEnemies`: randomized patrol paths.  The random draws are abstracted
by parameters: `extraPoint i` is whether enemy `i` gets a 4th patrol point
(`Math.floor(Math.random()*2)`), `jitter i j ∈ (−100, 100)` the horizontal
scatter `(Math.random()−0.5)*200` of point `j`, and
`speedJitter i ∈ [0, 40)` the speed scatter `Math.random()*40`. -/
def initEnemies (w h : ℚ) (count : ℕ) (extraPoint : ℕ → Bool)
    (jitter : ℕ → ℕ → ℚ) (speedJitter : ℕ → ℚ) : List Enemy :=
  (List.range count).map (fun i =>
    let numPoints := 3 + (if extraPoint i then 1 else 0)
    let baseX := if i % 2 = 0 then w * (1/4) else w * (3/4)
    let groundY := h - ENEMY_SIZE / 2 - 4
    let pts := (List.range numPoints).map (fun j => (⟨baseX + jitter i j, groundY⟩ : Vec2))
    { id := i,
      position := pts.getD 0 default,
      velocity := ⟨0, 0⟩,
      size := ENEMY_SIZE,
      patrolPoints := pts,
      currentPatrolIndex := 0,
      patrolSpeed := ENEMY_SPEED + speedJitter i,
      damage := ENEMY_DAMAGE,
      color := "#ef4444",
      health := ENEMY_MAX_HEALTH,
      maxHealth := ENEMY_MAX_HEALTH,
      isDead := false })

/-- `updateEnemies`: patrol movement toward the current waypoint; a no-op
once game over is latched. -/
def updateEnemies (sq : ℚ → ℚ) (dt : ℚ) (s : PhysicsEngine) : PhysicsEngine :=
  if s.gameState.isGameOver then s
  else
    { s with enemies := s.enemies.map (fun e =>
        let target := e.patrolPoints.getD e.currentPatrolIndex default
        let dx := target.x - e.position.x
        let dy := target.y - e.position.y
        let dist := sq (dx * dx + dy * dy)
        if 5 < dist then
          { e with position := ⟨e.position.x + dx / dist * e.patrolSpeed * dt,
                                e.position.y + dy / dist * e.patrolSpeed * dt⟩ }
        else
          { e with currentPatrolIndex := (e.currentPatrolIndex + 1) % e.patrolPoints.length }) }

/-- `damageEnemy` (state part; the unconditional enemy-hit sound is appended
by the caller): clamp health at 0 (`Math.max(0, health - amount)`) and latch
`isDead` when the clamped health is ≤ 0. -/
def damageEnemy (e : Enemy) (amount : ℚ) : Enemy :=
  if max 0 (e.health - amount) ≤ 0 then
    { e with health := max 0 (e.health - amount), isDead := true }
  else
    { e with health := max 0 (e.health - amount) }

/-- The cooldown-decrement pass at the top of `checkEnemyCollisions`: every
positive entry is decremented by the constant `TIME_STEP`; non-positive
entries are left untouched. -/
def decrementCooldowns (m : List (ℕ × ℚ)) : List (ℕ × ℚ) :=
  m.map (fun e => if 0 < e.2 then (e.1, e.2 - TIME_STEP) else e)

/-- Axis-aligned bounding-box overlap test between a particle (box =
position ± radius) and an enemy (box = position ± size/2), with strict
inequalities. -/
def overlapB (p : Particle) (e : Enemy) : Bool :=
  let halfSize := e.size / 2
  decide (e.position.x - halfSize < p.position.x + p.radius) &&
  decide (p.position.x - p.radius < e.position.x + halfSize) &&
  decide (e.position.y - halfSize < p.position.y + p.radius) &&
  decide (p.position.y - p.radius < e.position.y + halfSize)

/-- State threaded through one enemy's particle scan in
`checkEnemyCollisions`. -/
structure EnemyPassState where
  particles : List Particle
  enemy : Enemy
  cooldowns : List (ℕ × ℚ)
  soundLog : List SoundEvent

/-- One particle step of the per-enemy collision scan.  `hitCooldown` is the
cooldown value read once before the scan (the source does not re-read it
after a hit, so several emitted particles can damage the same enemy in one
tick). -/
def collideStep (hitCooldown : ℚ) (st : EnemyPassState) (i : ℕ) : EnemyPassState :=
  let p := st.particles.getD i dummyParticle
  if !aliveB p then st
  else if overlapB p st.enemy then
    if p.isEmitted then
      if hitCooldown ≤ 0 then
        { particles := st.particles.set i { p with health := some 0 },
          enemy := damageEnemy st.enemy PARTICLE_DAMAGE,
          cooldowns := cdSet st.cooldowns st.enemy.id ENEMY_HIT_COOLDOWN,
          soundLog := st.soundLog ++
            [⟨SoundKind.enemyHit, none⟩, ⟨SoundKind.particleDeath, none⟩] }
      else st
    else
      { st with
        particles := st.particles.set i { p with health := some 0 },
        soundLog := st.soundLog ++ [⟨SoundKind.hurt, none⟩] }
  else st

/-- State threaded through the outer enemy loop of `checkEnemyCollisions`. -/
structure CollisionState where
  particles : List Particle
  enemiesAcc : List Enemy
  cooldowns : List (ℕ × ℚ)
  soundLog : List SoundEvent

/-- Process one enemy in `checkEnemyCollisions`: dead enemies are skipped
entirely; otherwise its cooldown is read once and every particle is
scanned. -/
def processEnemy (cst : CollisionState) (e : Enemy) : CollisionState :=
  if e.isDead then { cst with enemiesAcc := cst.enemiesAcc ++ [e] }
  else
    let hitCooldown := (cdLookup cst.cooldowns e.id).getD 0
    let fin := (List.range cst.particles.length).foldl (collideStep hitCooldown)
      ⟨cst.particles, e, cst.cooldowns, cst.soundLog⟩
    { particles := fin.particles,
      enemiesAcc := cst.enemiesAcc ++ [fin.enemy],
      cooldowns := fin.cooldowns,
      soundLog := fin.soundLog }

/-- `checkEnemyCollisions`: decrement all hit cooldowns by `TIME_STEP`, then
run the enemy/particle collision pass. -/
def checkEnemyCollisions (s : PhysicsEngine) : PhysicsEngine :=
  let m0 := decrementCooldowns s.enemyHitCooldowns
  let fin := s.enemies.foldl processEnemy ⟨s.particles, [], m0, s.soundLog⟩
  { s with particles := fin.particles,
           enemies := fin.enemiesAcc,
           enemyHitCooldowns := fin.cooldowns,
           soundLog := fin.soundLog }

/-- `updateEmittedParticles`: prune dead particles (splicing dead indices ≡
keeping the alive ones in order), then latch game over and report state. -/
def updateEmittedParticles (_dt : ℚ) (s : PhysicsEngine) : PhysicsEngine :=
  let ps := s.particles.filter aliveB
  if ps.length = 0 ∧ ¬s.gameState.isGameOver then
    { s with particles := ps,
             gameState := ⟨true⟩,
             stateLog := s.stateLog ++ [⟨true, some 0⟩],
             soundLog := s.soundLog ++ [⟨SoundKind.gameOver, none⟩] }
  else if ¬s.gameState.isGameOver then
    { s with particles := ps,
             stateLog := s.stateLog ++ [⟨false, some ps.length⟩] }
  else
    { s with particles := ps }

/-! ## The update pipeline -/

/-- Stage 1 of `update`: reset forces and apply gravity
(`force = (0, mass * gravity)`); dead particles are skipped. -/
def applyGravityStage (cfg : SimulationConfig) (ps : List Particle) : List Particle :=
  ps.map (fun p =>
    if !aliveB p then p
    else { p with force := ⟨0, p.mass * cfg.gravity⟩ })

/-- All index pairs `(i, j)` with `i < j < n`, in the scan order of the
source's double loop. -/
def pairIndices (n : ℕ) : List (ℕ × ℕ) :=
  (List.range n).flatMap (fun i => ((List.range n).drop (i + 1)).map (fun j => (i, j)))

/-- The body of the pairwise-interaction double loop of `update` for the
pair `(i, j)`: skip if either particle is dead, if the squared separation
exceeds the squared interaction radius, or if it is zero; otherwise compute
the repulsion/attraction magnitude and add equal-and-opposite force
increments.  `sq` stands for `Math.sqrt`. -/
def pairStep (sq : ℚ → ℚ) (cfg : SimulationConfig) (ps : List Particle)
    (ij : ℕ × ℕ) : List Particle :=
  let pA := ps.getD ij.1 dummyParticle
  let pB := ps.getD ij.2 dummyParticle
  if !aliveB pA then ps
  else if !aliveB pB then ps
  else
    let dx := pB.position.x - pA.position.x
    let dy := pB.position.y - pA.position.y
    let distSqv := dx * dx + dy * dy
    let interactRadSq := cfg.interactionRadius * cfg.interactionRadius
    if interactRadSq < distSqv ∨ distSqv = 0 then ps
    else
      let dist := sq distSqv
      let nx := dx / dist
      let ny := dy / dist
      let bothEyes := pA.kind = PKind.eye ∧ pB.kind = PKind.eye
      let diameter := cfg.particleRadius * (3/2)
      let repulsion := if bothEyes then cfg.repulsionStrength * (5/2) else cfg.repulsionStrength
      let fmRep := if dist < diameter then -(repulsion * (1 - dist / diameter)) else 0
      let fmAtt := if diameter < dist then cfg.attractionStrength * (1 - dist / cfg.interactionRadius) * 100 else 0
      let forceMagnitude := fmRep + fmAtt
      let fx := nx * forceMagnitude
      let fy := ny * forceMagnitude
      let pA := { pA with force := ⟨pA.force.x + fx, pA.force.y + fy⟩ }
      let pB := { pB with force := ⟨pB.force.x - fx, pB.force.y - fy⟩ }
      (ps.set ij.1 pA).set ij.2 pB

/-- Stage 2 of `update`: the full pairwise-interaction pass. -/
def interactionStage (sq : ℚ → ℚ) (cfg : SimulationConfig)
    (ps : List Particle) : List Particle :=
  (pairIndices ps.length).foldl (pairStep sq cfg) ps

/-- One particle of the pointer force-field loop: pull main-group members
toward the pointer and damp their velocity by 0.8 when within the pointer
radius. -/
def mouseStep (sq : ℚ → ℚ) (cfg : SimulationConfig) (mainGroup : Finset ℕ)
    (mousePos : Vec2) (ps : List Particle) (i : ℕ) : List Particle :=
  if i ∉ mainGroup then ps
  else
    let p := ps.getD i dummyParticle
    let dx := mousePos.x - p.position.x
    let dy := mousePos.y - p.position.y
    let dist := sq (dx * dx + dy * dy)
    if dist < cfg.mouseInteractionRadius then
      let ff := 1 - dist / cfg.mouseInteractionRadius
      let p := { p with
        force := ⟨p.force.x + dx * ff * cfg.mouseForce * (1/20),
                  p.force.y + dy * ff * cfg.mouseForce * (1/20)⟩,
        velocity := ⟨p.velocity.x * (4/5), p.velocity.y * (4/5)⟩ }
      ps.set i p
    else ps

/-- Stage 3 of `update`: pointer force field, affecting main-group members
only — a pull toward the pointer plus a 0.8 velocity damp near it. -/
def mouseStage (sq : ℚ → ℚ) (cfg : SimulationConfig) (mainGroup : Finset ℕ)
    (mousePos : Vec2) (ps : List Particle) : List Particle :=
  (List.range ps.length).foldl (mouseStep sq cfg mainGroup mousePos) ps

/-- One particle of the keyboard movement loop: horizontal force field pull
toward a virtual target plus a constant directional push, for non-emitted
main-group members. -/
def kbMoveStep (sq : ℚ → ℚ) (kb : KeyboardInput) (mainGroup : Finset ℕ)
    (centerX centerY : ℚ) (ps : List Particle) (i : ℕ) : List Particle :=
  let moveForceMagnitude : ℚ := 15
  let moveFieldRadius : ℚ := 200
  if i ∉ mainGroup then ps
  else
    let p := ps.getD i dummyParticle
    if p.isEmitted then ps
    else if kb.left ∨ kb.right then
      let direction : ℚ := if kb.left then -1 else 1
      let targetX := centerX + direction * moveFieldRadius
      let dx := targetX - p.position.x
      let dy := centerY - p.position.y
      let dist := sq (dx * dx + dy * dy)
      let fieldForce : ℚ :=
        if dist < moveFieldRadius then
          direction * (1 - dist / moveFieldRadius) * moveForceMagnitude * 10
        else 0
      let p := { p with force :=
        ⟨p.force.x + fieldForce + direction * moveForceMagnitude * 20, p.force.y⟩ }
      ps.set i p
    else ps

/-- One particle of the jump loop: set the vertical velocity of non-emitted
main-group members to the fixed upward jump impulse. -/
def kbJumpStep (mainGroup : Finset ℕ) (ps : List Particle) (i : ℕ) : List Particle :=
  if decide (i ∈ mainGroup) && !(ps.getD i dummyParticle).isEmitted then
    let p := ps.getD i dummyParticle
    ps.set i { p with velocity := ⟨p.velocity.x, -(350 : ℚ)⟩ }
  else ps

/-- Centroid of the non-emitted main-group particles, used to position the
keyboard movement force field; 0 when the selection is empty. -/
def groupCenter (mainGroup : Finset ℕ) (ps : List Particle) : ℚ × ℚ :=
  let sel := (List.range ps.length).filter (fun i =>
    decide (i ∈ mainGroup) && !(ps.getD i dummyParticle).isEmitted)
  let cnt := sel.length
  (if 0 < cnt then (sel.map (fun i => (ps.getD i dummyParticle).position.x)).sum / cnt else 0,
   if 0 < cnt then (sel.map (fun i => (ps.getD i dummyParticle).position.y)).sum / cnt else 0)

/-- Stage 3.5 of `update`: keyboard movement force field and edge-triggered
jump, affecting non-emitted main-group members only. -/
def keyboardStage (sq : ℚ → ℚ) (cfg : SimulationConfig) (dt : ℚ)
    (mainGroup : Finset ℕ) (kb : KeyboardInput) (s : PhysicsEngine) : PhysicsEngine :=
  let ps1 := (List.range s.particles.length).foldl
    (kbMoveStep sq kb mainGroup (groupCenter mainGroup s.particles).1
      (groupCenter mainGroup s.particles).2) s.particles
  let jumpImpulse : ℚ := 350
  let jumpTriggered := kb.jump && !s.jumpWasPressed
  let onGround := (List.range ps1.length).any (fun i =>
    decide (i ∈ mainGroup) && !(ps1.getD i dummyParticle).isEmitted &&
    decide (s.height - cfg.particleRadius - 8 ≤ (ps1.getD i dummyParticle).position.y))
  let doJump := jumpTriggered && onGround && decide (s.jumpCooldown ≤ 0)
  let ps2 := if doJump then
      (List.range ps1.length).foldl (kbJumpStep mainGroup) ps1
    else ps1
  let jumpCooldown1 : ℚ := if doJump then 1/4 else s.jumpCooldown
  let soundLog1 := if doJump then s.soundLog ++ [⟨SoundKind.jump, none⟩] else s.soundLog
  let jumpCooldown2 := if 0 < jumpCooldown1 then jumpCooldown1 - dt else jumpCooldown1
  { s with particles := ps2,
           jumpCooldown := jumpCooldown2,
           jumpWasPressed := kb.jump,
           soundLog := soundLog1 }

/-- Stage 4 of `update`: semi-implicit Euler integration with uniform
velocity damping; dead particles are skipped. -/
def integrationStage (cfg : SimulationConfig) (dt : ℚ) (ps : List Particle) : List Particle :=
  ps.map (fun p =>
    if !aliveB p then p
    else
      let ax := p.force.x / p.mass
      let ay := p.force.y / p.mass
      let vx := (p.velocity.x + ax * dt) * cfg.damping
      let vy := (p.velocity.y + ay * dt) * cfg.damping
      { p with velocity := ⟨vx, vy⟩,
               position := ⟨p.position.x + vx * dt, p.position.y + vy * dt⟩ })

/-- Result of the boundary-resolution loop: the processed particles plus the
floor-impact bookkeeping for the bounce sound. -/
structure BoundaryResult where
  particles : List Particle
  maxImpactSpeed : ℚ
  played : Bool

/-- The clamping part of the boundary loop for one alive particle: floor,
ceiling and walls in source order (restitution 0.5, floor friction 0.9). -/
def resolveParticle (w h r : ℚ) (p : Particle) : Particle :=
  let p := if h - r < p.position.y then
      { p with position := ⟨p.position.x, h - r⟩,
               velocity := ⟨p.velocity.x * (9/10), p.velocity.y * -(1/2)⟩ }
    else p
  let p := if p.position.y < r then
      { p with position := ⟨p.position.x, r⟩, velocity := ⟨p.velocity.x, p.velocity.y * -(1/2)⟩ }
    else p
  let p := if w - r < p.position.x then
      { p with position := ⟨w - r, p.position.y⟩, velocity := ⟨p.velocity.x * -(1/2), p.velocity.y⟩ }
    else p
  if p.position.x < r then
    { p with position := ⟨r, p.position.y⟩, velocity := ⟨p.velocity.x * -(1/2), p.velocity.y⟩ }
  else p

/-- Stage 5 of `update` for one particle: clamp against floor, ceiling and
walls, recording the largest floor impact speed (read from the pre-clamp
velocity, as in the source); dead particles are skipped. -/
def boundaryStep (w h r : ℚ) (acc : BoundaryResult) (p : Particle) : BoundaryResult :=
  if !aliveB p then { acc with particles := acc.particles ++ [p] }
  else
    let hitFloor := h - r < p.position.y
    let impactSpeed := |p.velocity.y|
    let acc := if hitFloor then
        { acc with
          maxImpactSpeed := if acc.maxImpactSpeed < impactSpeed then impactSpeed else acc.maxImpactSpeed,
          played := true }
      else acc
    { acc with particles := acc.particles ++ [resolveParticle w h r p] }

/-- Stages 1–3 of `update` on the particle array: reset forces + gravity,
pairwise interactions, and (when a drag point is active) the pointer force
field over the main group. -/
def forceStage (sq : ℚ → ℚ) (cfg : SimulationConfig) (mainGroup : Finset ℕ)
    (mousePos : Option Vec2) (isDragging : Bool) (ps : List Particle) :
    List Particle :=
  let ps2 := interactionStage sq cfg (applyGravityStage cfg ps)
  match mousePos, isDragging with
  | some mp, true => mouseStage sq cfg mainGroup mp ps2
  | _, _ => ps2

/-- Stage 3.5 of `update`: keyboard handling, skipped entirely when no
keyboard input is supplied. -/
def kbStage (sq : ℚ → ℚ) (cfg : SimulationConfig) (dt : ℚ)
    (mainGroup : Finset ℕ) (kb : Option KeyboardInput) (s : PhysicsEngine) :
    PhysicsEngine :=
  match kb with
  | some k => keyboardStage sq cfg dt mainGroup k s
  | none => s

/-- Stage 5 of `update` at the engine level: boundary resolution plus the
bounce-sound bookkeeping that follows it. -/
def boundaryAndSound (cfg : SimulationConfig) (dt : ℚ) (s : PhysicsEngine) :
    PhysicsEngine :=
  let bres := s.particles.foldl (boundaryStep s.width s.height cfg.particleRadius)
    ⟨[], 0, false⟩
  let playBounce := bres.played && decide (50 < bres.maxImpactSpeed) &&
    decide (s.bounceSoundCooldown ≤ 0)
  let soundLog1 := if playBounce then
      s.soundLog ++ [⟨SoundKind.bounce, some (min (bres.maxImpactSpeed / 300) 1)⟩]
    else s.soundLog
  let bounceCooldown1 : ℚ := if playBounce then 1/10 else s.bounceSoundCooldown
  let bounceCooldown2 := if 0 < bounceCooldown1 then bounceCooldown1 - dt else bounceCooldown1
  { s with particles := bres.particles,
           soundLog := soundLog1,
           bounceSoundCooldown := bounceCooldown2 }

/-- Stages 6–7 of `update`: enemy patrol, dead-particle pruning with
game-over detection, and the enemy-collision pass gated on the (possibly
just latched) game-over flag. -/
def combatTail (sq : ℚ → ℚ) (dt : ℚ) (t : PhysicsEngine) : PhysicsEngine :=
  if (updateEmittedParticles dt (updateEnemies sq dt t)).gameState.isGameOver then
    updateEmittedParticles dt (updateEnemies sq dt t)
  else
    checkEnemyCollisions (updateEmittedParticles dt (updateEnemies sq dt t))

/-- Stages 1–5 of `update`: connectivity analysis, forces, keyboard,
integration, reabsorption and boundary resolution. -/
def preUpdate (sq : ℚ → ℚ) (cfg : SimulationConfig) (dt : ℚ)
    (mousePos : Option Vec2) (isDragging : Bool) (kb : Option KeyboardInput)
    (s : PhysicsEngine) : PhysicsEngine :=
  let mainGroup := findMainGroup s.particles cfg.interactionRadius
  let s4 := kbStage sq cfg dt mainGroup kb
    { s with particles := forceStage sq cfg mainGroup mousePos isDragging s.particles }
  let s5 := { s4 with particles := integrationStage cfg dt s4.particles }
  boundaryAndSound cfg dt (checkReabsorption s5)

/-- `update`: the per-tick entry point, sequencing connectivity analysis,
forces, keyboard, integration, reabsorption, boundaries, enemy patrol,
pruning / game-over detection, and the enemy-collision pass (skipped once
game over is latched). -/
def update (sq : ℚ → ℚ) (s : PhysicsEngine) (dt : ℚ) (cfg : SimulationConfig)
    (mousePos : Option Vec2) (isDragging : Bool) (kb : Option KeyboardInput) :
    PhysicsEngine :=
  combatTail sq dt (preUpdate sq cfg dt mousePos isDragging kb s)

/-! ## Construction and reset -/

/-- `initSlime`: the first two particles are the eyes at fixed offsets from
the center; the remaining ones scatter over a disc of radius < 80 around the
center with random initial velocities.  The random draws are abstracted by
`scatter i` (the offset `(cos θ · ρ, sin θ · ρ)` with `ρ = sqrt(rand)·80`)
and `vel0 i` (components `(rand − 0.5)·50 ∈ (−25, 25)`). -/
def initSlime (w h : ℚ) (count : ℕ) (scatter : ℕ → Vec2) (vel0 : ℕ → Vec2) :
    List Particle :=
  (List.range count).map (fun i =>
    let cx := w / 2
    let cy := h / 2
    let pos : Vec2 :=
      if i = 0 then ⟨cx - 12, cy - 15⟩
      else if i = 1 then ⟨cx + 12, cy - 15⟩
      else ⟨cx + (scatter i).x, cy + (scatter i).y⟩
    { id := i,
      position := pos,
      velocity := vel0 i,
      force := ⟨0, 0⟩,
      mass := 1,
      isFixed := false,
      radius := 10,
      kind := if i < 2 then PKind.eye else PKind.body,
      isEmitted := false,
      health := some 100,
      maxHealth := some 100 })

/-- The `PhysicsEngine` constructor: initialize particle and enemy
collections and clear all bookkeeping. -/
def mkEngine (w h : ℚ) (count : ℕ) (scatter : ℕ → Vec2) (vel0 : ℕ → Vec2)
    (extraPoint : ℕ → Bool) (jitter : ℕ → ℕ → ℚ) (speedJitter : ℕ → ℚ) :
    PhysicsEngine :=
  { particles := initSlime w h count scatter vel0,
    enemies := initEnemies w h ENEMY_COUNT extraPoint jitter speedJitter,
    gameState := ⟨false⟩,
    width := w,
    height := h,
    initialParticleCount := count,
    jumpCooldown := 0,
    jumpWasPressed := false,
    bounceSoundCooldown := 0,
    enemyHitCooldowns := [],
    soundLog := [],
    stateLog := [] }

/-- `resetGame`: clear the game-over flag and the cooldown map, re-run both
init routines, and report the fresh state. -/
def resetGame (scatter : ℕ → Vec2) (vel0 : ℕ → Vec2) (extraPoint : ℕ → Bool)
    (jitter : ℕ → ℕ → ℚ) (speedJitter : ℕ → ℚ) (s : PhysicsEngine) : PhysicsEngine :=
  let ps := initSlime s.width s.height s.initialParticleCount scatter vel0
  { s with gameState := ⟨false⟩,
           enemyHitCooldowns := [],
           particles := ps,
           enemies := initEnemies s.width s.height ENEMY_COUNT extraPoint jitter speedJitter,
           stateLog := s.stateLog ++ [⟨false, some ps.length⟩] }

/-! ## Helper lemmas -/

lemma getD_set_self {α : Type} (l : List α) {i : ℕ} (a d : α) (h : i < l.length) :
    (l.set i a).getD i d = a := by
  simp [List.getD_eq_getD_get?, List.getElem?_set_eq_of_lt a h]

lemma getD_set_ne {α : Type} (l : List α) {i j : ℕ} (a d : α) (h : i ≠ j) :
    (l.set i a).getD j d = l.getD j d := by
  simp [List.getD_eq_getD_get?, List.getElem?_set_ne h]

lemma damageEnemy_health (e : Enemy) (amount : ℚ) :
    (damageEnemy e amount).health = max 0 (e.health - amount) := by
  unfold damageEnemy; split <;> rfl

lemma damageEnemy_isDead (e : Enemy) (amount : ℚ) :
    (damageEnemy e amount).isDead =
      if max 0 (e.health - amount) ≤ 0 then true else e.isDead := by
  unfold damageEnemy; split <;> simp_all

/-- Every branch of `processEnemy` appends exactly one enemy to the
accumulator; when the processed enemy is dead, it is appended unchanged. -/
lemma processEnemy_acc (cst : CollisionState) (e : Enemy) :
    ∃ x : Enemy, (processEnemy cst e).enemiesAcc = cst.enemiesAcc ++ [x] ∧
      (e.isDead = true → x = e) := by
  unfold processEnemy
  split
  · exact ⟨e, rfl, fun _ => rfl⟩
  · exact ⟨_, rfl, fun h => by simp_all⟩

lemma foldl_processEnemy_length (es : List Enemy) :
    ∀ cst : CollisionState,
      (es.foldl processEnemy cst).enemiesAcc.length = cst.enemiesAcc.length + es.length := by
  induction es with
  | nil => intro cst; simp
  | cons e t ih =>
    intro cst
    obtain ⟨x, hx, -⟩ := processEnemy_acc cst e
    simp [List.foldl_cons, ih, hx]
    omega

lemma foldl_processEnemy_mem_dead (es : List Enemy) :
    ∀ (cst : CollisionState) (e : Enemy),
      (e ∈ cst.enemiesAcc ∨ (e ∈ es ∧ e.isDead = true)) →
      e ∈ (es.foldl processEnemy cst).enemiesAcc := by
  induction es with
  | nil =>
    intro cst e h
    rcases h with h | ⟨h, -⟩
    · simpa using h
    · simp at h
  | cons e' t ih =>
    intro cst e h
    rw [List.foldl_cons]
    apply ih
    obtain ⟨x, hx, hdead⟩ := processEnemy_acc cst e'
    rcases h with h | ⟨hm, hd⟩
    · left; rw [hx]; exact List.mem_append_left _ h
    · rcases List.mem_cons.mp hm with rfl | hm
      · left; rw [hx, hdead hd]; simp
      · right; exact ⟨hm, hd⟩

lemma checkEnemyCollisions_enemies (s : PhysicsEngine) :
    (checkEnemyCollisions s).enemies =
      (s.enemies.foldl processEnemy
        ⟨s.particles, [], decrementCooldowns s.enemyHitCooldowns, s.soundLog⟩).enemiesAcc :=
  rfl

lemma checkEnemyCollisions_enemies_length (s : PhysicsEngine) :
    (checkEnemyCollisions s).enemies.length = s.enemies.length := by
  rw [checkEnemyCollisions_enemies, foldl_processEnemy_length]
  simp

lemma checkEnemyCollisions_dead_mem (s : PhysicsEngine) (e : Enemy)
    (hm : e ∈ s.enemies) (hd : e.isDead = true) :
    e ∈ (checkEnemyCollisions s).enemies := by
  rw [checkEnemyCollisions_enemies]
  exact foldl_processEnemy_mem_dead s.enemies _ e (Or.inr ⟨hm, hd⟩)

lemma reabsorbStep_enemies (st : PhysicsEngine) (i : ℕ) :
    (reabsorbStep st i).enemies = st.enemies := by
  simp only [reabsorbStep]; split <;> rfl

lemma foldl_reabsorbStep_enemies (l : List ℕ) :
    ∀ st : PhysicsEngine, (l.foldl reabsorbStep st).enemies = st.enemies := by
  induction l with
  | nil => intro st; rfl
  | cons i t ih => intro st; rw [List.foldl_cons, ih, reabsorbStep_enemies]

lemma checkReabsorption_enemies (s : PhysicsEngine) :
    (checkReabsorption s).enemies = s.enemies :=
  foldl_reabsorbStep_enemies _ s

lemma keyboardStage_enemies (sq : ℚ → ℚ) (cfg : SimulationConfig) (dt : ℚ)
    (mg : Finset ℕ) (kb : KeyboardInput) (s : PhysicsEngine) :
    (keyboardStage sq cfg dt mg kb s).enemies = s.enemies := rfl

lemma updateEnemies_enemies_length (sq : ℚ → ℚ) (dt : ℚ) (s : PhysicsEngine) :
    (updateEnemies sq dt s).enemies.length = s.enemies.length := by
  unfold updateEnemies; split <;> simp

lemma updateEmittedParticles_enemies (dt : ℚ) (s : PhysicsEngine) :
    (updateEmittedParticles dt s).enemies = s.enemies := by
  simp only [updateEmittedParticles]
  split
  · rfl
  · split <;> rfl

lemma kbStage_enemies (sq : ℚ → ℚ) (cfg : SimulationConfig) (dt : ℚ)
    (mg : Finset ℕ) (kb : Option KeyboardInput) (s : PhysicsEngine) :
    (kbStage sq cfg dt mg kb s).enemies = s.enemies := by
  cases kb <;> simp [kbStage, keyboardStage_enemies]

lemma boundaryAndSound_enemies (cfg : SimulationConfig) (dt : ℚ) (s : PhysicsEngine) :
    (boundaryAndSound cfg dt s).enemies = s.enemies := rfl

lemma reabsorbStep_width (st : PhysicsEngine) (i : ℕ) :
    (reabsorbStep st i).width = st.width ∧ (reabsorbStep st i).height = st.height := by
  simp only [reabsorbStep]; split <;> exact ⟨rfl, rfl⟩

lemma checkReabsorption_width (s : PhysicsEngine) :
    (checkReabsorption s).width = s.width ∧ (checkReabsorption s).height = s.height := by
  unfold checkReabsorption
  generalize List.range s.particles.length = l
  induction l generalizing s with
  | nil => exact ⟨rfl, rfl⟩
  | cons i t ih =>
    rw [List.foldl_cons]
    have h := reabsorbStep_width s i
    have h2 := ih (reabsorbStep s i)
    exact ⟨h2.1.trans h.1, h2.2.trans h.2⟩

lemma kbStage_width (sq : ℚ → ℚ) (cfg : SimulationConfig) (dt : ℚ)
    (mg : Finset ℕ) (kb : Option KeyboardInput) (s : PhysicsEngine) :
    (kbStage sq cfg dt mg kb s).width = s.width ∧
    (kbStage sq cfg dt mg kb s).height = s.height := by
  cases kb <;> exact ⟨rfl, rfl⟩

lemma reabsorbStep_core (st : PhysicsEngine) (i : ℕ) :
    (reabsorbStep st i).gameState = st.gameState ∧
    (reabsorbStep st i).enemyHitCooldowns = st.enemyHitCooldowns ∧
    (reabsorbStep st i).stateLog = st.stateLog := by
  simp only [reabsorbStep]; split <;> exact ⟨rfl, rfl, rfl⟩

lemma checkReabsorption_core (s : PhysicsEngine) :
    (checkReabsorption s).gameState = s.gameState ∧
    (checkReabsorption s).enemyHitCooldowns = s.enemyHitCooldowns ∧
    (checkReabsorption s).stateLog = s.stateLog := by
  unfold checkReabsorption
  generalize List.range s.particles.length = l
  induction l generalizing s with
  | nil => exact ⟨rfl, rfl, rfl⟩
  | cons i t ih =>
    rw [List.foldl_cons]
    have h := reabsorbStep_core s i
    have h2 := ih (reabsorbStep s i)
    exact ⟨h2.1.trans h.1, h2.2.1.trans h.2.1, h2.2.2.trans h.2.2⟩

lemma kbStage_core (sq : ℚ → ℚ) (cfg : SimulationConfig) (dt : ℚ)
    (mg : Finset ℕ) (kb : Option KeyboardInput) (s : PhysicsEngine) :
    (kbStage sq cfg dt mg kb s).gameState = s.gameState ∧
    (kbStage sq cfg dt mg kb s).enemyHitCooldowns = s.enemyHitCooldowns ∧
    (kbStage sq cfg dt mg kb s).stateLog = s.stateLog := by
  cases kb <;> exact ⟨rfl, rfl, rfl⟩

lemma boundaryAndSound_core (cfg : SimulationConfig) (dt : ℚ) (s : PhysicsEngine) :
    (boundaryAndSound cfg dt s).gameState = s.gameState ∧
    (boundaryAndSound cfg dt s).enemyHitCooldowns = s.enemyHitCooldowns ∧
    (boundaryAndSound cfg dt s).stateLog = s.stateLog := ⟨rfl, rfl, rfl⟩

/-- Stages 1–5 touch only particles, jump state, bounce-sound state and the
sound log: the enemies, game state, cooldown map, state-event log and
dimensions pass through unchanged. -/
lemma preUpdate_fields (sq : ℚ → ℚ) (cfg : SimulationConfig) (dt : ℚ)
    (mp : Option Vec2) (drag : Bool) (kb : Option KeyboardInput) (s : PhysicsEngine) :
    (preUpdate sq cfg dt mp drag kb s).enemies = s.enemies ∧
    (preUpdate sq cfg dt mp drag kb s).gameState = s.gameState ∧
    (preUpdate sq cfg dt mp drag kb s).enemyHitCooldowns = s.enemyHitCooldowns ∧
    (preUpdate sq cfg dt mp drag kb s).stateLog = s.stateLog ∧
    (preUpdate sq cfg dt mp drag kb s).width = s.width ∧
    (preUpdate sq cfg dt mp drag kb s).height = s.height := by
  simp only [preUpdate]
  refine ⟨?_, ?_, ?_, ?_, ?_, ?_⟩
  · rw [boundaryAndSound_enemies, checkReabsorption_enemies]
    exact kbStage_enemies sq cfg dt _ kb _
  · rw [(boundaryAndSound_core cfg dt _).1, (checkReabsorption_core _).1]
    exact (kbStage_core sq cfg dt _ kb _).1
  · rw [(boundaryAndSound_core cfg dt _).2.1, (checkReabsorption_core _).2.1]
    exact (kbStage_core sq cfg dt _ kb _).2.1
  · rw [(boundaryAndSound_core cfg dt _).2.2, (checkReabsorption_core _).2.2]
    exact (kbStage_core sq cfg dt _ kb _).2.2
  · exact ((checkReabsorption_width _).1).trans ((kbStage_width sq cfg dt _ kb _).1)
  · exact ((checkReabsorption_width _).2).trans ((kbStage_width sq cfg dt _ kb _).2)

lemma update_enemies_length (sq : ℚ → ℚ) (s : PhysicsEngine) (dt : ℚ)
    (cfg : SimulationConfig) (mp : Option Vec2) (drag : Bool)
    (kb : Option KeyboardInput) :
    (update sq s dt cfg mp drag kb).enemies.length = s.enemies.length := by
  have key : ∀ t : PhysicsEngine, (combatTail sq dt t).enemies.length = t.enemies.length := by
    intro t
    unfold combatTail
    split
    · rw [updateEmittedParticles_enemies, updateEnemies_enemies_length]
    · rw [checkEnemyCollisions_enemies_length, updateEmittedParticles_enemies,
        updateEnemies_enemies_length]
  show (combatTail sq dt _).enemies.length = _
  rw [key, (preUpdate_fields sq cfg dt mp drag kb s).1]

/-! ## Concrete fixtures for witnesses and counterexamples -/

/-- `DEFAULT_CONFIG` from `constants.ts` (damping 0.96 = 24/25,
attraction strength 1.5 = 3/2). -/
def DEFAULT_CONFIG : SimulationConfig :=
  ⟨400, 30, 12, 800, 3/2, 50, 24/25, 150, 1000, RenderMode.blob⟩

/-- Build an enemy parked on its single patrol point. -/
def enemyAt (id : ℕ) (pos : Vec2) (health : ℚ) (dead : Bool) : Enemy :=
  { id := id, position := pos, velocity := ⟨0, 0⟩, size := ENEMY_SIZE,
    patrolPoints := [pos], currentPatrolIndex := 0, patrolSpeed := ENEMY_SPEED,
    damage := ENEMY_DAMAGE, color := "#ef4444", health := health,
    maxHealth := ENEMY_MAX_HEALTH, isDead := dead }

/-- Build a particle with the engine's standard mass/radius. -/
def particleAt (id : ℕ) (pos vel : Vec2) (kind : PKind) (emitted : Bool)
    (health : Option ℚ) : Particle :=
  { id := id, position := pos, velocity := vel, force := ⟨0, 0⟩, mass := 1,
    isFixed := false, radius := 10, kind := kind, isEmitted := emitted,
    health := health, maxHealth := some 100 }

/-- A fresh full-flavoured enemy with `ENEMY_MAX_HEALTH`. -/
def e0 : Enemy := enemyAt 0 ⟨200, 576⟩ ENEMY_MAX_HEALTH false

/-- An already-dead enemy. -/
def eDead : Enemy := enemyAt 1 ⟨600, 576⟩ 0 true

/-- A small engine state: one alive body particle far from both enemies. -/
def sTiny : PhysicsEngine :=
  { particles := [particleAt 0 ⟨400, 300⟩ ⟨0, 0⟩ PKind.body false (some 100)],
    enemies := [e0, eDead],
    gameState := ⟨false⟩, width := 800, height := 600,
    initialParticleCount := 1, jumpCooldown := 0, jumpWasPressed := false,
    bounceSoundCooldown := 0, enemyHitCooldowns := [], soundLog := [], stateLog := [] }

/-- A one-particle collision-pass state: an emitted alive particle
overlapping `e0`. -/
def stOverlap : EnemyPassState :=
  ⟨[particleAt 0 ⟨200, 576⟩ ⟨0, 0⟩ PKind.body true (some 100)], e0, [], []⟩

/-! ## Claim C5: the four-hit enemy kill scenario -/

/-- C5: an enemy starting at `ENEMY_MAX_HEALTH = 50` hit repeatedly for
`PARTICLE_DAMAGE = 15` has health 35, 20, 5 (and is not dead) after hits
1–3, and reaches health 0 with `isDead` latched on exactly the 4th hit; an
overlapping emitted particle with an elapsed cooldown deals exactly one
`damageEnemy` application of `PARTICLE_DAMAGE`; once health is 0, further
damage leaves health at 0; a dead enemy passes through
`checkEnemyCollisions` unchanged (still a member of the collection), and no
`update` call ever changes the number of enemies. -/
theorem C5_enemy_four_hits_then_inert :
    (∀ e : Enemy, e.health = ENEMY_MAX_HEALTH → e.isDead = false →
      (damageEnemy e PARTICLE_DAMAGE).health = 35 ∧
      (damageEnemy e PARTICLE_DAMAGE).isDead = false ∧
      (damageEnemy (damageEnemy e PARTICLE_DAMAGE) PARTICLE_DAMAGE).health = 20 ∧
      (damageEnemy (damageEnemy e PARTICLE_DAMAGE) PARTICLE_DAMAGE).isDead = false ∧
      (damageEnemy (damageEnemy (damageEnemy e PARTICLE_DAMAGE) PARTICLE_DAMAGE)
        PARTICLE_DAMAGE).health = 5 ∧
      (damageEnemy (damageEnemy (damageEnemy e PARTICLE_DAMAGE) PARTICLE_DAMAGE)
        PARTICLE_DAMAGE).isDead = false ∧
      (damageEnemy (damageEnemy (damageEnemy (damageEnemy e PARTICLE_DAMAGE)
        PARTICLE_DAMAGE) PARTICLE_DAMAGE) PARTICLE_DAMAGE).health = 0 ∧
      (damageEnemy (damageEnemy (damageEnemy (damageEnemy e PARTICLE_DAMAGE)
        PARTICLE_DAMAGE) PARTICLE_DAMAGE) PARTICLE_DAMAGE).isDead = true) ∧
    (∀ (hitCooldown : ℚ) (st : EnemyPassState) (i : ℕ),
      aliveB (st.particles.getD i dummyParticle) = true →
      overlapB (st.particles.getD i dummyParticle) st.enemy = true →
      (st.particles.getD i dummyParticle).isEmitted = true →
      hitCooldown ≤ 0 →
      (collideStep hitCooldown st i).enemy = damageEnemy st.enemy PARTICLE_DAMAGE) ∧
    (∀ (e : Enemy) (amount : ℚ), e.health = 0 → 0 ≤ amount →
      (damageEnemy e amount).health = 0) ∧
    (∀ (s : PhysicsEngine) (e : Enemy), e ∈ s.enemies → e.isDead = true →
      e ∈ (checkEnemyCollisions s).enemies) ∧
    (∀ (sq : ℚ → ℚ) (s : PhysicsEngine) (dt : ℚ) (cfg : SimulationConfig)
       (mp : Option Vec2) (drag : Bool) (kb : Option KeyboardInput),
      (update sq s dt cfg mp drag kb).enemies.length = s.enemies.length) := by
  refine ⟨?_, ?_, ?_, ?_, ?_⟩
  · intro e he hd
    have h1 : (damageEnemy e PARTICLE_DAMAGE).health = 35 := by
      rw [damageEnemy_health, he]; norm_num [ENEMY_MAX_HEALTH, PARTICLE_DAMAGE]
    have h1d : (damageEnemy e PARTICLE_DAMAGE).isDead = false := by
      rw [damageEnemy_isDead, he, if_neg (by norm_num [ENEMY_MAX_HEALTH, PARTICLE_DAMAGE]), hd]
    have h2 : (damageEnemy (damageEnemy e PARTICLE_DAMAGE) PARTICLE_DAMAGE).health = 20 := by
      rw [damageEnemy_health, h1]; norm_num [PARTICLE_DAMAGE]
    have h2d : (damageEnemy (damageEnemy e PARTICLE_DAMAGE) PARTICLE_DAMAGE).isDead = false := by
      rw [damageEnemy_isDead, h1, if_neg (by norm_num [PARTICLE_DAMAGE]), h1d]
    have h3 : (damageEnemy (damageEnemy (damageEnemy e PARTICLE_DAMAGE) PARTICLE_DAMAGE)
        PARTICLE_DAMAGE).health = 5 := by
      rw [damageEnemy_health, h2]; norm_num [PARTICLE_DAMAGE]
    have h3d : (damageEnemy (damageEnemy (damageEnemy e PARTICLE_DAMAGE) PARTICLE_DAMAGE)
        PARTICLE_DAMAGE).isDead = false := by
      rw [damageEnemy_isDead, h2, if_neg (by norm_num [PARTICLE_DAMAGE]), h2d]
    have h4 : (damageEnemy (damageEnemy (damageEnemy (damageEnemy e PARTICLE_DAMAGE)
        PARTICLE_DAMAGE) PARTICLE_DAMAGE) PARTICLE_DAMAGE).health = 0 := by
      rw [damageEnemy_health, h3]; norm_num [PARTICLE_DAMAGE]
    have h4d : (damageEnemy (damageEnemy (damageEnemy (damageEnemy e PARTICLE_DAMAGE)
        PARTICLE_DAMAGE) PARTICLE_DAMAGE) PARTICLE_DAMAGE).isDead = true := by
      rw [damageEnemy_isDead, h3, if_pos (by norm_num [PARTICLE_DAMAGE])]
    exact ⟨h1, h1d, h2, h2d, h3, h3d, h4, h4d⟩
  · intro hitCooldown st i ha hov he hc
    simp only [collideStep]
    rw [ha, hov, he]
    simp [hc]
  · intro e amount he ha
    rw [damageEnemy_health, he]
    have h2 : (0 : ℚ) - amount ≤ 0 := by linarith
    rw [max_eq_left h2]
  · exact checkEnemyCollisions_dead_mem
  · exact update_enemies_length

/-- Witness for C5 at concrete inputs: the fresh enemy `e0` dies on the 4th
15-damage hit, a hit through `collideStep` is one `damageEnemy` application,
damage on a zero-health enemy keeps health 0, the dead enemy `eDead`
survives a collision pass as a member, and a concrete `update` call
preserves the enemy count. -/
theorem C5_witness :
    (damageEnemy (damageEnemy (damageEnemy (damageEnemy e0 PARTICLE_DAMAGE)
      PARTICLE_DAMAGE) PARTICLE_DAMAGE) PARTICLE_DAMAGE).isDead = true ∧
    (collideStep 0 stOverlap 0).enemy = damageEnemy e0 PARTICLE_DAMAGE ∧
    (damageEnemy eDead 15).health = 0 ∧
    eDead ∈ (checkEnemyCollisions sTiny).enemies ∧
    (update ratSqrt sTiny (1/60) DEFAULT_CONFIG none false none).enemies.length
      = sTiny.enemies.length := by
  refine ⟨?_, ?_, ?_, ?_, ?_⟩
  · exact (C5_enemy_four_hits_then_inert.1 e0 rfl rfl).2.2.2.2.2.2.2
  · exact C5_enemy_four_hits_then_inert.2.1 0 stOverlap 0 (by decide) (by decide)
      (by decide) (by norm_num)
  · exact C5_enemy_four_hits_then_inert.2.2.1 eDead 15 rfl (by norm_num)
  · exact C5_enemy_four_hits_then_inert.2.2.2.1 sTiny eDead (by decide) rfl
  · exact C5_enemy_four_hits_then_inert.2.2.2.2 ratSqrt sTiny (1/60) DEFAULT_CONFIG
      none false none

/-! ## Claim C9: charged launch has no division by zero -/

lemma eligibleIndices_lt (ps : List Particle) (i : ℕ) (h : i ∈ eligibleIndices ps) :
    i < ps.length := by
  unfold eligibleIndices at h
  have := List.mem_filter.mp h
  simpa using this.1

lemma foldl_bottom_mem (ps : List Particle) (l : List ℕ) :
    ∀ (rest : List ℕ) (init : ℕ × ℚ), init.1 ∈ l → (∀ j ∈ rest, j ∈ l) →
      ((rest.foldl
        (fun best j =>
          if best.2 < (ps.getD j dummyParticle).position.y then
            (j, (ps.getD j dummyParticle).position.y)
          else best) init).1) ∈ l := by
  intro rest
  induction rest with
  | nil => intro init h _; simpa using h
  | cons j t ih =>
    intro init h hall
    rw [List.foldl_cons]
    apply ih
    · dsimp only
      split
      · exact hall j (by simp)
      · exact h
    · intro k hk; exact hall k (by simp [hk])

lemma selectBottomMost_mem (ps : List Particle) (cands : List ℕ) (h : cands ≠ []) :
    selectBottomMost ps cands ∈ cands := by
  match cands with
  | [] => exact absurd rfl h
  | c0 :: rest =>
    exact foldl_bottom_mem ps (c0 :: rest) rest _ (by simp) (fun j hj => by simp [hj])

/-- C9: in `launchChargedParticle`, when an eligible particle is selected
and the squared distance to the target is < 1 (equivalently, Euclidean
distance < 1), the velocity is set to the straight-up fallback `(0, −mag)`;
otherwise the normalizing divisor `sq dSq` is ≥ 1 (in particular nonzero)
and the velocity is the normalized direction scaled by `mag`.  The square
root hypothesis states that `sq` computes the exact square root at the one
point where the source calls `Math.sqrt`. -/
theorem C9_launch_charged_no_div_zero (sq : ℚ → ℚ) (s : PhysicsEngine)
    (target : Vec2) (mag : ℚ)
    (hne : eligibleIndices s.particles ≠ [])
    (idx : ℕ) (hidx : idx = selectBottomMost s.particles (eligibleIndices s.particles))
    (dx dy dSq : ℚ)
    (hdx : dx = target.x - (s.particles.getD idx dummyParticle).position.x)
    (hdy : dy = target.y - (s.particles.getD idx dummyParticle).position.y)
    (hdSq : dSq = dx * dx + dy * dy)
    (hsq0 : 0 ≤ sq dSq) (hsq : sq dSq * sq dSq = dSq) :
    (dSq < 1 →
      ((launchChargedParticle sq target mag s).particles.getD idx dummyParticle).velocity
        = ⟨0, -mag⟩) ∧
    (1 ≤ dSq →
      1 ≤ sq dSq ∧
      ((launchChargedParticle sq target mag s).particles.getD idx dummyParticle).velocity
        = ⟨dx / sq dSq * mag, dy / sq dSq * mag⟩) := by
  have hlen : idx < s.particles.length :=
    eligibleIndices_lt s.particles idx (hidx ▸ selectBottomMost_mem _ _ hne)
  have hempty : (eligibleIndices s.particles).isEmpty = false := by
    cases h : eligibleIndices s.particles with
    | nil => exact absurd h hne
    | cons a t => rfl
  constructor
  · intro hlt
    have hslt : sq dSq < 1 := by nlinarith
    simp only [launchChargedParticle]
    rw [hempty]
    simp only [Bool.false_eq_true, if_false, ← hidx]
    rw [if_pos (by rw [← hdx, ← hdy, ← hdSq]; exact hslt)]
    simp [List.getD_eq_getD_get?, List.getElem?_set_eq_of_lt _ hlen]
  · intro hge
    have hsge : 1 ≤ sq dSq := by nlinarith
    simp only [launchChargedParticle]
    rw [hempty]
    simp only [Bool.false_eq_true, if_false, ← hidx]
    rw [if_neg (by rw [← hdx, ← hdy, ← hdSq]; exact not_lt.mpr hsge)]
    refine ⟨hsge, ?_⟩
    simp [List.getD_eq_getD_get?, List.getElem?_set_eq_of_lt _ hlen, hdx, hdy, hdSq]

/-- A one-body-particle engine for exercising the launch routines. -/
def sLaunch : PhysicsEngine :=
  { particles := [particleAt 0 ⟨100, 100⟩ ⟨0, 0⟩ PKind.body false (some 100)],
    enemies := [], gameState := ⟨false⟩, width := 800, height := 600,
    initialParticleCount := 1, jumpCooldown := 0, jumpWasPressed := false,
    bounceSoundCooldown := 0, enemyHitCooldowns := [], soundLog := [], stateLog := [] }

/-- Witness for C9: a target on the particle (distance 0) launches straight
up at `(0, −600)`; a target at Pythagorean offset `(3, 4)` divides by the
distance 5 ≥ 1. -/
theorem C9_witness :
    ((launchChargedParticle ratSqrt ⟨100, 100⟩ 600 sLaunch).particles.getD 0
      dummyParticle).velocity = ⟨0, -600⟩ ∧
    (1 ≤ ratSqrt 25 ∧
      ((launchChargedParticle ratSqrt ⟨103, 104⟩ 600 sLaunch).particles.getD 0
        dummyParticle).velocity = ⟨3 / ratSqrt 25 * 600, 4 / ratSqrt 25 * 600⟩) := by
  constructor
  · exact (C9_launch_charged_no_div_zero ratSqrt sLaunch ⟨100, 100⟩ 600 (by decide)
      0 (by decide) 0 0 0 (by decide) (by decide) (by decide) (by decide)
      (by decide)).1 (by norm_num)
  · exact (C9_launch_charged_no_div_zero ratSqrt sLaunch ⟨103, 104⟩ 600 (by decide)
      0 (by decide) 3 4 25 (by decide) (by decide) (by decide) (by decide)
      (by decide)).2 (by norm_num)

/-! ## Claim C2: pairwise forces -/

/-- C2: for a pair of alive particles at indices `i ≠ j` whose squared
separation `dSq` is nonzero and at most the squared interaction radius,
`pairStep` (the body of the interaction pass of `update`, as recorded by the
final conjunct) adds the increment `(fx, fy)` to particle `i`'s force and
exactly the opposite increment `(−fx, −fy)` to particle `j`'s force, where
`fm` is the scalar magnitude built from the repulsion branch (using 2.5× the
configured repulsion strength iff both particles are eyes) and the
attraction branch scaled by `(1 − d/interactionRadius) * 100 *
attractionStrength`; in the repulsion regime `d < 1.5 * particleRadius` the
increment on `i` is a positive multiple of the vector from `j`'s position to
`i`'s position (pointing away from `j`), and in the attraction regime
`1.5 * particleRadius < d < interactionRadius` it is a positive multiple of
the vector from `i` to `j` (pointing toward `j`).  `d = sq dSq` is the exact
Euclidean separation by the hypotheses `0 < d`, `d * d = dSq`. -/
theorem C2_pair_forces (sq : ℚ → ℚ) (cfg : SimulationConfig) (ps : List Particle)
    (i j : ℕ) (hi : i < ps.length) (hj : j < ps.length) (hij : i ≠ j)
    (pA pB : Particle) (hpA : pA = ps.getD i dummyParticle)
    (hpB : pB = ps.getD j dummyParticle)
    (ha : aliveB pA = true) (hb : aliveB pB = true)
    (dx dy dSq : ℚ)
    (hdx : dx = pB.position.x - pA.position.x)
    (hdy : dy = pB.position.y - pA.position.y)
    (hdSq : dSq = dx * dx + dy * dy)
    (hne : dSq ≠ 0)
    (hin : dSq ≤ cfg.interactionRadius * cfg.interactionRadius)
    (d : ℚ) (hd : d = sq dSq) (hdpos : 0 < d) (hdd : d * d = dSq)
    (diameter : ℚ) (hdiam : diameter = cfg.particleRadius * (3/2))
    (rep : ℚ)
    (hrep : rep = if pA.kind = PKind.eye ∧ pB.kind = PKind.eye then
        cfg.repulsionStrength * (5/2) else cfg.repulsionStrength)
    (fm : ℚ)
    (hfm : fm = (if d < diameter then -(rep * (1 - d / diameter)) else 0) +
      (if diameter < d then cfg.attractionStrength * (1 - d / cfg.interactionRadius) * 100 else 0))
    (fx fy : ℚ) (hfx : fx = dx / d * fm) (hfy : fy = dy / d * fm) :
    (((pairStep sq cfg ps (i, j)).getD i dummyParticle).force.x = pA.force.x + fx ∧
     ((pairStep sq cfg ps (i, j)).getD i dummyParticle).force.y = pA.force.y + fy ∧
     ((pairStep sq cfg ps (i, j)).getD j dummyParticle).force.x = pB.force.x - fx ∧
     ((pairStep sq cfg ps (i, j)).getD j dummyParticle).force.y = pB.force.y - fy) ∧
    (d < diameter → 0 < cfg.repulsionStrength →
      ∃ c : ℚ, 0 < c ∧ fx = c * (pA.position.x - pB.position.x) ∧
        fy = c * (pA.position.y - pB.position.y)) ∧
    (diameter < d → d < cfg.interactionRadius → 0 < cfg.attractionStrength →
      ∃ c : ℚ, 0 < c ∧ fx = c * (pB.position.x - pA.position.x) ∧
        fy = c * (pB.position.y - pA.position.y)) ∧
    (d < diameter → fm = -(rep * (1 - d / diameter))) ∧
    (diameter < d → fm = cfg.attractionStrength * (1 - d / cfg.interactionRadius) * 100) ∧
    (∀ qs : List Particle,
      interactionStage sq cfg qs = (pairIndices qs.length).foldl (pairStep sq cfg) qs) := by
  have hstep : pairStep sq cfg ps (i, j) =
      (ps.set i { pA with force := ⟨pA.force.x + fx, pA.force.y + fy⟩ }).set j
        { pB with force := ⟨pB.force.x - fx, pB.force.y - fy⟩ } := by
    simp only [pairStep, ← hpA, ← hpB, ha, hb, Bool.not_true, Bool.false_eq_true,
      if_false]
    rw [← hdx, ← hdy, ← hdSq]
    rw [if_neg (not_or.mpr ⟨not_lt.mpr hin, hne⟩)]
    rw [← hd, ← hdiam, ← hrep, ← hfm, ← hfx, ← hfy]
  refine ⟨?_, ?_, ?_, ?_, ?_, fun qs => rfl⟩
  · rw [hstep]
    have h1 : ((ps.set i { pA with force := ⟨pA.force.x + fx, pA.force.y + fy⟩ }).set j
        { pB with force := ⟨pB.force.x - fx, pB.force.y - fy⟩ }).getD i dummyParticle
        = { pA with force := ⟨pA.force.x + fx, pA.force.y + fy⟩ } := by
      rw [getD_set_ne _ _ _ (Ne.symm hij), getD_set_self _ _ _ hi]
    have h2 : ((ps.set i { pA with force := ⟨pA.force.x + fx, pA.force.y + fy⟩ }).set j
        { pB with force := ⟨pB.force.x - fx, pB.force.y - fy⟩ }).getD j dummyParticle
        = { pB with force := ⟨pB.force.x - fx, pB.force.y - fy⟩ } := by
      rw [getD_set_self _ _ _ (by simpa using hj)]
    rw [h1, h2]
    exact ⟨rfl, rfl, rfl, rfl⟩
  · intro hreg hrs
    have hdiampos : 0 < diameter := lt_trans hdpos hreg
    have hreppos : 0 < rep := by
      rw [hrep]; split
      · positivity
      · exact hrs
    have hpush : 0 < 1 - d / diameter := by
      rw [sub_pos, div_lt_one hdiampos]; exact hreg
    refine ⟨rep * (1 - d / diameter) / d, by positivity, ?_, ?_⟩
    · rw [hfx, hfm, if_pos hreg, if_neg (by linarith), hdx]
      field_simp
      ring
    · rw [hfy, hfm, if_pos hreg, if_neg (by linarith), hdy]
      field_simp
      ring
  · intro hreg hltR hat
    have hRpos : 0 < cfg.interactionRadius := lt_trans hdpos hltR
    have hpull : 0 < 1 - d / cfg.interactionRadius := by
      rw [sub_pos, div_lt_one hRpos]; exact hltR
    refine ⟨cfg.attractionStrength * (1 - d / cfg.interactionRadius) * 100 / d,
      by positivity, ?_, ?_⟩
    · rw [hfx, hfm, if_neg (by linarith), if_pos hreg, hdx]
      field_simp
      ring
    · rw [hfy, hfm, if_neg (by linarith), if_pos hreg, hdy]
      field_simp
      ring
  · intro hreg
    rw [hfm, if_pos hreg, if_neg (by linarith)]
    ring
  · intro hreg
    rw [hfm, if_neg (by linarith), if_pos hreg]
    ring

/-- Two alive body particles at Pythagorean separation 5 (inside the
repulsion regime for the default particle radius 12). -/
def psPair : List Particle :=
  [particleAt 0 ⟨0, 0⟩ ⟨0, 0⟩ PKind.body false (some 100),
   particleAt 1 ⟨3, 4⟩ ⟨0, 0⟩ PKind.body false (some 100)]

/-- Witness for C2 at a concrete pair: separation 5 < diameter 18, so the
pair gets equal-and-opposite increments and particle 0's increment points
away from particle 1. -/
theorem C2_witness :
    ((pairStep ratSqrt DEFAULT_CONFIG psPair (0, 1)).getD 0 dummyParticle).force.x
        = 0 + 3 / 5 * (-5200/9) ∧
    ((pairStep ratSqrt DEFAULT_CONFIG psPair (0, 1)).getD 1 dummyParticle).force.x
        = 0 - 3 / 5 * (-5200/9) ∧
    (∃ c : ℚ, 0 < c ∧ 3 / 5 * (-5200/9) = c * (0 - 3) ∧
      4 / 5 * (-5200/9) = c * (0 - 4)) := by
  have h := C2_pair_forces ratSqrt DEFAULT_CONFIG psPair 0 1 (by decide) (by decide)
    (by decide)
    (particleAt 0 ⟨0, 0⟩ ⟨0, 0⟩ PKind.body false (some 100))
    (particleAt 1 ⟨3, 4⟩ ⟨0, 0⟩ PKind.body false (some 100))
    (by decide) (by decide) (by decide) (by decide)
    3 4 25 (by decide) (by decide) (by decide) (by decide) (by decide)
    5 (by decide) (by decide) (by decide)
    18 (by decide) 800 (by decide) (-5200/9) (by decide)
    (3/5 * (-5200/9)) (4/5 * (-5200/9)) (by decide) (by decide)
  exact ⟨h.1.1, h.1.2.2.1, h.2.1 (by norm_num) (by decide)⟩

/-! ## Claim C7: boundary resolution box invariant -/

/-- The box `[r, w−r] × [r, h−r]` the spec promises particles stay in. -/
def inBox (w h r : ℚ) (p : Particle) : Prop :=
  r ≤ p.position.x ∧ p.position.x ≤ w - r ∧
  r ≤ p.position.y ∧ p.position.y ≤ h - r

lemma resolveParticle_health (w h r : ℚ) (p : Particle) :
    (resolveParticle w h r p).health = p.health := by
  simp only [resolveParticle]
  split <;> split <;> split <;> split <;> rfl

lemma resolveParticle_inBox (w h r : ℚ) (hw : 2 * r ≤ w) (hh : 2 * r ≤ h)
    (p : Particle) : inBox w h r (resolveParticle w h r p) := by
  have hrw : r ≤ w - r := by linarith
  have hrh : r ≤ h - r := by linarith
  simp only [resolveParticle, inBox]
  rcases le_or_lt p.position.y (h - r) with hy | hy
  · rw [if_neg (not_lt.mpr hy)]
    rcases le_or_lt r p.position.y with hy2 | hy2
    · rw [if_neg (not_lt.mpr hy2)]
      rcases le_or_lt p.position.x (w - r) with hx | hx
      · rw [if_neg (not_lt.mpr hx)]
        rcases le_or_lt r p.position.x with hx2 | hx2
        · rw [if_neg (not_lt.mpr hx2)]
          exact ⟨hx2, hx, hy2, hy⟩
        · rw [if_pos hx2]
          exact ⟨le_refl r, hrw, hy2, hy⟩
      · rw [if_pos hx]
        rw [if_neg (not_lt.mpr hrw)]
        exact ⟨hrw, le_refl _, hy2, hy⟩
    · rw [if_pos hy2]
      rcases le_or_lt p.position.x (w - r) with hx | hx
      · rw [if_neg (not_lt.mpr hx)]
        rcases le_or_lt r p.position.x with hx2 | hx2
        · rw [if_neg (not_lt.mpr hx2)]
          exact ⟨hx2, hx, le_refl r, hrh⟩
        · rw [if_pos hx2]
          exact ⟨le_refl r, hrw, le_refl r, hrh⟩
      · rw [if_pos hx]
        rw [if_neg (not_lt.mpr hrw)]
        exact ⟨hrw, le_refl _, le_refl r, hrh⟩
  · rw [if_pos hy]
    rw [if_neg (not_lt.mpr hrh)]
    rcases le_or_lt p.position.x (w - r) with hx | hx
    · rw [if_neg (not_lt.mpr hx)]
      rcases le_or_lt r p.position.x with hx2 | hx2
      · rw [if_neg (not_lt.mpr hx2)]
        exact ⟨hx2, hx, hrh, le_refl _⟩
      · rw [if_pos hx2]
        exact ⟨le_refl r, hrw, hrh, le_refl _⟩
    · rw [if_pos hx]
      rw [if_neg (not_lt.mpr hrw)]
      exact ⟨hrw, le_refl _, hrh, le_refl _⟩

lemma boundaryStep_particles (w h r : ℚ) (acc : BoundaryResult) (p : Particle) :
    (boundaryStep w h r acc p).particles = acc.particles ++
      [if aliveB p then resolveParticle w h r p else p] := by
  simp only [boundaryStep]
  rcases hb : aliveB p with _ | _ <;> simp [hb] <;> split <;> rfl

lemma boundary_fold_mem (w h r : ℚ) (ps : List Particle) :
    ∀ (acc : BoundaryResult) (p' : Particle),
      p' ∈ (ps.foldl (boundaryStep w h r) acc).particles →
      p' ∈ acc.particles ∨
        ∃ p ∈ ps, (aliveB p = false ∧ p' = p) ∨
          (aliveB p = true ∧ p' = resolveParticle w h r p) := by
  induction ps with
  | nil => intro acc p' h; exact Or.inl h
  | cons q t ih =>
    intro acc p' h
    rw [List.foldl_cons] at h
    rcases ih _ _ h with hacc | ⟨p, hp, hcase⟩
    · rw [boundaryStep_particles] at hacc
      rcases List.mem_append.mp hacc with h1 | h1
      · exact Or.inl h1
      · have h2 := List.mem_singleton.mp h1
        rcases hq : aliveB q with _ | _
        · refine Or.inr ⟨q, by simp, Or.inl ⟨hq, ?_⟩⟩
          rw [h2, if_neg (by rw [hq]; exact Bool.false_ne_true)]
        · refine Or.inr ⟨q, by simp, Or.inr ⟨hq, ?_⟩⟩
          rw [h2, if_pos hq]
    · exact Or.inr ⟨p, by simp [hp], hcase⟩

lemma updateEnemies_particles (sq : ℚ → ℚ) (dt : ℚ) (s : PhysicsEngine) :
    (updateEnemies sq dt s).particles = s.particles := by
  unfold updateEnemies; split <;> rfl

lemma updateEmittedParticles_particles (dt : ℚ) (s : PhysicsEngine) :
    (updateEmittedParticles dt s).particles = s.particles.filter aliveB := by
  simp only [updateEmittedParticles]
  split
  · rfl
  · split <;> rfl

/-- Relation between a particle before and after the enemy-collision pass:
either untouched or (if it was alive) destroyed in place by setting health
to 0 — position, velocity and everything else preserved. -/
def KilledOrSame (p q : Particle) : Prop :=
  q = p ∨ (aliveB p = true ∧ q = { p with health := some 0 })

lemma killedOrSame_refl (p : Particle) : KilledOrSame p p := Or.inl rfl

lemma killedOrSame_position {p q : Particle} (h : KilledOrSame p q) :
    q.position = p.position := by
  rcases h with rfl | ⟨-, rfl⟩ <;> rfl

lemma aliveB_set_health_zero (p : Particle) :
    aliveB { p with health := some 0 } = false := by
  simp [aliveB]

lemma collideStep_cases (hc : ℚ) (st : EnemyPassState) (k : ℕ) :
    (collideStep hc st k).particles = st.particles ∨
      (aliveB (st.particles.getD k dummyParticle) = true ∧
       (collideStep hc st k).particles =
         st.particles.set k
           { st.particles.getD k dummyParticle with health := some 0 }) := by
  simp only [collideStep]
  rcases ha : aliveB (st.particles.getD k dummyParticle) with _ | _
  · simp [ha]
  · simp only [ha, Bool.not_true, Bool.false_eq_true, if_false]
    split
    · split
      · split
        · exact Or.inr ⟨trivial, rfl⟩
        · exact Or.inl rfl
      · exact Or.inr ⟨trivial, rfl⟩
    · exact Or.inl rfl

lemma rel_step (orig cur : List Particle) (k : ℕ)
    (hlen : cur.length = orig.length)
    (hrel : ∀ i, KilledOrSame (orig.getD i dummyParticle) (cur.getD i dummyParticle))
    (ha : aliveB (cur.getD k dummyParticle) = true) :
    (cur.set k { cur.getD k dummyParticle with health := some 0 }).length = orig.length ∧
    ∀ i, KilledOrSame (orig.getD i dummyParticle)
      ((cur.set k { cur.getD k dummyParticle with health := some 0 }).getD i dummyParticle) := by
  constructor
  · rw [List.length_set]; exact hlen
  · intro i
    rcases eq_or_ne k i with rfl | hki
    · by_cases hk : k < cur.length
      · rw [getD_set_self _ _ _ hk]
        rcases hrel k with hsame | ⟨halive, hkill⟩
        · rw [hsame]
          exact Or.inr ⟨by rw [← hsame]; exact ha, rfl⟩
        · rw [hkill]
          exact Or.inr ⟨halive, rfl⟩
      · rw [List.set_eq_of_length_le (le_of_not_lt hk)]
        exact hrel k
    · rw [getD_set_ne _ _ _ hki]
      exact hrel i

lemma collide_fold_rel (orig : List Particle) (hc : ℚ) (l : List ℕ) :
    ∀ st : EnemyPassState,
      st.particles.length = orig.length →
      (∀ i, KilledOrSame (orig.getD i dummyParticle) (st.particles.getD i dummyParticle)) →
      (l.foldl (collideStep hc) st).particles.length = orig.length ∧
      ∀ i, KilledOrSame (orig.getD i dummyParticle)
        ((l.foldl (collideStep hc) st).particles.getD i dummyParticle) := by
  induction l with
  | nil => intro st hlen hrel; exact ⟨hlen, hrel⟩
  | cons k t ih =>
    intro st hlen hrel
    rw [List.foldl_cons]
    rcases collideStep_cases hc st k with hsame | ⟨ha, hset⟩
    · apply ih
      · rw [hsame]; exact hlen
      · intro i; rw [hsame]; exact hrel i
    · have hr := rel_step orig st.particles k hlen hrel ha
      apply ih
      · rw [hset]; exact hr.1
      · intro i; rw [hset]; exact hr.2 i

lemma processEnemy_rel (orig : List Particle) (cst : CollisionState) (e : Enemy)
    (hlen : cst.particles.length = orig.length)
    (hrel : ∀ i, KilledOrSame (orig.getD i dummyParticle) (cst.particles.getD i dummyParticle)) :
    (processEnemy cst e).particles.length = orig.length ∧
    ∀ i, KilledOrSame (orig.getD i dummyParticle)
      ((processEnemy cst e).particles.getD i dummyParticle) := by
  unfold processEnemy
  split
  · exact ⟨hlen, hrel⟩
  · exact collide_fold_rel orig _ _ _ hlen hrel

lemma collision_outer_rel (orig : List Particle) (es : List Enemy) :
    ∀ cst : CollisionState,
      cst.particles.length = orig.length →
      (∀ i, KilledOrSame (orig.getD i dummyParticle) (cst.particles.getD i dummyParticle)) →
      (es.foldl processEnemy cst).particles.length = orig.length ∧
      ∀ i, KilledOrSame (orig.getD i dummyParticle)
        ((es.foldl processEnemy cst).particles.getD i dummyParticle) := by
  induction es with
  | nil => intro cst hlen hrel; exact ⟨hlen, hrel⟩
  | cons e t ih =>
    intro cst hlen hrel
    rw [List.foldl_cons]
    have h := processEnemy_rel orig cst e hlen hrel
    exact ih _ h.1 h.2

lemma checkEnemyCollisions_rel (s : PhysicsEngine) :
    (checkEnemyCollisions s).particles.length = s.particles.length ∧
    ∀ i, KilledOrSame (s.particles.getD i dummyParticle)
      ((checkEnemyCollisions s).particles.getD i dummyParticle) := by
  rw [show (checkEnemyCollisions s).particles =
    (s.enemies.foldl processEnemy
      ⟨s.particles, [], decrementCooldowns s.enemyHitCooldowns, s.soundLog⟩).particles from rfl]
  exact collision_outer_rel s.particles s.enemies _ rfl (fun i => killedOrSame_refl _)

lemma mem_getD_of_mem {α : Type} [Inhabited α] (l : List α) (d : α) (p : α)
    (h : p ∈ l) : ∃ i, i < l.length ∧ p = l.getD i d := by
  obtain ⟨⟨i, hi⟩, hget⟩ := List.mem_iff_get.mp h
  exact ⟨i, hi, by rw [List.getD_eq_getElem l d hi]; exact hget.symm⟩

lemma getD_mem {α : Type} (l : List α) (d : α) (i : ℕ) (hi : i < l.length) :
    l.getD i d ∈ l := by
  rw [List.getD_eq_getElem l d hi]
  exact List.getElem_mem hi

lemma boundaryAndSound_particles (cfg : SimulationConfig) (dt : ℚ) (s : PhysicsEngine) :
    (boundaryAndSound cfg dt s).particles =
      (s.particles.foldl (boundaryStep s.width s.height cfg.particleRadius)
        ⟨[], 0, false⟩).particles := rfl

/-- C7: after any `update` call with `2r ≤ width` and `2r ≤ height` (where
`r` is the configured particle radius), every particle remaining in the
collection lies in the box `[r, w−r] × [r, h−r]`: boundary resolution clamps
every alive particle into the box, and the stages that run afterwards
(enemy patrol, pruning, enemy collisions) never move a particle. -/
theorem C7_boundary_box (sq : ℚ → ℚ) (s : PhysicsEngine) (dt : ℚ)
    (cfg : SimulationConfig) (mp : Option Vec2) (drag : Bool)
    (kb : Option KeyboardInput)
    (hw : 2 * cfg.particleRadius ≤ s.width) (hh : 2 * cfg.particleRadius ≤ s.height) :
    ∀ p ∈ (update sq s dt cfg mp drag kb).particles,
      inBox s.width s.height cfg.particleRadius p := by
  have key : ∀ t : PhysicsEngine,
      (∀ p ∈ t.particles, aliveB p = true → inBox s.width s.height cfg.particleRadius p) →
      ∀ p ∈ (combatTail sq dt t).particles,
        inBox s.width s.height cfg.particleRadius p := by
    intro t ht
    unfold combatTail
    have hprune : ∀ p ∈ (updateEmittedParticles dt (updateEnemies sq dt t)).particles,
        inBox s.width s.height cfg.particleRadius p := by
      intro p hp
      rw [updateEmittedParticles_particles, updateEnemies_particles] at hp
      have := List.mem_filter.mp hp
      exact ht p this.1 this.2
    split
    · exact hprune
    · intro p hp
      set t9 := updateEmittedParticles dt (updateEnemies sq dt t) with ht9
      have hrel := checkEnemyCollisions_rel t9
      obtain ⟨i, hi, rfl⟩ := mem_getD_of_mem _ dummyParticle p hp
      have hi2 : i < t9.particles.length := by rw [← hrel.1]; exact hi
      have hpos := killedOrSame_position (hrel.2 i)
      have hbase := hprune (t9.particles.getD i dummyParticle) (getD_mem _ _ i hi2)
      unfold inBox at hbase ⊢
      rw [hpos]
      exact hbase
  have hmain : ∀ t6 : PhysicsEngine, t6.width = s.width → t6.height = s.height →
      ∀ p ∈ (boundaryAndSound cfg dt t6).particles, aliveB p = true →
        inBox s.width s.height cfg.particleRadius p := by
    intro t6 hw6 hh6 p hp halive
    rw [boundaryAndSound_particles, hw6, hh6] at hp
    rcases boundary_fold_mem s.width s.height cfg.particleRadius t6.particles _ p hp with
      hnil | ⟨q, -, ⟨hdead, rfl⟩ | ⟨-, rfl⟩⟩
    · simp at hnil
    · rw [halive] at hdead; exact absurd hdead (by simp)
    · exact resolveParticle_inBox s.width s.height cfg.particleRadius hw hh q
  show ∀ p ∈ (combatTail sq dt _).particles, _
  apply key
  simp only [preUpdate]
  apply hmain
  · rw [(checkReabsorption_width _).1]
    exact (kbStage_width sq cfg dt _ kb _).1
  · rw [(checkReabsorption_width _).2]
    exact (kbStage_width sq cfg dt _ kb _).2

/-! ## Claim C10: cooldown decrement semantics -/

lemma cdLookup_cons (e : ℕ × ℚ) (t : List (ℕ × ℚ)) (id : ℕ) :
    cdLookup (e :: t) id = if e.1 = id then some e.2 else cdLookup t id := by
  unfold cdLookup
  by_cases h : e.1 = id
  · rw [List.find?_cons_of_pos _ (by simpa using h), if_pos h]
  · rw [List.find?_cons_of_neg _ (by simpa using h), if_neg h]

lemma cdLookup_decrement (m : List (ℕ × ℚ)) (id : ℕ) :
    cdLookup (decrementCooldowns m) id =
      (cdLookup m id).map (fun v => if 0 < v then v - TIME_STEP else v) := by
  induction m with
  | nil => rfl
  | cons e t ih =>
    rw [show decrementCooldowns (e :: t) =
      (if 0 < e.2 then (e.1, e.2 - TIME_STEP) else e) :: decrementCooldowns t from rfl]
    by_cases hv : 0 < e.2
    · rw [if_pos hv, cdLookup_cons, cdLookup_cons]
      by_cases h : e.1 = id
      · rw [if_pos h, if_pos h]
        simp [hv]
      · rw [if_neg h, if_neg h, ih]
    · rw [if_neg hv, cdLookup_cons, cdLookup_cons]
      by_cases h : e.1 = id
      · rw [if_pos h, if_pos h]
        simp [hv]
      · rw [if_neg h, if_neg h, ih]

lemma cdLookup_cdSet_or (m : List (ℕ × ℚ)) (k : ℕ) (v : ℚ) (id : ℕ) :
    cdLookup (cdSet m k v) id = cdLookup m id ∨
    cdLookup (cdSet m k v) id = some v := by
  unfold cdSet
  split
  · clear * -
    induction m with
    | nil => exact Or.inl rfl
    | cons e t ih =>
      rw [List.map_cons, cdLookup_cons, cdLookup_cons]
      by_cases hek : e.1 = k
      · rw [if_pos hek]
        by_cases hk : k = id
        · rw [if_pos (show ((k, v) : ℕ × ℚ).1 = id from hk)]
          exact Or.inr rfl
        · rw [if_neg (show ¬((k, v) : ℕ × ℚ).1 = id from hk),
            if_neg (fun hc => hk (hek.symm.trans hc))]
          exact ih
      · rw [if_neg hek]
        by_cases he : e.1 = id
        · rw [if_pos he, if_pos he]; exact Or.inl rfl
        · rw [if_neg he, if_neg he]; exact ih
  · clear * -
    induction m with
    | nil =>
      rw [List.nil_append, cdLookup_cons]
      by_cases hk : k = id
      · rw [if_pos hk]; exact Or.inr rfl
      · rw [if_neg hk]; exact Or.inl rfl
    | cons e t ih =>
      rw [List.cons_append, cdLookup_cons, cdLookup_cons]
      by_cases he : e.1 = id
      · rw [if_pos he, if_pos he]; exact Or.inl rfl
      · rw [if_neg he, if_neg he]; exact ih

lemma collideStep_cooldowns_cases (hc : ℚ) (st : EnemyPassState) (k : ℕ) :
    (collideStep hc st k).cooldowns = st.cooldowns ∨
    (collideStep hc st k).cooldowns = cdSet st.cooldowns st.enemy.id ENEMY_HIT_COOLDOWN := by
  simp only [collideStep]
  split
  · exact Or.inl rfl
  · split
    · split
      · split
        · exact Or.inr rfl
        · exact Or.inl rfl
      · exact Or.inl rfl
    · exact Or.inl rfl

/-- Cooldown-map invariant through the collision pass: every entry either
keeps its (decremented) value or has been reset to `ENEMY_HIT_COOLDOWN` by
a hit. -/
def CdInv (m0 cur : List (ℕ × ℚ)) : Prop :=
  ∀ id : ℕ, cdLookup cur id = cdLookup m0 id ∨
    cdLookup cur id = some ENEMY_HIT_COOLDOWN

lemma cdInv_refl (m0 : List (ℕ × ℚ)) : CdInv m0 m0 := fun _ => Or.inl rfl

lemma cdInv_cdSet (m0 cur : List (ℕ × ℚ)) (k : ℕ) (h : CdInv m0 cur) :
    CdInv m0 (cdSet cur k ENEMY_HIT_COOLDOWN) := by
  intro id
  rcases cdLookup_cdSet_or cur k ENEMY_HIT_COOLDOWN id with h1 | h1
  · rw [h1]; exact h id
  · exact Or.inr h1

lemma collide_fold_cdInv (m0 : List (ℕ × ℚ)) (hc : ℚ) (l : List ℕ) :
    ∀ st : EnemyPassState, CdInv m0 st.cooldowns →
      CdInv m0 ((l.foldl (collideStep hc) st).cooldowns) := by
  induction l with
  | nil => intro st h; exact h
  | cons k t ih =>
    intro st h
    rw [List.foldl_cons]
    apply ih
    rcases collideStep_cooldowns_cases hc st k with h1 | h1
    · rw [h1]; exact h
    · rw [h1]; exact cdInv_cdSet m0 st.cooldowns st.enemy.id h

lemma processEnemy_cdInv (m0 : List (ℕ × ℚ)) (cst : CollisionState) (e : Enemy)
    (h : CdInv m0 cst.cooldowns) : CdInv m0 (processEnemy cst e).cooldowns := by
  unfold processEnemy
  split
  · exact h
  · exact collide_fold_cdInv m0 _ _ _ h

lemma collision_outer_cdInv (m0 : List (ℕ × ℚ)) (es : List Enemy) :
    ∀ cst : CollisionState, CdInv m0 cst.cooldowns →
      CdInv m0 (es.foldl processEnemy cst).cooldowns := by
  induction es with
  | nil => intro cst h; exact h
  | cons e t ih =>
    intro cst h
    rw [List.foldl_cons]
    exact ih _ (processEnemy_cdInv m0 cst e h)

lemma checkEnemyCollisions_cdInv (s : PhysicsEngine) :
    CdInv (decrementCooldowns s.enemyHitCooldowns)
      (checkEnemyCollisions s).enemyHitCooldowns := by
  rw [show (checkEnemyCollisions s).enemyHitCooldowns =
    (s.enemies.foldl processEnemy
      ⟨s.particles, [], decrementCooldowns s.enemyHitCooldowns, s.soundLog⟩).cooldowns from rfl]
  exact collision_outer_cdInv _ s.enemies _ (cdInv_refl _)

lemma updateEnemies_tail_fields (sq : ℚ → ℚ) (dt : ℚ) (s : PhysicsEngine) :
    (updateEnemies sq dt s).gameState = s.gameState ∧
    (updateEnemies sq dt s).enemyHitCooldowns = s.enemyHitCooldowns ∧
    (updateEnemies sq dt s).stateLog = s.stateLog ∧
    (updateEnemies sq dt s).soundLog = s.soundLog := by
  unfold updateEnemies; split <;> exact ⟨rfl, rfl, rfl, rfl⟩

lemma updateEmittedParticles_cooldowns (dt : ℚ) (s : PhysicsEngine) :
    (updateEmittedParticles dt s).enemyHitCooldowns = s.enemyHitCooldowns := by
  simp only [updateEmittedParticles]
  split
  · rfl
  · split <;> rfl

lemma checkEnemyCollisions_gameState (s : PhysicsEngine) :
    (checkEnemyCollisions s).gameState = s.gameState := rfl

lemma combatTail_gameState (sq : ℚ → ℚ) (dt : ℚ) (t : PhysicsEngine) :
    (combatTail sq dt t).gameState =
      (updateEmittedParticles dt (updateEnemies sq dt t)).gameState := by
  unfold combatTail; split
  · rfl
  · exact checkEnemyCollisions_gameState _

lemma combatTail_of_gameOver (sq : ℚ → ℚ) (dt : ℚ) (t : PhysicsEngine)
    (h : (updateEmittedParticles dt (updateEnemies sq dt t)).gameState.isGameOver = true) :
    combatTail sq dt t = updateEmittedParticles dt (updateEnemies sq dt t) := by
  unfold combatTail; rw [if_pos h]

lemma combatTail_of_not_gameOver (sq : ℚ → ℚ) (dt : ℚ) (t : PhysicsEngine)
    (h : (updateEmittedParticles dt (updateEnemies sq dt t)).gameState.isGameOver = false) :
    combatTail sq dt t =
      checkEnemyCollisions (updateEmittedParticles dt (updateEnemies sq dt t)) := by
  unfold combatTail; rw [h]; simp

/-- C10: the cooldown-decrement pass subtracts exactly `TIME_STEP = 1/60`
from every positive entry (independent of `dt`, which `decrementCooldowns`
does not even receive); on a call where game over ends up latched the
cooldown map is completely untouched, and on a call where it is not, every
entry of the resulting map is either its decremented value or has been
reset to `ENEMY_HIT_COOLDOWN` by a hit in the same pass. -/
theorem C10_cooldown_decrement :
    (∀ (m : List (ℕ × ℚ)) (id : ℕ),
      cdLookup (decrementCooldowns m) id =
        (cdLookup m id).map (fun v => if 0 < v then v - TIME_STEP else v)) ∧
    (∀ (sq : ℚ → ℚ) (s : PhysicsEngine) (dt : ℚ) (cfg : SimulationConfig)
       (mp : Option Vec2) (drag : Bool) (kb : Option KeyboardInput),
      ((update sq s dt cfg mp drag kb).gameState.isGameOver = true →
        (update sq s dt cfg mp drag kb).enemyHitCooldowns = s.enemyHitCooldowns) ∧
      ((update sq s dt cfg mp drag kb).gameState.isGameOver = false →
        ∀ (id : ℕ) (v : ℚ), cdLookup s.enemyHitCooldowns id = some v →
          cdLookup (update sq s dt cfg mp drag kb).enemyHitCooldowns id
              = some (if 0 < v then v - TIME_STEP else v) ∨
          cdLookup (update sq s dt cfg mp drag kb).enemyHitCooldowns id
              = some ENEMY_HIT_COOLDOWN)) := by
  refine ⟨cdLookup_decrement, ?_⟩
  intro sq s dt cfg mp drag kb
  have hcool : (updateEmittedParticles dt (updateEnemies sq dt
      (preUpdate sq cfg dt mp drag kb s))).enemyHitCooldowns = s.enemyHitCooldowns := by
    rw [updateEmittedParticles_cooldowns,
      (updateEnemies_tail_fields sq dt _).2.1,
      (preUpdate_fields sq cfg dt mp drag kb s).2.2.1]
  have hgo : (update sq s dt cfg mp drag kb).gameState =
      (updateEmittedParticles dt (updateEnemies sq dt
        (preUpdate sq cfg dt mp drag kb s))).gameState :=
    combatTail_gameState sq dt _
  constructor
  · intro h
    have h9 : (updateEmittedParticles dt (updateEnemies sq dt
        (preUpdate sq cfg dt mp drag kb s))).gameState.isGameOver = true := by
      rw [← hgo]; exact h
    show (combatTail sq dt _).enemyHitCooldowns = _
    rw [combatTail_of_gameOver sq dt _ h9]
    exact hcool
  · intro h id v hv
    have h9 : (updateEmittedParticles dt (updateEnemies sq dt
        (preUpdate sq cfg dt mp drag kb s))).gameState.isGameOver = false := by
      rw [← hgo]; exact h
    have hres : (update sq s dt cfg mp drag kb).enemyHitCooldowns =
        (checkEnemyCollisions (updateEmittedParticles dt (updateEnemies sq dt
          (preUpdate sq cfg dt mp drag kb s)))).enemyHitCooldowns := by
      show (combatTail sq dt _).enemyHitCooldowns = _
      rw [combatTail_of_not_gameOver sq dt _ h9]
    rw [hres]
    have hinv := checkEnemyCollisions_cdInv (updateEmittedParticles dt (updateEnemies sq dt
      (preUpdate sq cfg dt mp drag kb s)))
    rcases hinv id with h1 | h1
    · left
      rw [h1, cdLookup_decrement, hcool, hv]
      rfl
    · right
      exact h1

/-- `sTiny` with one positive cooldown entry for enemy 0. -/
def sCd : PhysicsEngine := { sTiny with enemyHitCooldowns := [(0, 3/10)] }

/-- Witness for C10: the decrement pass takes the entry `3/10` to
`3/10 − 1/60`, and a full `update` call with `dt = 1/50` (not `1/60`!) on a
non-game-over state leaves the entry decremented by exactly `TIME_STEP` or
reset by a hit. -/
theorem C10_witness :
    cdLookup (decrementCooldowns [(0, 3/10)]) 0
      = (some (3/10)).map (fun v => if 0 < v then v - TIME_STEP else v) ∧
    (cdLookup (update ratSqrt sCd (1/50) DEFAULT_CONFIG none false none).enemyHitCooldowns 0
        = some (if 0 < (3/10 : ℚ) then 3/10 - TIME_STEP else 3/10) ∨
     cdLookup (update ratSqrt sCd (1/50) DEFAULT_CONFIG none false none).enemyHitCooldowns 0
        = some ENEMY_HIT_COOLDOWN) := by
  constructor
  · rw [C10_cooldown_decrement.1]
    rfl
  · exact (C10_cooldown_decrement.2 ratSqrt sCd (1/50) DEFAULT_CONFIG none false none).2
      (by decide) 0 (3/10) (by decide)

/-! ## Claim C4: the game-over latch -/

lemma updateEnemies_of_gameOver (sq : ℚ → ℚ) (dt : ℚ) (s : PhysicsEngine)
    (h : s.gameState.isGameOver = true) : updateEnemies sq dt s = s := by
  unfold updateEnemies; rw [if_pos h]

lemma updateEmitted_of_gameOver (dt : ℚ) (s : PhysicsEngine)
    (h : s.gameState.isGameOver = true) :
    updateEmittedParticles dt s = { s with particles := s.particles.filter aliveB } := by
  simp only [updateEmittedParticles]
  rw [if_neg (by simp [h]), if_neg (by simp [h])]

lemma prune_transition (dt : ℚ) (s : PhysicsEngine)
    (h : s.gameState.isGameOver = false) :
    ((updateEmittedParticles dt s).gameState.isGameOver = true ↔
      (s.particles.filter aliveB).length = 0) ∧
    ((s.particles.filter aliveB).length = 0 →
      (updateEmittedParticles dt s).stateLog = s.stateLog ++ [⟨true, some 0⟩]) ∧
    ((s.particles.filter aliveB).length ≠ 0 →
      (updateEmittedParticles dt s).gameState.isGameOver = false ∧
      (updateEmittedParticles dt s).stateLog =
        s.stateLog ++ [⟨false, some (s.particles.filter aliveB).length⟩]) := by
  simp only [updateEmittedParticles]
  by_cases hf : (s.particles.filter aliveB).length = 0
  · rw [if_pos ⟨hf, by simp [h]⟩]
    exact ⟨by simpa using hf, fun _ => rfl, fun hc => absurd hf hc⟩
  · rw [if_neg (by simp [hf]), if_pos (by simp [h])]
    exact ⟨by simpa [h] using hf, fun hc => absurd hc hf, fun _ => ⟨h, rfl⟩⟩

lemma checkEnemyCollisions_stateLog (s : PhysicsEngine) :
    (checkEnemyCollisions s).stateLog = s.stateLog := rfl

lemma combatTail_latched (sq : ℚ → ℚ) (dt : ℚ) (t : PhysicsEngine)
    (h : t.gameState.isGameOver = true) :
    (combatTail sq dt t).gameState.isGameOver = true ∧
    (combatTail sq dt t).enemies = t.enemies ∧
    (combatTail sq dt t).enemyHitCooldowns = t.enemyHitCooldowns ∧
    (combatTail sq dt t).stateLog = t.stateLog := by
  have h8 : updateEnemies sq dt t = t := updateEnemies_of_gameOver sq dt t h
  have h9 : updateEmittedParticles dt (updateEnemies sq dt t) =
      { t with particles := t.particles.filter aliveB } := by
    rw [h8]; exact updateEmitted_of_gameOver dt t h
  have h9go : (updateEmittedParticles dt (updateEnemies sq dt t)).gameState.isGameOver = true := by
    rw [h9]; exact h
  rw [combatTail_of_gameOver sq dt t h9go, h9]
  exact ⟨h, rfl, rfl, rfl⟩

lemma combatTail_transition (sq : ℚ → ℚ) (dt : ℚ) (t : PhysicsEngine)
    (hgo : t.gameState.isGameOver = false) :
    ((combatTail sq dt t).gameState.isGameOver = true ↔ (combatTail sq dt t).particles = []) ∧
    ((combatTail sq dt t).gameState.isGameOver = true →
      (combatTail sq dt t).stateLog = t.stateLog ++ [⟨true, some 0⟩]) := by
  have h8go : (updateEnemies sq dt t).gameState.isGameOver = false := by
    rw [(updateEnemies_tail_fields sq dt t).1]; exact hgo
  have h8log : (updateEnemies sq dt t).stateLog = t.stateLog :=
    (updateEnemies_tail_fields sq dt t).2.2.1
  have hpt := prune_transition dt (updateEnemies sq dt t) h8go
  by_cases hf : ((updateEnemies sq dt t).particles.filter aliveB).length = 0
  · have h9go : (updateEmittedParticles dt (updateEnemies sq dt t)).gameState.isGameOver = true :=
      hpt.1.mpr hf
    rw [combatTail_of_gameOver sq dt t h9go]
    constructor
    · rw [updateEmittedParticles_particles]
      simp only [h9go, true_iff]
      exact List.length_eq_zero.mp hf
    · intro _
      rw [hpt.2.1 hf, h8log]
  · have h9go : (updateEmittedParticles dt (updateEnemies sq dt t)).gameState.isGameOver = false := by
      rcases hh : (updateEmittedParticles dt (updateEnemies sq dt t)).gameState.isGameOver with _ | _
      · rfl
      · exact absurd (hpt.1.mp hh) hf
    rw [combatTail_of_not_gameOver sq dt t h9go]
    have hres_go : (checkEnemyCollisions (updateEmittedParticles dt
        (updateEnemies sq dt t))).gameState.isGameOver = false := by
      rw [checkEnemyCollisions_gameState]; exact h9go
    constructor
    · rw [hres_go]
      constructor
      · intro hc; exact absurd hc (by simp)
      · intro hc
        have hlen := (checkEnemyCollisions_rel (updateEmittedParticles dt
          (updateEnemies sq dt t))).1
        rw [hc] at hlen
        rw [updateEmittedParticles_particles] at hlen
        exact absurd hlen.symm hf
    · intro hc
      rw [hres_go] at hc
      exact absurd hc (by simp)

/-- C4: the game-over flag is a latch.  Once latched, every further `update`
keeps it latched and performs no enemy work at all (enemies, cooldown map
and state-event log are untouched).  From a non-latched state, an `update`
call latches the flag iff its pruning stage leaves the particle collection
empty (equivalently, the returned collection is empty), and on that
transition exactly one game-state event `{isGameOver := true,
particleCount := 0}` is appended to the state-change log.  Only `resetGame`
clears the flag (and the cooldown map). -/
theorem C4_game_over_latch :
    (∀ (sq : ℚ → ℚ) (s : PhysicsEngine) (dt : ℚ) (cfg : SimulationConfig)
       (mp : Option Vec2) (drag : Bool) (kb : Option KeyboardInput),
      (s.gameState.isGameOver = true →
        (update sq s dt cfg mp drag kb).gameState.isGameOver = true ∧
        (update sq s dt cfg mp drag kb).enemies = s.enemies ∧
        (update sq s dt cfg mp drag kb).enemyHitCooldowns = s.enemyHitCooldowns ∧
        (update sq s dt cfg mp drag kb).stateLog = s.stateLog) ∧
      (s.gameState.isGameOver = false →
        ((update sq s dt cfg mp drag kb).gameState.isGameOver = true ↔
          (update sq s dt cfg mp drag kb).particles = []) ∧
        ((update sq s dt cfg mp drag kb).gameState.isGameOver = true →
          (update sq s dt cfg mp drag kb).stateLog =
            s.stateLog ++ [⟨true, some 0⟩]))) ∧
    (∀ (scatter vel0 : ℕ → Vec2) (extraPoint : ℕ → Bool) (jitter : ℕ → ℕ → ℚ)
       (speedJitter : ℕ → ℚ) (s : PhysicsEngine),
      (resetGame scatter vel0 extraPoint jitter speedJitter s).gameState.isGameOver = false ∧
      (resetGame scatter vel0 extraPoint jitter speedJitter s).enemyHitCooldowns = []) := by
  constructor
  · intro sq s dt cfg mp drag kb
    have hpre := preUpdate_fields sq cfg dt mp drag kb s
    constructor
    · intro h
      have hprego : (preUpdate sq cfg dt mp drag kb s).gameState.isGameOver = true := by
        rw [hpre.2.1]; exact h
      have hl := combatTail_latched sq dt _ hprego
      refine ⟨hl.1, ?_, ?_, ?_⟩
      · show (combatTail sq dt _).enemies = _
        rw [hl.2.1, hpre.1]
      · show (combatTail sq dt _).enemyHitCooldowns = _
        rw [hl.2.2.1, hpre.2.2.1]
      · show (combatTail sq dt _).stateLog = _
        rw [hl.2.2.2, hpre.2.2.2.1]
    · intro h
      have hprego : (preUpdate sq cfg dt mp drag kb s).gameState.isGameOver = false := by
        rw [hpre.2.1]; exact h
      have ht := combatTail_transition sq dt _ hprego
      refine ⟨ht.1, ?_⟩
      intro hgo
      have := ht.2 hgo
      show (combatTail sq dt _).stateLog = _
      rw [this, hpre.2.2.2.1]
  · intro scatter vel0 extraPoint jitter speedJitter s
    exact ⟨rfl, rfl⟩

/-! ## The main group only contains alive indices -/

lemma bfsLoop_group_subset (nbrs : ℕ → List ℕ) (P : ℕ → Prop)
    (hn : ∀ c x, x ∈ nbrs c → P x) :
    ∀ (fuel : ℕ) (q : List ℕ) (vis grp : Finset ℕ),
      (∀ x ∈ q, P x) → (∀ x ∈ grp, P x) →
      ∀ x ∈ (bfsLoop nbrs fuel q vis grp).2, P x := by
  intro fuel
  induction fuel with
  | zero => intro q vis grp _ hg x hx; exact hg x hx
  | succ f ih =>
    intro q vis grp hq hg x hx
    match q with
    | [] => exact hg x hx
    | c :: rest =>
      rw [bfsLoop] at hx
      by_cases hc : c ∈ vis
      · rw [if_pos hc] at hx
        exact ih rest vis grp (fun y hy => hq y (by simp [hy])) hg x hx
      · rw [if_neg hc] at hx
        refine ih _ _ _ ?_ ?_ x hx
        · intro y hy
          rcases List.mem_append.mp hy with hy | hy
          · exact hq y (by simp [hy])
          · exact hn c y (List.mem_filter.mp hy).1
        · intro y hy
          rcases Finset.mem_insert.mp hy with rfl | hy
          · exact hq y (by simp)
          · exact hg y hy

lemma findMainGroupLoop_subset (ps : List Particle) (r : ℚ) (P : ℕ → Prop)
    (hn : ∀ c x, x ∈ neighborList ps r c → P x) :
    ∀ (l : List ℕ) (vis best : Finset ℕ) (bestSize : ℕ),
      (∀ x ∈ l, P x) → (∀ x ∈ best, P x) →
      ∀ x ∈ findMainGroupLoop ps r l vis best bestSize, P x := by
  intro l
  induction l with
  | nil => intro vis best bestSize _ hb x hx; exact hb x hx
  | cons i t ih =>
    intro vis best bestSize hl hb x hx
    rw [findMainGroupLoop] at hx
    by_cases hc : i ∈ vis
    · rw [if_pos hc] at hx
      exact ih vis best bestSize (fun y hy => hl y (by simp [hy])) hb x hx
    · rw [if_neg hc] at hx
      have hgrp : ∀ y ∈ (bfsLoop (neighborList ps r) (bfsFuel ps) [i] vis ∅).2, P y := by
        apply bfsLoop_group_subset (neighborList ps r) P hn
        · intro y hy
          rcases List.mem_singleton.mp hy with rfl
          exact hl y (by simp)
        · intro y hy; simp at hy
      dsimp only at hx
      split at hx
      · exact ih _ _ _ (fun y hy => hl y (by simp [hy])) hgrp x hx
      · exact ih _ _ _ (fun y hy => hl y (by simp [hy])) hb x hx

lemma findMainGroup_subset_alive (ps : List Particle) (r : ℚ) :
    ∀ x ∈ findMainGroup ps r, x ∈ aliveIndices ps := by
  apply findMainGroupLoop_subset
  · intro c x hx
    exact (List.mem_filter.mp hx).1
  · intro x hx; exact hx
  · intro x hx; simp at hx

lemma mem_aliveIndices (ps : List Particle) (x : ℕ) (h : x ∈ aliveIndices ps) :
    x < ps.length ∧ aliveB (ps.getD x dummyParticle) = true := by
  unfold aliveIndices at h
  have h2 := List.mem_filter.mp h
  exact ⟨by simpa using h2.1, h2.2⟩

/-! ## Claim C3: dead-particle lifecycle -/

/-- Relation between the particle array at the start of `update` and the
array after any prefix of the pre-combat stages: same length, ids and health
pointwise unchanged, and any particle dead at the start is completely
untouched (the per-stage alive guards). -/
def SameIdHealth (ps qs : List Particle) : Prop :=
  qs.length = ps.length ∧
  ∀ k : ℕ, (qs.getD k dummyParticle).id = (ps.getD k dummyParticle).id ∧
    (qs.getD k dummyParticle).health = (ps.getD k dummyParticle).health ∧
    (aliveB (ps.getD k dummyParticle) = false →
      qs.getD k dummyParticle = ps.getD k dummyParticle)

lemma aliveB_eq_of_health {p q : Particle} (h : p.health = q.health) :
    aliveB p = aliveB q := by
  unfold aliveB; rw [h]

lemma sameIdHealth_refl (ps : List Particle) : SameIdHealth ps ps :=
  ⟨rfl, fun _ => ⟨rfl, rfl, fun _ => rfl⟩⟩

lemma sameIdHealth_trans {ps qs rs : List Particle}
    (h1 : SameIdHealth ps qs) (h2 : SameIdHealth qs rs) : SameIdHealth ps rs := by
  refine ⟨h2.1.trans h1.1, fun k => ?_⟩
  obtain ⟨hid1, hh1, hd1⟩ := h1.2 k
  obtain ⟨hid2, hh2, hd2⟩ := h2.2 k
  refine ⟨hid2.trans hid1, hh2.trans hh1, fun hdead => ?_⟩
  have hq : qs.getD k dummyParticle = ps.getD k dummyParticle := hd1 hdead
  have hdead2 : aliveB (qs.getD k dummyParticle) = false := by rw [hq]; exact hdead
  rw [hd2 hdead2, hq]

lemma sameIdHealth_alive {ps qs : List Particle} (h : SameIdHealth ps qs) (k : ℕ) :
    aliveB (qs.getD k dummyParticle) = aliveB (ps.getD k dummyParticle) :=
  aliveB_eq_of_health (h.2 k).2.1

lemma getD_map_of_lt (f : Particle → Particle) (ps : List Particle) (k : ℕ)
    (hk : k < ps.length) :
    (ps.map f).getD k dummyParticle = f (ps.getD k dummyParticle) := by
  rw [List.getD_eq_getElem _ _ (by simpa using hk), List.getD_eq_getElem _ _ hk]
  simp

lemma sameIdHealth_map (ps : List Particle) (f : Particle → Particle)
    (hf : ∀ p, (f p).id = p.id ∧ (f p).health = p.health ∧
      (aliveB p = false → f p = p)) :
    SameIdHealth ps (ps.map f) := by
  refine ⟨by simp, fun k => ?_⟩
  by_cases hk : k < ps.length
  · rw [getD_map_of_lt f ps k hk]
    exact hf (ps.getD k dummyParticle)
  · rw [List.getD_eq_default _ _ (by simpa using le_of_not_lt hk),
      List.getD_eq_default _ _ (le_of_not_lt hk)]
    exact ⟨rfl, rfl, fun _ => rfl⟩

lemma sameIdHealth_set (ps : List Particle) (i : ℕ) (v : Particle)
    (hv : v.id = (ps.getD i dummyParticle).id ∧ v.health = (ps.getD i dummyParticle).health)
    (halive : aliveB (ps.getD i dummyParticle) = true) :
    SameIdHealth ps (ps.set i v) := by
  refine ⟨by simp, fun k => ?_⟩
  rcases eq_or_ne i k with rfl | hik
  · by_cases hk : i < ps.length
    · rw [getD_set_self _ _ _ hk]
      exact ⟨hv.1, hv.2, fun hdead => absurd halive (by rw [hdead]; exact Bool.false_ne_true)⟩
    · rw [List.set_eq_of_length_le (le_of_not_lt hk)]
      exact ⟨rfl, rfl, fun _ => rfl⟩
  · rw [getD_set_ne _ _ _ hik]
    exact ⟨rfl, rfl, fun _ => rfl⟩

lemma sameIdHealth_set_f (ps : List Particle) (i : ℕ) (F : Vec2)
    (halive : aliveB (ps.getD i dummyParticle) = true) :
    SameIdHealth ps (ps.set i { ps.getD i dummyParticle with force := F }) :=
  sameIdHealth_set ps i _ ⟨rfl, rfl⟩ halive

lemma foldl_sameIdHealth {β : Type} (ps0 : List Particle)
    (step : List Particle → β → List Particle) (l : List β)
    (hstep : ∀ cur b, SameIdHealth ps0 cur → SameIdHealth cur (step cur b)) :
    ∀ cur, SameIdHealth ps0 cur → SameIdHealth ps0 (l.foldl step cur) := by
  induction l with
  | nil => intro cur h; exact h
  | cons b t ih =>
    intro cur h
    rw [List.foldl_cons]
    exact ih _ (sameIdHealth_trans h (hstep cur b h))

lemma applyGravityStage_sameIdHealth (cfg : SimulationConfig) (ps : List Particle) :
    SameIdHealth ps (applyGravityStage cfg ps) := by
  apply sameIdHealth_map
  intro p
  unfold aliveB
  rcases h : p.health with _ | v
  · simp [h]
  · by_cases hv : 0 < v
    · simp [h, hv]
    · simp [h, hv]

lemma integrationStage_sameIdHealth (cfg : SimulationConfig) (dt : ℚ) (ps : List Particle) :
    SameIdHealth ps (integrationStage cfg dt ps) := by
  apply sameIdHealth_map
  intro p
  rcases h : aliveB p with _ | _
  · simp [integrationStage, h]
  · simp [integrationStage, h]

lemma pairStep_sameIdHealth (sq : ℚ → ℚ) (cfg : SimulationConfig)
    (ps : List Particle) (ij : ℕ × ℕ) :
    SameIdHealth ps (pairStep sq cfg ps ij) := by
  rcases ha : aliveB (ps.getD ij.1 dummyParticle) with _ | _
  · simp only [pairStep, ha]
    simp
    exact sameIdHealth_refl ps
  · rcases hb : aliveB (ps.getD ij.2 dummyParticle) with _ | _
    · simp only [pairStep, ha, hb]
      simp
      exact sameIdHealth_refl ps
    · by_cases hskip : cfg.interactionRadius * cfg.interactionRadius <
          ((ps.getD ij.2 dummyParticle).position.x - (ps.getD ij.1 dummyParticle).position.x) *
            ((ps.getD ij.2 dummyParticle).position.x - (ps.getD ij.1 dummyParticle).position.x) +
          ((ps.getD ij.2 dummyParticle).position.y - (ps.getD ij.1 dummyParticle).position.y) *
            ((ps.getD ij.2 dummyParticle).position.y - (ps.getD ij.1 dummyParticle).position.y) ∨
          ((ps.getD ij.2 dummyParticle).position.x - (ps.getD ij.1 dummyParticle).position.x) *
            ((ps.getD ij.2 dummyParticle).position.x - (ps.getD ij.1 dummyParticle).position.x) +
          ((ps.getD ij.2 dummyParticle).position.y - (ps.getD ij.1 dummyParticle).position.y) *
            ((ps.getD ij.2 dummyParticle).position.y - (ps.getD ij.1 dummyParticle).position.y) = 0
      · simp only [pairStep, ha, hb]
        rw [if_neg (by simp), if_neg (by simp), if_pos hskip]
        exact sameIdHealth_refl ps
      · have hij : ij.1 ≠ ij.2 := by
          intro hc
          rw [hc] at hskip
          push_neg at hskip
          exact hskip.2 (by ring)
        simp only [pairStep, ha, hb]
        rw [if_neg (by simp), if_neg (by simp), if_neg hskip]
        refine sameIdHealth_trans (sameIdHealth_set_f ps ij.1 _ ha)
          (sameIdHealth_set _ ij.2 _ ⟨?_, ?_⟩ ?_)
        · rw [getD_set_ne _ _ _ hij]
        · rw [getD_set_ne _ _ _ hij]
        · rw [getD_set_ne _ _ _ hij]; exact hb

lemma interactionStage_sameIdHealth (sq : ℚ → ℚ) (cfg : SimulationConfig)
    (ps : List Particle) : SameIdHealth ps (interactionStage sq cfg ps) := by
  unfold interactionStage
  apply foldl_sameIdHealth ps (pairStep sq cfg) _ ?_ ps (sameIdHealth_refl ps)
  intro cur b _
  exact pairStep_sameIdHealth sq cfg cur b

lemma sameIdHealth_set_fv (ps : List Particle) (i : ℕ) (F V : Vec2)
    (halive : aliveB (ps.getD i dummyParticle) = true) :
    SameIdHealth ps (ps.set i
      { ps.getD i dummyParticle with force := F, velocity := V }) :=
  sameIdHealth_set ps i _ ⟨rfl, rfl⟩ halive

lemma sameIdHealth_set_v (ps : List Particle) (i : ℕ) (V : Vec2)
    (halive : aliveB (ps.getD i dummyParticle) = true) :
    SameIdHealth ps (ps.set i { ps.getD i dummyParticle with velocity := V }) :=
  sameIdHealth_set ps i _ ⟨rfl, rfl⟩ halive

lemma sameIdHealth_set_e (ps : List Particle) (i : ℕ)
    (halive : aliveB (ps.getD i dummyParticle) = true) :
    SameIdHealth ps (ps.set i { ps.getD i dummyParticle with isEmitted := false }) :=
  sameIdHealth_set ps i _ ⟨rfl, rfl⟩ halive

lemma mouseStep_sameIdHealth (sq : ℚ → ℚ) (cfg : SimulationConfig)
    (mg : Finset ℕ) (mp : Vec2) (ps : List Particle) (i : ℕ)
    (halive : i ∈ mg → aliveB (ps.getD i dummyParticle) = true) :
    SameIdHealth ps (mouseStep sq cfg mg mp ps i) := by
  simp only [mouseStep]
  by_cases hmem : i ∉ mg
  · rw [if_pos hmem]; exact sameIdHealth_refl ps
  · rw [if_neg hmem]
    split
    · exact sameIdHealth_set_fv ps i _ _ (halive (not_not.mp hmem))
    · exact sameIdHealth_refl ps

lemma mouseStage_sameIdHealth (sq : ℚ → ℚ) (cfg : SimulationConfig)
    (mg : Finset ℕ) (mp : Vec2) (ps : List Particle)
    (hmg : ∀ i ∈ mg, aliveB (ps.getD i dummyParticle) = true) :
    SameIdHealth ps (mouseStage sq cfg mg mp ps) := by
  unfold mouseStage
  apply foldl_sameIdHealth ps _ _ ?_ ps (sameIdHealth_refl ps)
  intro cur i hcur
  apply mouseStep_sameIdHealth
  intro hmem
  rw [sameIdHealth_alive hcur i]
  exact hmg i hmem

lemma kbMoveStep_sameIdHealth (sq : ℚ → ℚ) (kb : KeyboardInput)
    (mg : Finset ℕ) (cX cY : ℚ) (ps : List Particle) (i : ℕ)
    (halive : i ∈ mg → aliveB (ps.getD i dummyParticle) = true) :
    SameIdHealth ps (kbMoveStep sq kb mg cX cY ps i) := by
  simp only [kbMoveStep]
  by_cases hmem : i ∉ mg
  · rw [if_pos hmem]; exact sameIdHealth_refl ps
  · rw [if_neg hmem]
    split
    · exact sameIdHealth_refl ps
    · split
      · exact sameIdHealth_set_f ps i _ (halive (not_not.mp hmem))
      · exact sameIdHealth_refl ps

lemma kbJumpStep_sameIdHealth (mg : Finset ℕ) (ps : List Particle) (i : ℕ)
    (halive : i ∈ mg → aliveB (ps.getD i dummyParticle) = true) :
    SameIdHealth ps (kbJumpStep mg ps i) := by
  simp only [kbJumpStep]
  split
  · rename_i hcond
    have hmem : i ∈ mg := by
      rcases Bool.and_eq_true_iff.mp hcond with ⟨h1, -⟩
      exact of_decide_eq_true h1
    exact sameIdHealth_set_v ps i _ (halive hmem)
  · exact sameIdHealth_refl ps

lemma keyboardStage_sameIdHealth (sq : ℚ → ℚ) (cfg : SimulationConfig) (dt : ℚ)
    (mg : Finset ℕ) (kb : KeyboardInput) (s : PhysicsEngine)
    (hmg : ∀ i ∈ mg, aliveB (s.particles.getD i dummyParticle) = true) :
    SameIdHealth s.particles (keyboardStage sq cfg dt mg kb s).particles := by
  have h1 : SameIdHealth s.particles
      ((List.range s.particles.length).foldl
        (kbMoveStep sq kb mg (groupCenter mg s.particles).1
          (groupCenter mg s.particles).2) s.particles) := by
    apply foldl_sameIdHealth s.particles _ _ ?_ s.particles (sameIdHealth_refl _)
    intro cur i hcur
    apply kbMoveStep_sameIdHealth
    intro hmem
    rw [sameIdHealth_alive hcur i]
    exact hmg i hmem
  simp only [keyboardStage]
  split
  · apply foldl_sameIdHealth s.particles _ _ ?_ _ h1
    intro cur i hcur
    apply kbJumpStep_sameIdHealth
    intro hmem
    rw [sameIdHealth_alive hcur i]
    exact hmg i hmem
  · exact h1

lemma reabsorbCondB_alive {ps : List Particle} {p : Particle}
    (h : reabsorbCondB ps p = true) : aliveB p = true := by
  unfold reabsorbCondB at h
  repeat rw [Bool.and_eq_true] at h
  exact h.1.1.1.1

lemma reabsorbStep_particles_rel (st : PhysicsEngine) (i : ℕ) :
    SameIdHealth st.particles (reabsorbStep st i).particles := by
  simp only [reabsorbStep]
  split
  · rename_i hcond
    exact sameIdHealth_set_e st.particles i
      (reabsorbCondB_alive hcond)
  · exact sameIdHealth_refl _

lemma checkReabsorption_sameIdHealth (s : PhysicsEngine) :
    SameIdHealth s.particles (checkReabsorption s).particles := by
  unfold checkReabsorption
  generalize List.range s.particles.length = l
  suffices h : ∀ (l : List ℕ) (st : PhysicsEngine),
      SameIdHealth s.particles st.particles →
      SameIdHealth s.particles ((l.foldl reabsorbStep st).particles) from
    h l s (sameIdHealth_refl _)
  intro l
  induction l with
  | nil => intro st h; exact h
  | cons i t ih =>
    intro st h
    rw [List.foldl_cons]
    exact ih _ (sameIdHealth_trans h (reabsorbStep_particles_rel st i))

lemma resolveParticle_id (w h r : ℚ) (p : Particle) :
    (resolveParticle w h r p).id = p.id := by
  simp only [resolveParticle]
  split <;> split <;> split <;> split <;> rfl

lemma boundary_fold_particles_eq (w h r : ℚ) (ps : List Particle) :
    ∀ acc : BoundaryResult,
      (ps.foldl (boundaryStep w h r) acc).particles =
        acc.particles ++ ps.map (fun p => if aliveB p then resolveParticle w h r p else p) := by
  induction ps with
  | nil => intro acc; simp
  | cons q t ih =>
    intro acc
    rw [List.foldl_cons, ih, boundaryStep_particles, List.map_cons, List.append_assoc]
    rfl

lemma boundaryAndSound_sameIdHealth (cfg : SimulationConfig) (dt : ℚ)
    (s : PhysicsEngine) :
    SameIdHealth s.particles (boundaryAndSound cfg dt s).particles := by
  rw [boundaryAndSound_particles, boundary_fold_particles_eq]
  rw [show ((⟨[], 0, false⟩ : BoundaryResult)).particles = [] from rfl, List.nil_append]
  apply sameIdHealth_map
  intro p
  by_cases hp : aliveB p = true
  · rw [if_pos hp]
    refine ⟨resolveParticle_id _ _ _ p, resolveParticle_health _ _ _ p, fun hdead => ?_⟩
    rw [hdead] at hp
    exact absurd hp (by simp)
  · rw [if_neg hp]
    exact ⟨rfl, rfl, fun _ => rfl⟩

lemma forceStage_sameIdHealth (sq : ℚ → ℚ) (cfg : SimulationConfig)
    (mg : Finset ℕ) (mp : Option Vec2) (drag : Bool) (ps : List Particle)
    (hmg : ∀ i ∈ mg, aliveB (ps.getD i dummyParticle) = true) :
    SameIdHealth ps (forceStage sq cfg mg mp drag ps) := by
  have h12 : SameIdHealth ps (interactionStage sq cfg (applyGravityStage cfg ps)) :=
    sameIdHealth_trans (applyGravityStage_sameIdHealth cfg ps)
      (interactionStage_sameIdHealth sq cfg _)
  unfold forceStage
  match mp, drag with
  | some m, true =>
    refine sameIdHealth_trans h12 (mouseStage_sameIdHealth sq cfg mg m _ ?_)
    intro i hi
    rw [sameIdHealth_alive h12 i]
    exact hmg i hi
  | some m, false => exact h12
  | none, _ => exact h12

lemma kbStage_sameIdHealth (sq : ℚ → ℚ) (cfg : SimulationConfig) (dt : ℚ)
    (mg : Finset ℕ) (kb : Option KeyboardInput) (s : PhysicsEngine)
    (hmg : ∀ i ∈ mg, aliveB (s.particles.getD i dummyParticle) = true) :
    SameIdHealth s.particles (kbStage sq cfg dt mg kb s).particles := by
  match kb with
  | none => exact sameIdHealth_refl _
  | some k => exact keyboardStage_sameIdHealth sq cfg dt mg k s hmg

/-- Through stages 1–5 of `update` the particle array keeps its length, ids
and health pointwise, and dead particles pass through completely untouched
(the claim's "no stage processes a dead particle"). -/
lemma preUpdate_sameIdHealth (sq : ℚ → ℚ) (cfg : SimulationConfig) (dt : ℚ)
    (mp : Option Vec2) (drag : Bool) (kb : Option KeyboardInput) (s : PhysicsEngine) :
    SameIdHealth s.particles (preUpdate sq cfg dt mp drag kb s).particles := by
  have hmg : ∀ i ∈ findMainGroup s.particles cfg.interactionRadius,
      aliveB (s.particles.getD i dummyParticle) = true := by
    intro i hi
    exact (mem_aliveIndices s.particles i (findMainGroup_subset_alive s.particles _ i hi)).2
  have hforce := forceStage_sameIdHealth sq cfg
    (findMainGroup s.particles cfg.interactionRadius) mp drag s.particles hmg
  simp only [preUpdate]
  refine sameIdHealth_trans (sameIdHealth_trans (sameIdHealth_trans
    (sameIdHealth_trans hforce ?_) (integrationStage_sameIdHealth cfg dt _))
    (checkReabsorption_sameIdHealth _)) (boundaryAndSound_sameIdHealth cfg dt _)
  refine kbStage_sameIdHealth sq cfg dt _ kb _ ?_
  intro i hi
  show aliveB ((forceStage sq cfg _ mp drag s.particles).getD i dummyParticle) = true
  rw [sameIdHealth_alive hforce i]
  exact hmg i hi

lemma prune_all_alive (dt : ℚ) (s : PhysicsEngine) :
    ∀ p ∈ (updateEmittedParticles dt s).particles, aliveB p = true := by
  intro p hp
  rw [updateEmittedParticles_particles] at hp
  exact (List.mem_filter.mp hp).2

/-- C3 (amended): the pruning stage removes every particle that is dead
when it runs, so the returned collection can contain a dead particle only
if the enemy-collision stage (which runs after pruning) killed it in this
very call — such a particle has health exactly 0 and corresponds to a
particle that was alive (same id) in the collection at the start of the
call; moreover no earlier stage ever processes a dead particle: a particle
dead at the start of the call passes through stages 1–5 with its entire
record untouched. -/
theorem C3_dead_pruning_amended :
    (∀ (dt : ℚ) (s : PhysicsEngine),
      ∀ p ∈ (updateEmittedParticles dt s).particles, aliveB p = true) ∧
    (∀ (sq : ℚ → ℚ) (s : PhysicsEngine) (dt : ℚ) (cfg : SimulationConfig)
       (mp : Option Vec2) (drag : Bool) (kb : Option KeyboardInput),
      ∀ p' ∈ (update sq s dt cfg mp drag kb).particles, aliveB p' = false →
        p'.health = some 0 ∧ ∃ p ∈ s.particles, aliveB p = true ∧ p.id = p'.id) ∧
    (∀ (sq : ℚ → ℚ) (cfg : SimulationConfig) (dt : ℚ) (mp : Option Vec2)
       (drag : Bool) (kb : Option KeyboardInput) (s : PhysicsEngine) (k : ℕ),
      aliveB (s.particles.getD k dummyParticle) = false →
        (preUpdate sq cfg dt mp drag kb s).particles.getD k dummyParticle =
          s.particles.getD k dummyParticle) := by
  refine ⟨prune_all_alive, ?_, ?_⟩
  · intro sq s dt cfg mp drag kb p' hp' hdead
    have hp2 : p' ∈ (combatTail sq dt (preUpdate sq cfg dt mp drag kb s)).particles := hp'
    unfold combatTail at hp2
    by_cases hgo : (updateEmittedParticles dt (updateEnemies sq dt
        (preUpdate sq cfg dt mp drag kb s))).gameState.isGameOver = true
    · rw [if_pos hgo] at hp2
      exact absurd (prune_all_alive dt _ p' hp2) (by rw [hdead]; exact Bool.false_ne_true)
    · rw [if_neg hgo] at hp2
      obtain ⟨i, hi, hpeq⟩ := mem_getD_of_mem _ dummyParticle p' hp2
      have hrel := checkEnemyCollisions_rel (updateEmittedParticles dt (updateEnemies sq dt
        (preUpdate sq cfg dt mp drag kb s)))
      have hi9 : i < (updateEmittedParticles dt (updateEnemies sq dt
          (preUpdate sq cfg dt mp drag kb s))).particles.length := by
        rw [← hrel.1]; exact hi
      have hmem9 := getD_mem (updateEmittedParticles dt (updateEnemies sq dt
        (preUpdate sq cfg dt mp drag kb s))).particles dummyParticle i hi9
      have halive9 := prune_all_alive dt _ _ hmem9
      rcases hrel.2 i with hsame | ⟨-, hkill⟩
      · rw [hpeq, hsame] at hdead
        exact absurd halive9 (by rw [hdead]; exact Bool.false_ne_true)
      · have hph : p'.health = some 0 := by rw [hpeq, hkill]
        refine ⟨hph, ?_⟩
        have hconv : (updateEmittedParticles dt (updateEnemies sq dt
            (preUpdate sq cfg dt mp drag kb s))).particles =
            List.filter aliveB (preUpdate sq cfg dt mp drag kb s).particles := by
          rw [updateEmittedParticles_particles, updateEnemies_particles]
        have hqq : (List.filter aliveB (preUpdate sq cfg dt mp drag kb s).particles).getD i
            dummyParticle = (updateEmittedParticles dt (updateEnemies sq dt
              (preUpdate sq cfg dt mp drag kb s))).particles.getD i dummyParticle := by
          rw [hconv]
        have halivef : aliveB ((List.filter aliveB
            (preUpdate sq cfg dt mp drag kb s).particles).getD i dummyParticle) = true := by
          rw [hqq]; exact halive9
        have hmemf : (List.filter aliveB (preUpdate sq cfg dt mp drag kb s).particles).getD i
            dummyParticle ∈ List.filter aliveB (preUpdate sq cfg dt mp drag kb s).particles := by
          apply getD_mem
          rw [← hconv]
          exact hi9
        have hqpre := (List.mem_filter.mp hmemf).1
        obtain ⟨k, hk, hqeq⟩ := mem_getD_of_mem _ dummyParticle _ hqpre
        have hsij := preUpdate_sameIdHealth sq cfg dt mp drag kb s
        have hks : k < s.particles.length := by rw [← hsij.1]; exact hk
        refine ⟨s.particles.getD k dummyParticle, getD_mem _ _ k hks, ?_, ?_⟩
        · rw [← sameIdHealth_alive hsij k, ← hqeq]
          exact halivef
        · have hid : ((preUpdate sq cfg dt mp drag kb s).particles.getD k
              dummyParticle).id = (s.particles.getD k dummyParticle).id := (hsij.2 k).1
          calc (s.particles.getD k dummyParticle).id
              = ((preUpdate sq cfg dt mp drag kb s).particles.getD k dummyParticle).id :=
                hid.symm
            _ = ((List.filter aliveB (preUpdate sq cfg dt mp drag kb s).particles).getD i
                  dummyParticle).id := by rw [hqeq]
            _ = ((updateEmittedParticles dt (updateEnemies sq dt
                  (preUpdate sq cfg dt mp drag kb s))).particles.getD i dummyParticle).id := by
                rw [hqq]
            _ = p'.id := by rw [hpeq, hkill]
  · intro sq cfg dt mp drag kb s k hdead
    exact ((preUpdate_sameIdHealth sq cfg dt mp drag kb s).2 k).2.2 hdead

/-- A state in which the single alive body particle overlaps a live enemy,
so the enemy-collision stage (after pruning) kills it in place. -/
def sKill : PhysicsEngine :=
  { particles := [particleAt 0 ⟨400, 560⟩ ⟨0, 0⟩ PKind.body false (some 100)],
    enemies := [enemyAt 0 ⟨400, 565⟩ 50 false],
    gameState := ⟨false⟩, width := 800, height := 600,
    initialParticleCount := 1, jumpCooldown := 0, jumpWasPressed := false,
    bounceSoundCooldown := 0, enemyHitCooldowns := [], soundLog := [], stateLog := [] }

/-- Counterexample to C3 as stated: in `sKill` the particle's health reaches
0 during the `update` call (enemy contact), yet the particle is still
present in the collection when the call returns (with health 0), because
the enemy-collision stage runs after the pruning stage. -/
theorem C3_counterexample :
    (update ratSqrt sKill (1/60) DEFAULT_CONFIG none false none).particles.length = 1 ∧
    ((update ratSqrt sKill (1/60) DEFAULT_CONFIG none false none).particles.getD 0
      dummyParticle).health = some 0 ∧
    aliveB ((update ratSqrt sKill (1/60) DEFAULT_CONFIG none false none).particles.getD 0
      dummyParticle) = false := by
  refine ⟨by decide, by decide, by decide⟩

/-- A non-latched state whose only particle is already dead, so the next
update call prunes the collection empty and latches game over. -/
def sDying : PhysicsEngine :=
  { particles := [particleAt 0 ⟨400, 300⟩ ⟨0, 0⟩ PKind.body false (some 0)],
    enemies := [e0], gameState := ⟨false⟩, width := 800, height := 600,
    initialParticleCount := 1, jumpCooldown := 0, jumpWasPressed := false,
    bounceSoundCooldown := 0, enemyHitCooldowns := [], soundLog := [], stateLog := [] }

/-- Witness for the amended C3 at concrete inputs: pruning `sDying` leaves
only alive particles; the dead survivor in the `sKill` run was killed this
call (health 0, alive at entry with the same id); and `sDying`'s dead
particle passes through stages 1–5 untouched. -/
theorem C3_witness :
    aliveB ((updateEmittedParticles (1/60) sKill).particles.getD 0 dummyParticle) = true ∧
    (((update ratSqrt sKill (1/60) DEFAULT_CONFIG none false none).particles.getD 0
        dummyParticle).health = some 0 ∧
      ∃ p ∈ sKill.particles, aliveB p = true ∧
        p.id = ((update ratSqrt sKill (1/60) DEFAULT_CONFIG none false none).particles.getD 0
          dummyParticle).id) ∧
    (preUpdate ratSqrt DEFAULT_CONFIG (1/60) none false none sDying).particles.getD 0
        dummyParticle = sDying.particles.getD 0 dummyParticle := by
  refine ⟨?_, ?_, ?_⟩
  · apply C3_dead_pruning_amended.1 (1/60) sKill
    apply getD_mem
    decide
  · apply C3_dead_pruning_amended.2.1 ratSqrt sKill (1/60) DEFAULT_CONFIG none false none
    · apply getD_mem
      decide
    · decide
  · have hdead : aliveB (sDying.particles.getD 0 dummyParticle) = false := by decide
    exact C3_dead_pruning_amended.2.2 ratSqrt DEFAULT_CONFIG (1/60) none false none
      sDying 0 hdead

/-- `sTiny` with the game-over flag already latched. -/
def sGo : PhysicsEngine := { sTiny with gameState := ⟨true⟩ }

/-- Witness for C4: a latched state stays latched with frozen cooldowns; a
state whose last particle dies latches game over and fires the
`{isGameOver := true, particleCount := 0}` event; `resetGame` clears the
flag. -/
theorem C4_witness :
    ((update ratSqrt sGo (1/60) DEFAULT_CONFIG none false none).gameState.isGameOver = true ∧
     (update ratSqrt sGo (1/60) DEFAULT_CONFIG none false none).enemyHitCooldowns
       = sGo.enemyHitCooldowns) ∧
    ((update ratSqrt sDying (1/60) DEFAULT_CONFIG none false none).gameState.isGameOver = true ∧
     (update ratSqrt sDying (1/60) DEFAULT_CONFIG none false none).stateLog
       = sDying.stateLog ++ [⟨true, some 0⟩]) ∧
    (resetGame (fun _ => ⟨0, 0⟩) (fun _ => ⟨0, 0⟩) (fun _ => false) (fun _ _ => 0)
      (fun _ => 0) sGo).gameState.isGameOver = false := by
  refine ⟨⟨?_, ?_⟩, ?_, ?_⟩
  · exact ((C4_game_over_latch.1 ratSqrt sGo (1/60) DEFAULT_CONFIG none false none).1 rfl).1
  · exact ((C4_game_over_latch.1 ratSqrt sGo (1/60) DEFAULT_CONFIG none false none).1 rfl).2.2.1
  · have h := (C4_game_over_latch.1 ratSqrt sDying (1/60) DEFAULT_CONFIG none false none).2 rfl
    have hempty : (update ratSqrt sDying (1/60) DEFAULT_CONFIG none false none).particles = [] := by
      decide
    have hgo := h.1.mpr hempty
    exact ⟨hgo, h.2 hgo⟩
  · exact (C4_game_over_latch.2 _ _ _ _ _ sGo).1

/-- Witness for C7: after one concrete `update` on `sTiny` the surviving
particle lies inside the box `[12, 788] × [12, 588]`. -/
theorem C7_witness :
    inBox sTiny.width sTiny.height DEFAULT_CONFIG.particleRadius
      ((update ratSqrt sTiny (1/60) DEFAULT_CONFIG none false none).particles.getD 0
        dummyParticle) := by
  have hlen : 0 < (update ratSqrt sTiny (1/60) DEFAULT_CONFIG none false none).particles.length := by
    decide
  exact C7_boundary_box ratSqrt sTiny (1/60) DEFAULT_CONFIG none false none
    (by decide) (by decide) _ (getD_mem _ _ 0 hlen)

/-! ## C6: exact shape of the reabsorption pass -/

/-- Pointwise effect of the reabsorption pass: every entry is either
unchanged or was emitted and got its `isEmitted` flag cleared; no other
field ever changes. -/
def ReabsorbRel (ps qs : List Particle) : Prop :=
  qs.length = ps.length ∧
  ∀ k : ℕ, qs.getD k dummyParticle = ps.getD k dummyParticle ∨
    ((ps.getD k dummyParticle).isEmitted = true ∧
      qs.getD k dummyParticle = { ps.getD k dummyParticle with isEmitted := false })

lemma reabsorbRel_refl (ps : List Particle) : ReabsorbRel ps ps :=
  ⟨rfl, fun _ => Or.inl rfl⟩

lemma reabsorbRel_trans {ps qs rs : List Particle}
    (h1 : ReabsorbRel ps qs) (h2 : ReabsorbRel qs rs) : ReabsorbRel ps rs := by
  refine ⟨h2.1.trans h1.1, fun k => ?_⟩
  rcases h2.2 k with hsame | ⟨hq, hdem⟩
  · rw [hsame]; exact h1.2 k
  · rcases h1.2 k with hsame1 | ⟨hp1, hdem1⟩
    · right
      refine ⟨by rw [← hsame1]; exact hq, ?_⟩
      rw [hdem, hsame1]
    · rw [hdem1] at hq
      simp at hq

/-- Unpack the demotion condition into its source-level components. -/
lemma reabsorbCondB_spec {ps : List Particle} {p : Particle}
    (h : reabsorbCondB ps p = true) :
    aliveB p = true ∧ p.isEmitted = true ∧ p.kind ≠ PKind.eye ∧
    speedSq p ≤ 2500 ∧
    ∃ q ∈ ps, q.kind ≠ PKind.eye ∧ aliveB q = true ∧ q.id ≠ p.id ∧
      q.isEmitted = false ∧ distSq q.position p.position < 1225 := by
  unfold reabsorbCondB at h
  repeat rw [Bool.and_eq_true] at h
  obtain ⟨⟨⟨⟨ha, he⟩, hk⟩, hs⟩, hany⟩ := h
  refine ⟨ha, he, of_decide_eq_true hk, of_decide_eq_true hs, ?_⟩
  obtain ⟨q, hq, hpred⟩ := List.any_eq_true.mp hany
  repeat rw [Bool.and_eq_true] at hpred
  obtain ⟨⟨⟨⟨hk1, ha1⟩, hid⟩, he1⟩, hd⟩ := hpred
  exact ⟨q, hq, of_decide_eq_true hk1, ha1, of_decide_eq_true hid,
    by simpa using he1, of_decide_eq_true hd⟩

/-- Build the demotion condition from its source-level components. -/
lemma reabsorbCondB_intro {ps : List Particle} {p : Particle}
    (ha : aliveB p = true) (he : p.isEmitted = true) (hk : p.kind ≠ PKind.eye)
    (hs : speedSq p ≤ 2500)
    (hq : ∃ q ∈ ps, q.kind ≠ PKind.eye ∧ aliveB q = true ∧ q.id ≠ p.id ∧
      q.isEmitted = false ∧ distSq q.position p.position < 1225) :
    reabsorbCondB ps p = true := by
  unfold reabsorbCondB
  repeat rw [Bool.and_eq_true]
  obtain ⟨q, hqm, hk1, ha1, hid, he1, hd⟩ := hq
  refine ⟨⟨⟨⟨ha, he⟩, decide_eq_true hk⟩, decide_eq_true hs⟩, ?_⟩
  apply List.any_eq_true.mpr
  refine ⟨q, hqm, ?_⟩
  repeat rw [Bool.and_eq_true]
  exact ⟨⟨⟨⟨decide_eq_true hk1, ha1⟩, decide_eq_true hid⟩, by simp [he1]⟩,
    decide_eq_true hd⟩

/-- One reabsorption step either leaves entry `k` alone or (when it is the
visited index, in range, with the condition true) clears its flag. -/
lemma reabsorbStep_getD (st : PhysicsEngine) (i k : ℕ) :
    (reabsorbStep st i).particles.getD k dummyParticle
      = st.particles.getD k dummyParticle ∨
    (i = k ∧ k < st.particles.length ∧
      reabsorbCondB st.particles (st.particles.getD k dummyParticle) = true ∧
      (reabsorbStep st i).particles.getD k dummyParticle =
        { st.particles.getD k dummyParticle with isEmitted := false }) := by
  simp only [reabsorbStep]
  split
  · rename_i hcond
    rcases eq_or_ne i k with rfl | hik
    · by_cases hk : i < st.particles.length
      · exact Or.inr ⟨rfl, hk, hcond, getD_set_self _ _ _ hk⟩
      · rw [List.set_eq_of_length_le (le_of_not_lt hk)]
        exact Or.inl rfl
    · exact Or.inl (getD_set_ne _ _ _ hik)
  · exact Or.inl rfl

/-- When the condition holds at the visited index, the step clears the flag. -/
lemma reabsorbStep_demotes (st : PhysicsEngine) (k : ℕ) (hk : k < st.particles.length)
    (hcond : reabsorbCondB st.particles (st.particles.getD k dummyParticle) = true) :
    (reabsorbStep st k).particles.getD k dummyParticle =
      { st.particles.getD k dummyParticle with isEmitted := false } := by
  simp only [reabsorbStep]
  rw [if_pos hcond]
  exact getD_set_self _ _ _ hk

lemma reabsorbStep_rel (st : PhysicsEngine) (i : ℕ) :
    ReabsorbRel st.particles (reabsorbStep st i).particles := by
  refine ⟨?_, fun k => ?_⟩
  · simp only [reabsorbStep]; split <;> simp
  · rcases reabsorbStep_getD st i k with hsame | ⟨-, -, hcond, hdem⟩
    · exact Or.inl hsame
    · exact Or.inr ⟨(reabsorbCondB_spec hcond).2.1, hdem⟩

lemma reabsorb_fold_rel (l : List ℕ) :
    ∀ st : PhysicsEngine,
      ReabsorbRel st.particles ((l.foldl reabsorbStep st).particles) := by
  induction l with
  | nil => intro st; exact reabsorbRel_refl _
  | cons i t ih =>
    intro st
    rw [List.foldl_cons]
    exact reabsorbRel_trans (reabsorbStep_rel st i) (ih (reabsorbStep st i))

lemma checkReabsorption_rel (s : PhysicsEngine) :
    ReabsorbRel s.particles (checkReabsorption s).particles :=
  reabsorb_fold_rel _ s

/-- Sufficiency along the fold: once the entry-state condition holds at an
in-range index, the scan demotes that index (and never re-raises the flag). -/
lemma reabsorb_fold_demotes (ps0 : List Particle) (k : ℕ) (hk : k < ps0.length)
    (hcond : reabsorbCondB ps0 (ps0.getD k dummyParticle) = true) :
    ∀ (l : List ℕ) (st : PhysicsEngine), ReabsorbRel ps0 st.particles →
      (k ∈ l ∨ (st.particles.getD k dummyParticle).isEmitted = false) →
      (((l.foldl reabsorbStep st).particles.getD k dummyParticle).isEmitted = false) := by
  intro l
  induction l with
  | nil =>
    intro st _ hdisj
    rcases hdisj with hmem | hfalse
    · exact absurd hmem (List.not_mem_nil k)
    · exact hfalse
  | cons i t ih =>
    intro st hrel hdisj
    rw [List.foldl_cons]
    by_cases hE : (st.particles.getD k dummyParticle).isEmitted = false
    · apply ih (reabsorbStep st i) (reabsorbRel_trans hrel (reabsorbStep_rel st i))
      right
      rcases reabsorbStep_getD st i k with hsame | ⟨-, -, -, hdem⟩
      · rw [hsame]; exact hE
      · rw [hdem]
    · have hEt : (st.particles.getD k dummyParticle).isEmitted = true := by
        rcases hb : (st.particles.getD k dummyParticle).isEmitted with _ | _
        · exact absurd hb hE
        · rfl
      rcases hdisj with hmem | hfalse
      · rcases List.mem_cons.mp hmem with hki | hmt
        · have hpk : st.particles.getD k dummyParticle = ps0.getD k dummyParticle := by
            rcases hrel.2 k with hsame | ⟨-, hdem⟩
            · exact hsame
            · rw [hdem] at hEt; simp at hEt
          have hkst : k < st.particles.length := by rw [hrel.1]; exact hk
          have hcondst :
              reabsorbCondB st.particles (st.particles.getD k dummyParticle) = true := by
            rw [hpk]
            obtain ⟨ha, he, hkind, hs, q0, hq0m, hq0k, hq0a, hq0id, hq0e, hq0d⟩ :=
              reabsorbCondB_spec hcond
            apply reabsorbCondB_intro ha he hkind hs
            obtain ⟨j, hj, hq0eq⟩ := mem_getD_of_mem _ dummyParticle q0 hq0m
            have hjst : j < st.particles.length := by rw [hrel.1]; exact hj
            have hq0cur : st.particles.getD j dummyParticle = q0 := by
              rcases hrel.2 j with hsame2 | ⟨hemit, -⟩
              · rw [hsame2, ← hq0eq]
              · rw [← hq0eq, hq0e] at hemit
                exact absurd hemit (by decide)
            refine ⟨q0, ?_, hq0k, hq0a, hq0id, hq0e, hq0d⟩
            rw [← hq0cur]
            exact getD_mem _ _ j hjst
          rw [← hki]
          have hstep := reabsorbStep_demotes st k hkst hcondst
          apply ih (reabsorbStep st k)
            (reabsorbRel_trans hrel (reabsorbStep_rel st k))
          right
          rw [hstep]
        · exact ih (reabsorbStep st i)
            (reabsorbRel_trans hrel (reabsorbStep_rel st i)) (Or.inl hmt)
      · exact absurd hfalse hE

/-- Necessity along the fold: an entry that goes from emitted to demoted was
demoted at some visited step, at which point its speed and an anchor --
still present and non-emitted in the final array -- satisfied the
condition. -/
lemma reabsorb_fold_necess (l : List ℕ) :
    ∀ (st : PhysicsEngine) (k : ℕ),
      (st.particles.getD k dummyParticle).isEmitted = true →
      (((l.foldl reabsorbStep st).particles.getD k dummyParticle).isEmitted = false) →
      aliveB (st.particles.getD k dummyParticle) = true ∧
      (st.particles.getD k dummyParticle).kind ≠ PKind.eye ∧
      speedSq (st.particles.getD k dummyParticle) ≤ 2500 ∧
      ∃ q ∈ (l.foldl reabsorbStep st).particles,
        q.kind ≠ PKind.eye ∧ aliveB q = true ∧
        q.id ≠ (st.particles.getD k dummyParticle).id ∧ q.isEmitted = false ∧
        distSq q.position (st.particles.getD k dummyParticle).position < 1225 := by
  induction l with
  | nil =>
    intro st k hT hF
    rw [List.foldl_nil] at hF
    rw [hT] at hF
    exact absurd hF (by decide)
  | cons i t ih =>
    intro st k hT hF
    rw [List.foldl_cons] at hF ⊢
    by_cases hE : ((reabsorbStep st i).particles.getD k dummyParticle).isEmitted = true
    · have h1 := ih (reabsorbStep st i) k hE hF
      have hpk : (reabsorbStep st i).particles.getD k dummyParticle
          = st.particles.getD k dummyParticle := by
        rcases reabsorbStep_getD st i k with hsame | ⟨-, -, -, hdem⟩
        · exact hsame
        · rw [hdem] at hE; simp at hE
      rw [hpk] at h1
      exact h1
    · rcases reabsorbStep_getD st i k with hsame | ⟨hik, hklen, hcond, hdem⟩
      · rw [hsame, hT] at hE
        exact absurd rfl hE
      · obtain ⟨ha, he, hkind, hs, q0, hq0m, hq0k, hq0a, hq0id, hq0e, hq0d⟩ :=
          reabsorbCondB_spec hcond
        refine ⟨ha, hkind, hs, ?_⟩
        obtain ⟨j, hj, hq0eq⟩ := mem_getD_of_mem _ dummyParticle q0 hq0m
        have hrel : ReabsorbRel st.particles
            ((t.foldl reabsorbStep (reabsorbStep st i)).particles) :=
          reabsorbRel_trans (reabsorbStep_rel st i)
            (reabsorb_fold_rel t (reabsorbStep st i))
        have hjf : j < (t.foldl reabsorbStep (reabsorbStep st i)).particles.length := by
          rw [hrel.1]; exact hj
        have hq0f : (t.foldl reabsorbStep (reabsorbStep st i)).particles.getD j
            dummyParticle = q0 := by
          rcases hrel.2 j with hsame2 | ⟨hemit, -⟩
          · rw [hsame2, ← hq0eq]
          · rw [← hq0eq, hq0e] at hemit
            exact absurd hemit (by decide)
        refine ⟨q0, ?_, hq0k, hq0a, hq0id, hq0e, hq0d⟩
        rw [← hq0f]
        exact getD_mem _ _ j hjf

/-- `checkReabsorption` demotes every index whose entry-state condition
holds. -/
lemma checkReabsorption_demotes (s : PhysicsEngine) (k : ℕ)
    (hcond : reabsorbCondB s.particles (s.particles.getD k dummyParticle) = true) :
    ((checkReabsorption s).particles.getD k dummyParticle).isEmitted = false := by
  have hk : k < s.particles.length := by
    by_contra hk
    rw [List.getD_eq_default _ _ (le_of_not_lt hk)] at hcond
    exact absurd (reabsorbCondB_spec hcond).2.1 (by decide)
  unfold checkReabsorption
  exact reabsorb_fold_demotes s.particles k hk hcond _ s (reabsorbRel_refl _)
    (Or.inl (List.mem_range.mpr hk))

/-- `checkReabsorption` demotes only particles that satisfied the speed
bound and had an anchor (the anchor being read against the live array, it
is still present and non-emitted in the returned array). -/
lemma checkReabsorption_necess (s : PhysicsEngine) (k : ℕ)
    (hT : (s.particles.getD k dummyParticle).isEmitted = true)
    (hF : ((checkReabsorption s).particles.getD k dummyParticle).isEmitted = false) :
    aliveB (s.particles.getD k dummyParticle) = true ∧
    (s.particles.getD k dummyParticle).kind ≠ PKind.eye ∧
    speedSq (s.particles.getD k dummyParticle) ≤ 2500 ∧
    ∃ q ∈ (checkReabsorption s).particles,
      q.kind ≠ PKind.eye ∧ aliveB q = true ∧
      q.id ≠ (s.particles.getD k dummyParticle).id ∧ q.isEmitted = false ∧
      distSq q.position (s.particles.getD k dummyParticle).position < 1225 := by
  unfold checkReabsorption at hF ⊢
  exact reabsorb_fold_necess _ s k hT hF

/-! ## C6: no stage of `update` ever raises the `isEmitted` flag -/

/-- Pointwise id preservation plus emission monotonicity: a length-keeping
stage never turns a non-emitted particle into an emitted one. -/
def EmitMonoP (ps qs : List Particle) : Prop :=
  qs.length = ps.length ∧
  ∀ k : ℕ, (qs.getD k dummyParticle).id = (ps.getD k dummyParticle).id ∧
    ((qs.getD k dummyParticle).isEmitted = true →
      (ps.getD k dummyParticle).isEmitted = true)

lemma emitMonoP_refl (ps : List Particle) : EmitMonoP ps ps :=
  ⟨rfl, fun _ => ⟨rfl, fun h => h⟩⟩

lemma emitMonoP_trans {ps qs rs : List Particle}
    (h1 : EmitMonoP ps qs) (h2 : EmitMonoP qs rs) : EmitMonoP ps rs := by
  refine ⟨h2.1.trans h1.1, fun k => ?_⟩
  exact ⟨((h2.2 k).1).trans ((h1.2 k).1), fun h => (h1.2 k).2 ((h2.2 k).2 h)⟩

lemma emitMonoP_map (ps : List Particle) (f : Particle → Particle)
    (hf : ∀ p, (f p).id = p.id ∧ (f p).isEmitted = p.isEmitted) :
    EmitMonoP ps (ps.map f) := by
  refine ⟨by simp, fun k => ?_⟩
  by_cases hk : k < ps.length
  · rw [getD_map_of_lt f ps k hk]
    exact ⟨(hf _).1, fun h => by rw [← (hf _).2]; exact h⟩
  · rw [List.getD_eq_default _ _ (by simpa using le_of_not_lt hk),
      List.getD_eq_default _ _ (le_of_not_lt hk)]
    exact ⟨rfl, fun h => h⟩

lemma emitMonoP_set (ps : List Particle) (i : ℕ) (v : Particle)
    (hid : v.id = (ps.getD i dummyParticle).id)
    (hemit : v.isEmitted = true → (ps.getD i dummyParticle).isEmitted = true) :
    EmitMonoP ps (ps.set i v) := by
  refine ⟨by simp, fun k => ?_⟩
  rcases eq_or_ne i k with rfl | hik
  · by_cases hk : i < ps.length
    · rw [getD_set_self _ _ _ hk]
      exact ⟨hid, hemit⟩
    · rw [List.set_eq_of_length_le (le_of_not_lt hk)]
      exact ⟨rfl, fun h => h⟩
  · rw [getD_set_ne _ _ _ hik]
    exact ⟨rfl, fun h => h⟩

lemma foldl_emitMonoP {β : Type} (step : List Particle → β → List Particle)
    (l : List β) (hstep : ∀ cur b, EmitMonoP cur (step cur b)) :
    ∀ cur, EmitMonoP cur (l.foldl step cur) := by
  induction l with
  | nil => intro cur; exact emitMonoP_refl cur
  | cons b t ih =>
    intro cur
    rw [List.foldl_cons]
    exact emitMonoP_trans (hstep cur b) (ih (step cur b))

lemma applyGravityStage_emitMonoP (cfg : SimulationConfig) (ps : List Particle) :
    EmitMonoP ps (applyGravityStage cfg ps) := by
  apply emitMonoP_map
  intro p
  split
  · exact ⟨rfl, rfl⟩
  · exact ⟨rfl, rfl⟩

lemma pairStep_emitMonoP (sq : ℚ → ℚ) (cfg : SimulationConfig)
    (ps : List Particle) (ij : ℕ × ℕ) : EmitMonoP ps (pairStep sq cfg ps ij) := by
  simp only [pairStep]
  split
  · exact emitMonoP_refl ps
  · split
    · exact emitMonoP_refl ps
    · split
      · exact emitMonoP_refl ps
      · rename_i hskip
        have hij : ij.1 ≠ ij.2 := by
          intro hc
          rw [hc] at hskip
          push_neg at hskip
          exact hskip.2 (by ring)
        refine emitMonoP_trans (emitMonoP_set ps ij.1 _ ?_ ?_)
          (emitMonoP_set _ ij.2 _ ?_ ?_)
        · rfl
        · exact fun h => h
        · rw [getD_set_ne _ _ _ hij]
        · rw [getD_set_ne _ _ _ hij]; exact fun h => h

lemma interactionStage_emitMonoP (sq : ℚ → ℚ) (cfg : SimulationConfig)
    (ps : List Particle) : EmitMonoP ps (interactionStage sq cfg ps) := by
  unfold interactionStage
  exact foldl_emitMonoP _ _ (fun cur b => pairStep_emitMonoP sq cfg cur b) ps

lemma mouseStep_emitMonoP (sq : ℚ → ℚ) (cfg : SimulationConfig)
    (mg : Finset ℕ) (mp : Vec2) (ps : List Particle) (i : ℕ) :
    EmitMonoP ps (mouseStep sq cfg mg mp ps i) := by
  simp only [mouseStep]
  split
  · exact emitMonoP_refl ps
  · split
    · exact emitMonoP_set ps i _ rfl (fun h => h)
    · exact emitMonoP_refl ps

lemma mouseStage_emitMonoP (sq : ℚ → ℚ) (cfg : SimulationConfig)
    (mg : Finset ℕ) (mp : Vec2) (ps : List Particle) :
    EmitMonoP ps (mouseStage sq cfg mg mp ps) := by
  unfold mouseStage
  exact foldl_emitMonoP _ _ (fun cur i => mouseStep_emitMonoP sq cfg mg mp cur i) ps

lemma kbMoveStep_emitMonoP (sq : ℚ → ℚ) (kb : KeyboardInput) (mg : Finset ℕ)
    (cX cY : ℚ) (ps : List Particle) (i : ℕ) :
    EmitMonoP ps (kbMoveStep sq kb mg cX cY ps i) := by
  simp only [kbMoveStep]
  split
  · exact emitMonoP_refl ps
  · split
    · exact emitMonoP_refl ps
    · split
      · exact emitMonoP_set ps i _ rfl (fun h => h)
      · exact emitMonoP_refl ps

lemma kbJumpStep_emitMonoP (mg : Finset ℕ) (ps : List Particle) (i : ℕ) :
    EmitMonoP ps (kbJumpStep mg ps i) := by
  simp only [kbJumpStep]
  split
  · exact emitMonoP_set ps i _ rfl (fun h => h)
  · exact emitMonoP_refl ps

lemma keyboardStage_emitMonoP (sq : ℚ → ℚ) (cfg : SimulationConfig) (dt : ℚ)
    (mg : Finset ℕ) (kb : KeyboardInput) (s : PhysicsEngine) :
    EmitMonoP s.particles (keyboardStage sq cfg dt mg kb s).particles := by
  have h1 : EmitMonoP s.particles ((List.range s.particles.length).foldl
      (kbMoveStep sq kb mg (groupCenter mg s.particles).1
        (groupCenter mg s.particles).2) s.particles) :=
    foldl_emitMonoP _ _ (fun cur i => kbMoveStep_emitMonoP sq kb mg _ _ cur i) _
  simp only [keyboardStage]
  split
  · exact emitMonoP_trans h1
      (foldl_emitMonoP _ _ (fun cur i => kbJumpStep_emitMonoP mg cur i) _)
  · exact h1

lemma integrationStage_emitMonoP (cfg : SimulationConfig) (dt : ℚ)
    (ps : List Particle) : EmitMonoP ps (integrationStage cfg dt ps) := by
  apply emitMonoP_map
  intro p
  split
  · exact ⟨rfl, rfl⟩
  · exact ⟨rfl, rfl⟩

lemma resolveParticle_isEmitted (w h r : ℚ) (p : Particle) :
    (resolveParticle w h r p).isEmitted = p.isEmitted := by
  simp only [resolveParticle]
  split <;> split <;> split <;> split <;> rfl

lemma boundaryAndSound_emitMonoP (cfg : SimulationConfig) (dt : ℚ)
    (s : PhysicsEngine) :
    EmitMonoP s.particles (boundaryAndSound cfg dt s).particles := by
  rw [boundaryAndSound_particles, boundary_fold_particles_eq]
  rw [show ((⟨[], 0, false⟩ : BoundaryResult)).particles = [] from rfl, List.nil_append]
  apply emitMonoP_map
  intro p
  by_cases hp : aliveB p = true
  · rw [if_pos hp]
    exact ⟨resolveParticle_id _ _ _ p, resolveParticle_isEmitted _ _ _ p⟩
  · rw [if_neg hp]
    exact ⟨rfl, rfl⟩

lemma reabsorbRel_emitMonoP {ps qs : List Particle}
    (h : ReabsorbRel ps qs) : EmitMonoP ps qs := by
  refine ⟨h.1, fun k => ?_⟩
  rcases h.2 k with hsame | ⟨hemit, hdem⟩
  · rw [hsame]; exact ⟨rfl, fun hh => hh⟩
  · rw [hdem]; exact ⟨rfl, fun hh => absurd hh (by simp)⟩

lemma forceStage_emitMonoP (sq : ℚ → ℚ) (cfg : SimulationConfig)
    (mg : Finset ℕ) (mp : Option Vec2) (drag : Bool) (ps : List Particle) :
    EmitMonoP ps (forceStage sq cfg mg mp drag ps) := by
  have h12 : EmitMonoP ps (interactionStage sq cfg (applyGravityStage cfg ps)) :=
    emitMonoP_trans (applyGravityStage_emitMonoP cfg ps)
      (interactionStage_emitMonoP sq cfg _)
  unfold forceStage
  match mp, drag with
  | some m, true => exact emitMonoP_trans h12 (mouseStage_emitMonoP sq cfg mg m _)
  | some m, false => exact h12
  | none, _ => exact h12

lemma kbStage_emitMonoP (sq : ℚ → ℚ) (cfg : SimulationConfig) (dt : ℚ)
    (mg : Finset ℕ) (kb : Option KeyboardInput) (s : PhysicsEngine) :
    EmitMonoP s.particles (kbStage sq cfg dt mg kb s).particles := by
  match kb with
  | none => exact emitMonoP_refl _
  | some k => exact keyboardStage_emitMonoP sq cfg dt mg k s

lemma preUpdate_emitMonoP (sq : ℚ → ℚ) (cfg : SimulationConfig) (dt : ℚ)
    (mp : Option Vec2) (drag : Bool) (kb : Option KeyboardInput)
    (s : PhysicsEngine) :
    EmitMonoP s.particles (preUpdate sq cfg dt mp drag kb s).particles := by
  simp only [preUpdate]
  refine emitMonoP_trans (emitMonoP_trans (emitMonoP_trans (emitMonoP_trans
    (forceStage_emitMonoP sq cfg _ mp drag s.particles)
    (kbStage_emitMonoP sq cfg dt _ kb _)) (integrationStage_emitMonoP cfg dt _))
    (reabsorbRel_emitMonoP (checkReabsorption_rel _)))
    (boundaryAndSound_emitMonoP cfg dt _)

/-- Membership form of emission monotonicity, stable under the pruning
filter: every emitted survivor descends from an emitted entry particle with
the same id. -/
def EmitFrom (ps qs : List Particle) : Prop :=
  ∀ q ∈ qs, q.isEmitted = true → ∃ p ∈ ps, p.id = q.id ∧ p.isEmitted = true

lemma emitFrom_trans {ps qs rs : List Particle}
    (h1 : EmitFrom ps qs) (h2 : EmitFrom qs rs) : EmitFrom ps rs := by
  intro r hr hre
  obtain ⟨q, hq, hqid, hqe⟩ := h2 r hr hre
  obtain ⟨p, hp, hpid, hpe⟩ := h1 q hq hqe
  exact ⟨p, hp, hpid.trans hqid, hpe⟩

lemma emitMonoP_emitFrom {ps qs : List Particle}
    (h : EmitMonoP ps qs) : EmitFrom ps qs := by
  intro q hq hqe
  obtain ⟨k, hk, hqeq⟩ := mem_getD_of_mem _ dummyParticle q hq
  have hkp : k < ps.length := by rw [← h.1]; exact hk
  refine ⟨ps.getD k dummyParticle, getD_mem _ _ k hkp, ?_, ?_⟩
  · rw [hqeq]; exact ((h.2 k).1).symm
  · apply (h.2 k).2; rw [← hqeq]; exact hqe

lemma checkEnemyCollisions_emitMonoP (s : PhysicsEngine) :
    EmitMonoP s.particles (checkEnemyCollisions s).particles := by
  have h := checkEnemyCollisions_rel s
  refine ⟨h.1, fun k => ?_⟩
  rcases h.2 k with hsame | ⟨-, hkill⟩
  · rw [hsame]; exact ⟨rfl, fun hh => hh⟩
  · rw [hkill]; exact ⟨rfl, fun hh => hh⟩

lemma combatTail_emitFrom (sq : ℚ → ℚ) (dt : ℚ) (t : PhysicsEngine) :
    EmitFrom t.particles (combatTail sq dt t).particles := by
  have h2 : EmitFrom t.particles
      (updateEmittedParticles dt (updateEnemies sq dt t)).particles := by
    rw [updateEmittedParticles_particles, updateEnemies_particles]
    intro q hq hqe
    exact ⟨q, (List.mem_filter.mp hq).1, rfl, hqe⟩
  unfold combatTail
  split
  · exact h2
  · exact emitFrom_trans h2
      (emitMonoP_emitFrom (checkEnemyCollisions_emitMonoP _))

lemma update_emitFrom (sq : ℚ → ℚ) (s : PhysicsEngine) (dt : ℚ)
    (cfg : SimulationConfig) (mp : Option Vec2) (drag : Bool)
    (kb : Option KeyboardInput) :
    EmitFrom s.particles (update sq s dt cfg mp drag kb).particles :=
  emitFrom_trans (emitMonoP_emitFrom (preUpdate_emitMonoP sq cfg dt mp drag kb s))
    (combatTail_emitFrom sq dt (preUpdate sq cfg dt mp drag kb s))

/-- A state whose particle 0 is emitted and moving at speed exactly 50,
right next to the in-body anchor particle 1. -/
def sSpeed50 : PhysicsEngine :=
  { particles := [particleAt 0 ⟨400, 300⟩ ⟨50, 0⟩ PKind.body true (some 100),
                  particleAt 1 ⟨420, 300⟩ ⟨0, 0⟩ PKind.body false (some 100)],
    enemies := [e0], gameState := ⟨false⟩, width := 800, height := 600,
    initialParticleCount := 2, jumpCooldown := 0, jumpWasPressed := false,
    bounceSoundCooldown := 0, enemyHitCooldowns := [], soundLog := [], stateLog := [] }

/-- Counterexample to C6 as stated: particle 0 of `sSpeed50` moves at speed
exactly 50 — not *below* the velocity threshold 50 (its squared speed is
2500, not < 2500) — yet `checkReabsorption` demotes it, because the source
skips a candidate only when `velocityMag > 50`. -/
theorem C6_counterexample :
    (sSpeed50.particles.getD 0 dummyParticle).isEmitted = true ∧
    ¬ speedSq (sSpeed50.particles.getD 0 dummyParticle) < 2500 ∧
    ((checkReabsorption sSpeed50).particles.getD 0 dummyParticle).isEmitted = false := by
  refine ⟨by decide, by decide, by decide⟩

/-- C6 (amended): `checkReabsorption` clears the `isEmitted` flag of a
particle iff it is alive, emitted, not an eye, its speed is at most the
velocity threshold 50 (the source skips only on `velocityMag > 50`, so a
particle moving at exactly 50 is demoted — the claim's "below 50" misses
the boundary case), and it lies strictly within distance 35 of an alive,
non-emitted, non-eye particle with a different id; the anchor is read from
the live array (a particle demoted earlier in the same pass counts), and
the necessity direction exhibits the anchor, still non-emitted, in the
returned array.  Moreover no stage of `update` ever sets `isEmitted` back
to `true`: every emitted particle of the returned collection descends from
an emitted entry particle with the same id, so a demoted particle stays
non-emitted across repeated `update` calls without an intervening launch.
Speeds and distances are compared via squares (`speedSq p ≤ 2500` ↔ speed
≤ 50, `distSq < 1225` ↔ distance < 35). -/
theorem C6_reabsorption_amended :
    (∀ (s : PhysicsEngine) (k : ℕ),
      aliveB (s.particles.getD k dummyParticle) = true →
      (s.particles.getD k dummyParticle).isEmitted = true →
      (s.particles.getD k dummyParticle).kind ≠ PKind.eye →
      speedSq (s.particles.getD k dummyParticle) ≤ 2500 →
      (∃ q ∈ s.particles, q.kind ≠ PKind.eye ∧ aliveB q = true ∧
        q.id ≠ (s.particles.getD k dummyParticle).id ∧ q.isEmitted = false ∧
        distSq q.position (s.particles.getD k dummyParticle).position < 1225) →
      ((checkReabsorption s).particles.getD k dummyParticle).isEmitted = false) ∧
    (∀ (s : PhysicsEngine) (k : ℕ),
      (s.particles.getD k dummyParticle).isEmitted = true →
      ((checkReabsorption s).particles.getD k dummyParticle).isEmitted = false →
      aliveB (s.particles.getD k dummyParticle) = true ∧
      (s.particles.getD k dummyParticle).kind ≠ PKind.eye ∧
      speedSq (s.particles.getD k dummyParticle) ≤ 2500 ∧
      ∃ q ∈ (checkReabsorption s).particles,
        q.kind ≠ PKind.eye ∧ aliveB q = true ∧
        q.id ≠ (s.particles.getD k dummyParticle).id ∧ q.isEmitted = false ∧
        distSq q.position (s.particles.getD k dummyParticle).position < 1225) ∧
    (∀ (sq : ℚ → ℚ) (s : PhysicsEngine) (dt : ℚ) (cfg : SimulationConfig)
       (mp : Option Vec2) (drag : Bool) (kb : Option KeyboardInput),
      ∀ p' ∈ (update sq s dt cfg mp drag kb).particles, p'.isEmitted = true →
        ∃ p ∈ s.particles, p.id = p'.id ∧ p.isEmitted = true) := by
  refine ⟨?_, ?_, ?_⟩
  · intro s k ha he hk hs hq
    exact checkReabsorption_demotes s k (reabsorbCondB_intro ha he hk hs hq)
  · intro s k hT hF
    exact checkReabsorption_necess s k hT hF
  · intro sq s dt cfg mp drag kb p' hp' he
    exact update_emitFrom sq s dt cfg mp drag kb p' hp' he

/-- A state whose only particle is emitted with no anchor in range, so it
stays emitted across a full `update` call. -/
def sEmit : PhysicsEngine :=
  { particles := [particleAt 0 ⟨400, 300⟩ ⟨0, 0⟩ PKind.body true (some 100)],
    enemies := [e0], gameState := ⟨false⟩, width := 800, height := 600,
    initialParticleCount := 1, jumpCooldown := 0, jumpWasPressed := false,
    bounceSoundCooldown := 0, enemyHitCooldowns := [], soundLog := [], stateLog := [] }

/-- Witness for the amended C6 at concrete inputs: the slow emitted
particle of `sSpeed50` is demoted (sufficiency); its demotion implies the
speed bound (necessity); and the lone anchor-less emitted particle of
`sEmit` that survives a full `update` still emitted descends from an
emitted entry particle of the same id. -/
theorem C6_witness :
    ((checkReabsorption sSpeed50).particles.getD 0 dummyParticle).isEmitted = false ∧
    speedSq (sSpeed50.particles.getD 0 dummyParticle) ≤ 2500 ∧
    (∃ p ∈ sEmit.particles,
      p.id = ((update ratSqrt sEmit (1/60) DEFAULT_CONFIG none false
        none).particles.getD 0 dummyParticle).id ∧ p.isEmitted = true) := by
  refine ⟨?_, ?_, ?_⟩
  · exact C6_reabsorption_amended.1 sSpeed50 0 (by decide) (by decide) (by decide)
      (by decide) (by decide)
  · exact (C6_reabsorption_amended.2.1 sSpeed50 0 (by decide) (by decide)).2.2.1
  · exact C6_reabsorption_amended.2.2 ratSqrt sEmit (1/60) DEFAULT_CONFIG none false
      none _ (getD_mem _ _ 0 (by decide)) (by decide)

/-! ## C8: gravity, pair forces and the integration formula -/

/-- Pointwise force-only modification: every entry keeps every field except
(possibly) its accumulated force. -/
def ForceOnly (ps qs : List Particle) : Prop :=
  qs.length = ps.length ∧
  ∀ i : ℕ, ∃ F : Vec2,
    qs.getD i dummyParticle = { ps.getD i dummyParticle with force := F }

lemma forceOnly_refl (ps : List Particle) : ForceOnly ps ps :=
  ⟨rfl, fun i => ⟨(ps.getD i dummyParticle).force, rfl⟩⟩

lemma forceOnly_trans {ps qs rs : List Particle}
    (h1 : ForceOnly ps qs) (h2 : ForceOnly qs rs) : ForceOnly ps rs := by
  refine ⟨h2.1.trans h1.1, fun i => ?_⟩
  obtain ⟨F, hF⟩ := h1.2 i
  obtain ⟨G, hG⟩ := h2.2 i
  exact ⟨G, by rw [hG, hF]⟩

lemma forceOnly_alive {ps qs : List Particle} (h : ForceOnly ps qs) (i : ℕ) :
    aliveB (qs.getD i dummyParticle) = aliveB (ps.getD i dummyParticle) := by
  obtain ⟨F, hF⟩ := h.2 i
  rw [hF]
  rfl

lemma forceOnly_position {ps qs : List Particle} (h : ForceOnly ps qs) (i : ℕ) :
    (qs.getD i dummyParticle).position = (ps.getD i dummyParticle).position := by
  obtain ⟨F, hF⟩ := h.2 i
  rw [hF]

lemma forceOnly_set (ps : List Particle) (i : ℕ) (v : Particle)
    (hv : ∃ F : Vec2, v = { ps.getD i dummyParticle with force := F }) :
    ForceOnly ps (ps.set i v) := by
  refine ⟨by simp, fun k => ?_⟩
  rcases eq_or_ne i k with rfl | hik
  · by_cases hk : i < ps.length
    · rw [getD_set_self _ _ _ hk]
      exact hv
    · rw [List.set_eq_of_length_le (le_of_not_lt hk)]
      exact ⟨(ps.getD i dummyParticle).force, rfl⟩
  · rw [getD_set_ne _ _ _ hik]
    exact ⟨(ps.getD k dummyParticle).force, rfl⟩

lemma pairStep_forceOnly (sq : ℚ → ℚ) (cfg : SimulationConfig)
    (ps : List Particle) (ij : ℕ × ℕ) : ForceOnly ps (pairStep sq cfg ps ij) := by
  simp only [pairStep]
  split
  · exact forceOnly_refl ps
  · split
    · exact forceOnly_refl ps
    · split
      · exact forceOnly_refl ps
      · rename_i hskip
        have hij : ij.1 ≠ ij.2 := by
          intro hc
          rw [hc] at hskip
          push_neg at hskip
          exact hskip.2 (by ring)
        refine forceOnly_trans (forceOnly_set ps ij.1 _ ?_) (forceOnly_set _ ij.2 _ ?_)
        · exact ⟨_, rfl⟩
        · rw [getD_set_ne _ _ _ hij]
          exact ⟨_, rfl⟩

lemma applyGravityStage_forceOnly (cfg : SimulationConfig) (ps : List Particle) :
    ForceOnly ps (applyGravityStage cfg ps) := by
  refine ⟨by simp [applyGravityStage], fun i => ?_⟩
  by_cases hi : i < ps.length
  · unfold applyGravityStage
    rw [getD_map_of_lt _ _ _ hi]
    split
    · exact ⟨(ps.getD i dummyParticle).force, rfl⟩
    · exact ⟨_, rfl⟩
  · unfold applyGravityStage
    rw [List.getD_eq_default _ _ (by simpa using le_of_not_lt hi),
      List.getD_eq_default _ _ (le_of_not_lt hi)]
    exact ⟨dummyParticle.force, rfl⟩

/-- A pair step leaves every index other than its two endpoints unchanged. -/
lemma pairStep_getD_other (sq : ℚ → ℚ) (cfg : SimulationConfig)
    (ps : List Particle) (ij : ℕ × ℕ) (k : ℕ) (h1 : ij.1 ≠ k) (h2 : ij.2 ≠ k) :
    (pairStep sq cfg ps ij).getD k dummyParticle = ps.getD k dummyParticle := by
  simp only [pairStep]
  split
  · rfl
  · split
    · rfl
    · split
      · rfl
      · rw [getD_set_ne _ _ _ h2, getD_set_ne _ _ _ h1]

/-- A pair step involving `k` whose other endpoint is dead or strictly
farther than the interaction radius is a no-op on index `k`. -/
lemma pairStep_skip_far (sq : ℚ → ℚ) (cfg : SimulationConfig)
    (ps0 : List Particle) (k : ℕ) (cur : List Particle) (ij : ℕ × ℕ)
    (hfo : ForceOnly ps0 cur) (hne : ij.1 ≠ ij.2)
    (hfar1 : ij.1 = k → aliveB (ps0.getD ij.2 dummyParticle) = true →
      cfg.interactionRadius * cfg.interactionRadius <
        distSq (ps0.getD ij.2 dummyParticle).position
          (ps0.getD k dummyParticle).position)
    (hfar2 : ij.2 = k → aliveB (ps0.getD ij.1 dummyParticle) = true →
      cfg.interactionRadius * cfg.interactionRadius <
        distSq (ps0.getD ij.1 dummyParticle).position
          (ps0.getD k dummyParticle).position) :
    (pairStep sq cfg cur ij).getD k dummyParticle = cur.getD k dummyParticle := by
  by_cases hk1 : ij.1 = k
  · simp only [pairStep]
    split
    · rfl
    · split
      · rfl
      · split
        · rfl
        · rename_i hB hskip
          exfalso
          apply hskip
          have hBa : aliveB (cur.getD ij.2 dummyParticle) = true := by
            rcases hb : aliveB (cur.getD ij.2 dummyParticle) with _ | _
            · exact absurd (by rw [hb]; rfl) hB
            · rfl
          have hfar := hfar1 hk1
            (by rw [← forceOnly_alive hfo ij.2]; exact hBa)
          left
          rw [forceOnly_position hfo ij.2, forceOnly_position hfo ij.1, hk1]
          unfold distSq at hfar
          ring_nf at hfar ⊢
          linarith [hfar]
  · by_cases hk2 : ij.2 = k
    · simp only [pairStep]
      split
      · rfl
      · split
        · rfl
        · split
          · rfl
          · rename_i hA hB hskip
            exfalso
            apply hskip
            have hAa : aliveB (cur.getD ij.1 dummyParticle) = true := by
              rcases hb : aliveB (cur.getD ij.1 dummyParticle) with _ | _
              · exact absurd (by rw [hb]; rfl) hA
              · rfl
            have hfar := hfar2 hk2
              (by rw [← forceOnly_alive hfo ij.1]; exact hAa)
            left
            rw [forceOnly_position hfo ij.2, forceOnly_position hfo ij.1, hk2]
            unfold distSq at hfar
            ring_nf at hfar ⊢
            linarith [hfar]
    · exact pairStep_getD_other sq cfg cur ij k hk1 hk2

/-- Along the pair fold, a particle all of whose scheduled pairs are
dead-or-far is never touched. -/
lemma interaction_fold_far (sq : ℚ → ℚ) (cfg : SimulationConfig)
    (ps0 : List Particle) (k : ℕ) :
    ∀ (l : List (ℕ × ℕ)),
      (∀ ij ∈ l, ij.1 ≠ ij.2 ∧
        (ij.1 = k → aliveB (ps0.getD ij.2 dummyParticle) = true →
          cfg.interactionRadius * cfg.interactionRadius <
            distSq (ps0.getD ij.2 dummyParticle).position
              (ps0.getD k dummyParticle).position) ∧
        (ij.2 = k → aliveB (ps0.getD ij.1 dummyParticle) = true →
          cfg.interactionRadius * cfg.interactionRadius <
            distSq (ps0.getD ij.1 dummyParticle).position
              (ps0.getD k dummyParticle).position)) →
      ∀ cur : List Particle, ForceOnly ps0 cur →
        (l.foldl (pairStep sq cfg) cur).getD k dummyParticle
          = cur.getD k dummyParticle := by
  intro l
  induction l with
  | nil => intro _ cur _; rfl
  | cons ij t ih =>
    intro hb cur hfo
    rw [List.foldl_cons]
    obtain ⟨hne, hfar1, hfar2⟩ := hb ij (List.mem_cons_self ij t)
    have hstep := pairStep_skip_far sq cfg ps0 k cur ij hfo hne hfar1 hfar2
    rw [ih (fun x hx => hb x (List.mem_cons_of_mem ij hx)) _
      (forceOnly_trans hfo (pairStep_forceOnly sq cfg cur ij)), hstep]

lemma foldl_forceOnly {β : Type} (step : List Particle → β → List Particle)
    (l : List β) (hstep : ∀ cur b, ForceOnly cur (step cur b)) :
    ∀ cur, ForceOnly cur (l.foldl step cur) := by
  induction l with
  | nil => intro cur; exact forceOnly_refl cur
  | cons b t ih =>
    intro cur
    rw [List.foldl_cons]
    exact forceOnly_trans (hstep cur b) (ih (step cur b))

lemma interactionStage_forceOnly (sq : ℚ → ℚ) (cfg : SimulationConfig)
    (ps : List Particle) : ForceOnly ps (interactionStage sq cfg ps) := by
  unfold interactionStage
  exact foldl_forceOnly _ _ (fun cur b => pairStep_forceOnly sq cfg cur b) ps

/-- A pair step reads only its two endpoints: two lists agreeing there (and
on the range side condition) produce the same updated first endpoint. -/
lemma pairStep_getD_fst (sq : ℚ → ℚ) (cfg : SimulationConfig)
    (X Y : List Particle) (a b : ℕ) (hab : a ≠ b)
    (ha : X.getD a dummyParticle = Y.getD a dummyParticle)
    (hb : X.getD b dummyParticle = Y.getD b dummyParticle)
    (hlen : X.length = Y.length) :
    (pairStep sq cfg X (a, b)).getD a dummyParticle
      = (pairStep sq cfg Y (a, b)).getD a dummyParticle := by
  simp only [pairStep]
  rw [ha, hb]
  split
  · rw [ha]
  · split
    · rw [ha]
    · split
      · rw [ha]
      · by_cases hk : a < Y.length
        · rw [getD_set_ne _ _ _ (Ne.symm hab), getD_set_ne _ _ _ (Ne.symm hab),
            getD_set_self _ _ _ (by rw [hlen]; exact hk), getD_set_self _ _ _ hk]
        · rw [List.getD_eq_default _ _ (by simp [hlen]; omega),
            List.getD_eq_default _ _ (by simp; omega)]

/-- Bounds for the pair-index list: both endpoints are in range and the
first is strictly smaller. -/
lemma pairIndices_bounds (n : ℕ) :
    ∀ ij ∈ pairIndices n, ij.1 < n ∧ ij.2 < n ∧ ij.1 ≠ ij.2 := by
  intro ij hij
  unfold pairIndices at hij
  obtain ⟨i, hi, hmap⟩ := List.mem_flatMap.mp hij
  obtain ⟨j, hj, rfl⟩ := List.mem_map.mp hmap
  have hjn : j < n := List.mem_range.mp (List.mem_of_mem_drop hj)
  have hij2 : i + 1 ≤ j := by
    obtain ⟨t, ht, hget⟩ := List.mem_iff_getElem.mp hj
    rw [List.getElem_drop, List.getElem_range] at hget
    omega
  exact ⟨List.mem_range.mp hi, hjn, by omega⟩

lemma applyGravityStage_getD_alive (cfg : SimulationConfig) (ps : List Particle)
    (k : ℕ) (hk : k < ps.length)
    (ha : aliveB (ps.getD k dummyParticle) = true) :
    (applyGravityStage cfg ps).getD k dummyParticle =
      { ps.getD k dummyParticle with
        force := ⟨0, (ps.getD k dummyParticle).mass * cfg.gravity⟩ } := by
  unfold applyGravityStage
  rw [getD_map_of_lt _ _ _ hk]
  have hcond : (!aliveB (ps.getD k dummyParticle)) ≠ true := by rw [ha]; decide
  rw [if_neg hcond]

lemma integrationStage_getD_alive (cfg : SimulationConfig) (dt : ℚ)
    (ps : List Particle) (k : ℕ) (hk : k < ps.length)
    (ha : aliveB (ps.getD k dummyParticle) = true) :
    (integrationStage cfg dt ps).getD k dummyParticle =
      { ps.getD k dummyParticle with
        velocity := ⟨((ps.getD k dummyParticle).velocity.x +
            (ps.getD k dummyParticle).force.x / (ps.getD k dummyParticle).mass * dt) *
            cfg.damping,
          ((ps.getD k dummyParticle).velocity.y +
            (ps.getD k dummyParticle).force.y / (ps.getD k dummyParticle).mass * dt) *
            cfg.damping⟩,
        position := ⟨(ps.getD k dummyParticle).position.x +
            ((ps.getD k dummyParticle).velocity.x +
              (ps.getD k dummyParticle).force.x / (ps.getD k dummyParticle).mass * dt) *
              cfg.damping * dt,
          (ps.getD k dummyParticle).position.y +
            ((ps.getD k dummyParticle).velocity.y +
              (ps.getD k dummyParticle).force.y / (ps.getD k dummyParticle).mass * dt) *
              cfg.damping * dt⟩ } := by
  unfold integrationStage
  rw [getD_map_of_lt _ _ _ hk]
  have hcond : (!aliveB (ps.getD k dummyParticle)) ≠ true := by rw [ha]; decide
  rw [if_neg hcond]

/-- The reabsorption pass never changes velocity, position or health. -/
lemma checkReabsorption_getD_core (s : PhysicsEngine) (k : ℕ) :
    ((checkReabsorption s).particles.getD k dummyParticle).velocity
      = (s.particles.getD k dummyParticle).velocity ∧
    ((checkReabsorption s).particles.getD k dummyParticle).position
      = (s.particles.getD k dummyParticle).position ∧
    ((checkReabsorption s).particles.getD k dummyParticle).health
      = (s.particles.getD k dummyParticle).health := by
  rcases (checkReabsorption_rel s).2 k with hsame | ⟨-, hdem⟩
  · rw [hsame]; exact ⟨rfl, rfl, rfl⟩
  · rw [hdem]; exact ⟨rfl, rfl, rfl⟩

/-- Boundary resolution keeps the vertical velocity of a particle that hits
neither floor nor ceiling (wall clamps only touch the x components). -/
lemma resolveParticle_vy (w h r : ℚ) (p : Particle)
    (h1 : ¬ (h - r < p.position.y)) (h2 : ¬ (p.position.y < r)) :
    (resolveParticle w h r p).velocity.y = p.velocity.y := by
  simp only [resolveParticle]
  rw [if_neg h1, if_neg h2]
  split
  · split
    · rfl
    · rfl
  · split
    · rfl
    · rfl

lemma killedOrSame_velocity {p q : Particle} (h : KilledOrSame p q) :
    q.velocity = p.velocity := by
  rcases h with rfl | ⟨-, rfl⟩ <;> rfl

/-- Core of the amended C8: with no drag point and no keyboard input, an
alive particle with nonzero mass, no alive particle within the interaction
radius, and no floor/ceiling contact this tick, exits stages 1–5 with
`vy' = (vy + gravity·dt)·damping` — the claim's formula, valid only in the
absence of pair forces. -/
lemma preUpdate_isolated_vy (sq : ℚ → ℚ) (cfg : SimulationConfig) (dt : ℚ)
    (s : PhysicsEngine) (k : ℕ) (hk : k < s.particles.length)
    (ha : aliveB (s.particles.getD k dummyParticle) = true)
    (hm : (s.particles.getD k dummyParticle).mass ≠ 0)
    (hiso : ∀ j, j < s.particles.length → j ≠ k →
      aliveB (s.particles.getD j dummyParticle) = true →
      cfg.interactionRadius * cfg.interactionRadius <
        distSq (s.particles.getD j dummyParticle).position
          (s.particles.getD k dummyParticle).position)
    (hfloor : ¬ (s.height - cfg.particleRadius <
      ((integrationStage cfg dt (interactionStage sq cfg
        (applyGravityStage cfg s.particles))).getD k dummyParticle).position.y))
    (hceil : ¬ (((integrationStage cfg dt (interactionStage sq cfg
        (applyGravityStage cfg s.particles))).getD k dummyParticle).position.y
        < cfg.particleRadius)) :
    ((preUpdate sq cfg dt none false none s).particles.getD k
        dummyParticle).velocity.y
      = ((s.particles.getD k dummyParticle).velocity.y + cfg.gravity * dt)
          * cfg.damping := by
  have hgfo := applyGravityStage_forceOnly cfg s.particles
  have hg := applyGravityStage_getD_alive cfg s.particles k hk ha
  have hfarlist : ∀ ij ∈ pairIndices (applyGravityStage cfg s.particles).length,
      ij.1 ≠ ij.2 ∧
      (ij.1 = k →
        aliveB ((applyGravityStage cfg s.particles).getD ij.2 dummyParticle) = true →
        cfg.interactionRadius * cfg.interactionRadius <
          distSq ((applyGravityStage cfg s.particles).getD ij.2 dummyParticle).position
            ((applyGravityStage cfg s.particles).getD k dummyParticle).position) ∧
      (ij.2 = k →
        aliveB ((applyGravityStage cfg s.particles).getD ij.1 dummyParticle) = true →
        cfg.interactionRadius * cfg.interactionRadius <
          distSq ((applyGravityStage cfg s.particles).getD ij.1 dummyParticle).position
            ((applyGravityStage cfg s.particles).getD k dummyParticle).position) := by
    intro ij hij
    obtain ⟨h1, h2, hne⟩ := pairIndices_bounds _ ij hij
    have hlen : (applyGravityStage cfg s.particles).length = s.particles.length := hgfo.1
    refine ⟨hne, ?_, ?_⟩
    · intro hk1 haj
      rw [forceOnly_position hgfo ij.2, forceOnly_position hgfo k]
      exact hiso ij.2 (by rw [← hlen]; exact h2) (fun hc => hne (hk1.trans hc.symm))
        (by rw [← forceOnly_alive hgfo ij.2]; exact haj)
    · intro hk2 haj
      rw [forceOnly_position hgfo ij.1, forceOnly_position hgfo k]
      exact hiso ij.1 (by rw [← hlen]; exact h1) (fun hc => hne (hc.trans hk2.symm))
        (by rw [← forceOnly_alive hgfo ij.1]; exact haj)
  have hint : (interactionStage sq cfg (applyGravityStage cfg s.particles)).getD k
      dummyParticle = (applyGravityStage cfg s.particles).getD k dummyParticle := by
    unfold interactionStage
    exact interaction_fold_far sq cfg _ k _ hfarlist _ (forceOnly_refl _)
  have hintfo := interactionStage_forceOnly sq cfg (applyGravityStage cfg s.particles)
  set psi := interactionStage sq cfg (applyGravityStage cfg s.particles) with hpsi
  have hlen2 : psi.length = s.particles.length := hintfo.1.trans hgfo.1
  have hk2 : k < psi.length := by rw [hlen2]; exact hk
  have ha2 : aliveB (psi.getD k dummyParticle) = true := by
    rw [hint, forceOnly_alive hgfo k]
    exact ha
  have hig := integrationStage_getD_alive cfg dt psi k hk2 ha2
  rw [hint, hg] at hig
  have hgoal : (preUpdate sq cfg dt none false none s).particles =
      (boundaryAndSound cfg dt (checkReabsorption
        { s with particles := integrationStage cfg dt psi })).particles := rfl
  rw [hgoal]
  set s5 : PhysicsEngine := { s with particles := integrationStage cfg dt psi } with hs5
  rw [boundaryAndSound_particles, boundary_fold_particles_eq,
    show ((⟨[], 0, false⟩ : BoundaryResult)).particles = [] from rfl, List.nil_append]
  have hlen5 : (checkReabsorption s5).particles.length = psi.length := by
    rw [(checkReabsorption_rel s5).1]
    show (integrationStage cfg dt psi).length = psi.length
    simp [integrationStage]
  have hk5 : k < (checkReabsorption s5).particles.length := by rw [hlen5]; exact hk2
  rw [getD_map_of_lt _ _ _ hk5]
  obtain ⟨hvel, hpos, hheal⟩ := checkReabsorption_getD_core s5 k
  have halive5 : aliveB ((checkReabsorption s5).particles.getD k dummyParticle) = true := by
    rw [aliveB_eq_of_health hheal]
    show aliveB ((integrationStage cfg dt psi).getD k dummyParticle) = true
    rw [hig]
    exact ha
  rw [if_pos halive5]
  have hposy : ((checkReabsorption s5).particles.getD k dummyParticle).position.y
      = ((integrationStage cfg dt psi).getD k dummyParticle).position.y := by
    rw [hpos]
  have h1f : ¬ ((checkReabsorption s5).height - cfg.particleRadius <
      ((checkReabsorption s5).particles.getD k dummyParticle).position.y) := by
    rw [hposy, (checkReabsorption_width s5).2]
    exact hfloor
  have h2c : ¬ (((checkReabsorption s5).particles.getD k dummyParticle).position.y <
      cfg.particleRadius) := by
    rw [hposy]
    exact hceil
  rw [resolveParticle_vy _ _ _ _ h1f h2c, hvel]
  show ((integrationStage cfg dt psi).getD k dummyParticle).velocity.y = _
  rw [hig]
  show ((s.particles.getD k dummyParticle).velocity.y +
      ((s.particles.getD k dummyParticle).mass * cfg.gravity) /
        (s.particles.getD k dummyParticle).mass * dt) * cfg.damping = _
  rw [mul_div_cancel_left₀ _ hm]

/-- Stages 1–5 with no pointer and no keyboard: the resulting vertical
velocity of a particle that is alive after the force passes and clamps no
vertical boundary is `(vy + (F.y/m)·dt)·damping`, where `F` is its total
accumulated force (gravity plus pair contributions). -/
lemma preUpdate_vy_formula (sq : ℚ → ℚ) (cfg : SimulationConfig) (dt : ℚ)
    (s : PhysicsEngine) (k : ℕ)
    (hk2 : k < (interactionStage sq cfg (applyGravityStage cfg s.particles)).length)
    (ha2 : aliveB ((interactionStage sq cfg (applyGravityStage cfg
      s.particles)).getD k dummyParticle) = true)
    (hfloor : ¬ (s.height - cfg.particleRadius <
      ((integrationStage cfg dt (interactionStage sq cfg
        (applyGravityStage cfg s.particles))).getD k dummyParticle).position.y))
    (hceil : ¬ (((integrationStage cfg dt (interactionStage sq cfg
        (applyGravityStage cfg s.particles))).getD k dummyParticle).position.y
        < cfg.particleRadius)) :
    ((preUpdate sq cfg dt none false none s).particles.getD k
        dummyParticle).velocity.y
      = (((interactionStage sq cfg (applyGravityStage cfg s.particles)).getD k
            dummyParticle).velocity.y +
         ((interactionStage sq cfg (applyGravityStage cfg s.particles)).getD k
            dummyParticle).force.y /
           ((interactionStage sq cfg (applyGravityStage cfg s.particles)).getD k
            dummyParticle).mass * dt) * cfg.damping := by
  set psi := interactionStage sq cfg (applyGravityStage cfg s.particles) with hpsi
  have hig := integrationStage_getD_alive cfg dt psi k hk2 ha2
  have hgoal : (preUpdate sq cfg dt none false none s).particles =
      (boundaryAndSound cfg dt (checkReabsorption
        { s with particles := integrationStage cfg dt psi })).particles := rfl
  rw [hgoal]
  set s5 : PhysicsEngine := { s with particles := integrationStage cfg dt psi } with hs5
  rw [boundaryAndSound_particles, boundary_fold_particles_eq,
    show ((⟨[], 0, false⟩ : BoundaryResult)).particles = [] from rfl, List.nil_append]
  have hlen5 : (checkReabsorption s5).particles.length = psi.length := by
    rw [(checkReabsorption_rel s5).1]
    show (integrationStage cfg dt psi).length = psi.length
    simp [integrationStage]
  have hk5 : k < (checkReabsorption s5).particles.length := by rw [hlen5]; exact hk2
  rw [getD_map_of_lt _ _ _ hk5]
  obtain ⟨hvel, hpos, hheal⟩ := checkReabsorption_getD_core s5 k
  have halive5 : aliveB ((checkReabsorption s5).particles.getD k dummyParticle)
      = true := by
    rw [aliveB_eq_of_health hheal]
    show aliveB ((integrationStage cfg dt psi).getD k dummyParticle) = true
    rw [hig]
    exact ha2
  rw [if_pos halive5]
  have hposy : ((checkReabsorption s5).particles.getD k dummyParticle).position.y
      = ((integrationStage cfg dt psi).getD k dummyParticle).position.y := by
    rw [hpos]
  have h1f : ¬ ((checkReabsorption s5).height - cfg.particleRadius <
      ((checkReabsorption s5).particles.getD k dummyParticle).position.y) := by
    rw [hposy, (checkReabsorption_width s5).2]
    exact hfloor
  have h2c : ¬ (((checkReabsorption s5).particles.getD k dummyParticle).position.y <
      cfg.particleRadius) := by
    rw [hposy]
    exact hceil
  rw [resolveParticle_vy _ _ _ _ h1f h2c, hvel]
  show ((integrationStage cfg dt psi).getD k dummyParticle).velocity.y = _
  rw [hig]

/-- The C8 scenario engine: width 800, height 600, count 30.  Particles 2
and 3 land 30 apart vertically (an attracting pair); the 26 remaining body
particles land on a common point far from everything else; all velocities
draw zero; enemies take unjittered patrols.  Every square root taken during
the run is of a perfect square. -/
def scatter30 (i : ℕ) : Vec2 :=
  if i = 2 then ⟨0, 40⟩
  else if i = 3 then ⟨0, 70⟩
  else ⟨-70, -15⟩

def engine30 : PhysicsEngine :=
  mkEngine 800 600 30 scatter30 (fun _ => ⟨0, 0⟩) (fun _ => false)
    (fun _ _ => 0) (fun _ => 0)

/-- The particle array of `engine30` after the gravity pass. -/
def psg30 : List Particle := applyGravityStage DEFAULT_CONFIG engine30.particles

/-- The pair scan order around the one active pair `(2, 3)`. -/
def pairsA : List (ℕ × ℕ) := (pairIndices 30).take 57

def pairsB : List (ℕ × ℕ) := (pairIndices 30).drop 58

/-- Particle 2 after its single active pair interaction: gravity 400 plus
the cohesion pull 60 toward particle 3. -/
def p2after : Particle :=
  { id := 2, position := ⟨400, 340⟩, velocity := ⟨0, 0⟩, force := ⟨0, 460⟩,
    mass := 1, isFixed := false, radius := 10, kind := PKind.body,
    isEmitted := false, health := some 100, maxHealth := some 100 }

set_option maxRecDepth 4000 in
lemma pairsSplit : pairsA ++ (2, 3) :: pairsB = pairIndices 30 := by decide

set_option maxRecDepth 4000 in
lemma pairStep30_getD2 :
    (pairStep ratSqrt DEFAULT_CONFIG psg30 (2, 3)).getD 2 dummyParticle
      = p2after := by decide

set_option maxRecDepth 4000 in
lemma pairsA_far2 : ∀ ij ∈ pairsA, ij.1 ≠ ij.2 ∧
    (ij.1 = 2 → aliveB (psg30.getD ij.2 dummyParticle) = true →
      DEFAULT_CONFIG.interactionRadius * DEFAULT_CONFIG.interactionRadius <
        distSq (psg30.getD ij.2 dummyParticle).position
          (psg30.getD 2 dummyParticle).position) ∧
    (ij.2 = 2 → aliveB (psg30.getD ij.1 dummyParticle) = true →
      DEFAULT_CONFIG.interactionRadius * DEFAULT_CONFIG.interactionRadius <
        distSq (psg30.getD ij.1 dummyParticle).position
          (psg30.getD 2 dummyParticle).position) := by decide

set_option maxRecDepth 4000 in
lemma pairsB_far2 : ∀ ij ∈ pairsB, ij.1 ≠ ij.2 ∧
    (ij.1 = 2 → aliveB (psg30.getD ij.2 dummyParticle) = true →
      DEFAULT_CONFIG.interactionRadius * DEFAULT_CONFIG.interactionRadius <
        distSq (psg30.getD ij.2 dummyParticle).position
          (psg30.getD 2 dummyParticle).position) ∧
    (ij.2 = 2 → aliveB (psg30.getD ij.1 dummyParticle) = true →
      DEFAULT_CONFIG.interactionRadius * DEFAULT_CONFIG.interactionRadius <
        distSq (psg30.getD ij.1 dummyParticle).position
          (psg30.getD 2 dummyParticle).position) := by decide

set_option maxRecDepth 4000 in
lemma pairsA_far3 : ∀ ij ∈ pairsA, ij.1 ≠ ij.2 ∧
    (ij.1 = 3 → aliveB (psg30.getD ij.2 dummyParticle) = true →
      DEFAULT_CONFIG.interactionRadius * DEFAULT_CONFIG.interactionRadius <
        distSq (psg30.getD ij.2 dummyParticle).position
          (psg30.getD 3 dummyParticle).position) ∧
    (ij.2 = 3 → aliveB (psg30.getD ij.1 dummyParticle) = true →
      DEFAULT_CONFIG.interactionRadius * DEFAULT_CONFIG.interactionRadius <
        distSq (psg30.getD ij.1 dummyParticle).position
          (psg30.getD 3 dummyParticle).position) := by decide

/-- In `engine30`, the full pair pass acts on particle 2 exactly as its one
active pair `(2, 3)` does: every other scheduled pair touching 2 (or, up to
that point, 3) is beyond the interaction radius. -/
lemma engine30_interaction_getD2 :
    (interactionStage ratSqrt DEFAULT_CONFIG psg30).getD 2 dummyParticle
      = p2after := by
  have hlen : psg30.length = 30 := by decide
  unfold interactionStage
  rw [hlen, ← pairsSplit, List.foldl_append, List.foldl_cons]
  have hX2 : (List.foldl (pairStep ratSqrt DEFAULT_CONFIG) psg30 pairsA).getD 2
      dummyParticle = psg30.getD 2 dummyParticle :=
    interaction_fold_far ratSqrt DEFAULT_CONFIG psg30 2 pairsA pairsA_far2 psg30
      (forceOnly_refl _)
  have hX3 : (List.foldl (pairStep ratSqrt DEFAULT_CONFIG) psg30 pairsA).getD 3
      dummyParticle = psg30.getD 3 dummyParticle :=
    interaction_fold_far ratSqrt DEFAULT_CONFIG psg30 3 pairsA pairsA_far3 psg30
      (forceOnly_refl _)
  have hXfo : ForceOnly psg30 (List.foldl (pairStep ratSqrt DEFAULT_CONFIG) psg30 pairsA) :=
    foldl_forceOnly _ _ (fun cur b => pairStep_forceOnly ratSqrt DEFAULT_CONFIG cur b) psg30
  have hcurfo : ForceOnly psg30 (pairStep ratSqrt DEFAULT_CONFIG
      (List.foldl (pairStep ratSqrt DEFAULT_CONFIG) psg30 pairsA) (2, 3)) :=
    forceOnly_trans hXfo (pairStep_forceOnly ratSqrt DEFAULT_CONFIG _ _)
  rw [interaction_fold_far ratSqrt DEFAULT_CONFIG psg30 2 pairsB pairsB_far2 _ hcurfo]
  rw [pairStep_getD_fst ratSqrt DEFAULT_CONFIG _ psg30 2 3 (by decide) hX2 hX3 hXfo.1]
  exact pairStep30_getD2

/-- Stages 1–5 leave particle 2 of `engine30` with vertical velocity
`(0 + 460·(1/60))·0.96 = 184/25`, not the gravity-only `32/5`. -/
lemma engine30_pre_vy :
    ((preUpdate ratSqrt DEFAULT_CONFIG (1/60) none false none
      engine30).particles.getD 2 dummyParticle).velocity.y = 184/25 := by
  have hint2 : (interactionStage ratSqrt DEFAULT_CONFIG (applyGravityStage
      DEFAULT_CONFIG engine30.particles)).getD 2 dummyParticle = p2after :=
    engine30_interaction_getD2
  have hk2 : 2 < (interactionStage ratSqrt DEFAULT_CONFIG (applyGravityStage
      DEFAULT_CONFIG engine30.particles)).length := by
    rw [(interactionStage_forceOnly ratSqrt DEFAULT_CONFIG _).1]
    show 2 < psg30.length
    decide
  have ha2 : aliveB ((interactionStage ratSqrt DEFAULT_CONFIG (applyGravityStage
      DEFAULT_CONFIG engine30.particles)).getD 2 dummyParticle) = true := by
    rw [hint2]
    decide
  have hig := integrationStage_getD_alive DEFAULT_CONFIG (1/60) _ 2 hk2 ha2
  rw [hint2] at hig
  have hfloor : ¬ (engine30.height - DEFAULT_CONFIG.particleRadius <
      ((integrationStage DEFAULT_CONFIG (1/60) (interactionStage ratSqrt DEFAULT_CONFIG
        (applyGravityStage DEFAULT_CONFIG engine30.particles))).getD 2
        dummyParticle).position.y) := by
    rw [hig]
    decide
  have hceil : ¬ (((integrationStage DEFAULT_CONFIG (1/60) (interactionStage ratSqrt
      DEFAULT_CONFIG (applyGravityStage DEFAULT_CONFIG engine30.particles))).getD 2
      dummyParticle).position.y < DEFAULT_CONFIG.particleRadius) := by
    rw [hig]
    decide
  rw [preUpdate_vy_formula ratSqrt DEFAULT_CONFIG (1/60) engine30 2 hk2 ha2 hfloor hceil,
    hint2]
  decide

lemma engine30_all_alive : ∀ p ∈ engine30.particles, aliveB p = true := by decide

lemma killedOrSame_id {p q : Particle} (h : KilledOrSame p q) : q.id = p.id := by
  rcases h with rfl | ⟨-, rfl⟩ <;> rfl

/-- The full `update` on `engine30`: particle 2 (still at index 2, id 2)
exits with vertical velocity `184/25`. -/
lemma engine30_update_getD2 :
    ((update ratSqrt engine30 (1/60) DEFAULT_CONFIG none false
        none).particles.getD 2 dummyParticle).velocity.y = 184/25 ∧
    ((update ratSqrt engine30 (1/60) DEFAULT_CONFIG none false
        none).particles.getD 2 dummyParticle).id = 2 := by
  have hsij := preUpdate_sameIdHealth ratSqrt DEFAULT_CONFIG (1/60) none false none
    engine30
  have hallA : ∀ p ∈ (preUpdate ratSqrt DEFAULT_CONFIG (1/60) none false none
      engine30).particles, aliveB p = true := by
    intro p hp
    obtain ⟨i, hi, hpe⟩ := mem_getD_of_mem _ dummyParticle p hp
    have hie : i < engine30.particles.length := by rw [← hsij.1]; exact hi
    rw [hpe, sameIdHealth_alive hsij i]
    exact engine30_all_alive _ (getD_mem _ _ i hie)
  have hfil : (preUpdate ratSqrt DEFAULT_CONFIG (1/60) none false none
      engine30).particles.filter aliveB
      = (preUpdate ratSqrt DEFAULT_CONFIG (1/60) none false none
        engine30).particles :=
    List.filter_eq_self.mpr hallA
  have hgs : (preUpdate ratSqrt DEFAULT_CONFIG (1/60) none false none
      engine30).gameState.isGameOver = false := by
    rw [(preUpdate_fields ratSqrt DEFAULT_CONFIG (1/60) none false none engine30).2.1]
    rfl
  have huep := updateEnemies_particles ratSqrt (1/60)
    (preUpdate ratSqrt DEFAULT_CONFIG (1/60) none false none engine30)
  have huegs := (updateEnemies_tail_fields ratSqrt (1/60)
    (preUpdate ratSqrt DEFAULT_CONFIG (1/60) none false none engine30)).1
  have hupp : (updateEmittedParticles (1/60) (updateEnemies ratSqrt (1/60)
      (preUpdate ratSqrt DEFAULT_CONFIG (1/60) none false none
        engine30))).particles
      = (preUpdate ratSqrt DEFAULT_CONFIG (1/60) none false none
        engine30).particles := by
    rw [updateEmittedParticles_particles, huep, hfil]
  have hupgs : (updateEmittedParticles (1/60) (updateEnemies ratSqrt (1/60)
      (preUpdate ratSqrt DEFAULT_CONFIG (1/60) none false none
        engine30))).gameState.isGameOver = false := by
    have h := prune_transition (1/60) (updateEnemies ratSqrt (1/60)
      (preUpdate ratSqrt DEFAULT_CONFIG (1/60) none false none engine30))
      (by rw [huegs]; exact hgs)
    rcases hb : (updateEmittedParticles (1/60) (updateEnemies ratSqrt (1/60)
        (preUpdate ratSqrt DEFAULT_CONFIG (1/60) none false none
          engine30))).gameState.isGameOver with _ | _
    · rfl
    · exfalso
      have h0 := h.1.mp hb
      rw [huep, hfil] at h0
      have h30 : (preUpdate ratSqrt DEFAULT_CONFIG (1/60) none false none
          engine30).particles.length = 30 := by
        rw [hsij.1]
        decide
      rw [h30] at h0
      exact absurd h0 (by decide)
  have hcomb : update ratSqrt engine30 (1/60) DEFAULT_CONFIG none false none
      = checkEnemyCollisions (updateEmittedParticles (1/60) (updateEnemies ratSqrt
        (1/60) (preUpdate ratSqrt DEFAULT_CONFIG (1/60) none false none
          engine30))) := by
    show combatTail ratSqrt (1/60)
      (preUpdate ratSqrt DEFAULT_CONFIG (1/60) none false none engine30) = _
    unfold combatTail
    rw [if_neg (by rw [hupgs]; decide)]
  have hrel := checkEnemyCollisions_rel (updateEmittedParticles (1/60)
    (updateEnemies ratSqrt (1/60) (preUpdate ratSqrt DEFAULT_CONFIG (1/60) none false
      none engine30)))
  constructor
  · rw [hcomb, killedOrSame_velocity (hrel.2 2), hupp]
    exact engine30_pre_vy
  · rw [hcomb, killedOrSame_id (hrel.2 2), hupp, (hsij.2 2).1]
    decide

/-- Counterexample to C8 as stated: in the engine constructed with
width 800, height 600, count 30 (concrete realizable random draws), the
non-eye particle with id 2 sits 30 px above particle 3, so the cohesion
pull adds 60 to its vertical force on top of gravity 400; after one
`update` with gravity 400, dt = 1/60, no drag and no keyboard, its vertical
velocity is `(0 + 460·(1/60))·0.96 = 184/25 = 7.36`, not the claimed
`(0 + 400·(1/60))·0.96 = 32/5 = 6.4`. -/
theorem C8_counterexample :
    (engine30.particles.getD 2 dummyParticle).kind ≠ PKind.eye ∧
    ((update ratSqrt engine30 (1/60) DEFAULT_CONFIG none false
        none).particles.getD 2 dummyParticle).id
      = (engine30.particles.getD 2 dummyParticle).id ∧
    ((update ratSqrt engine30 (1/60) DEFAULT_CONFIG none false
        none).particles.getD 2 dummyParticle).velocity.y ≠
      ((engine30.particles.getD 2 dummyParticle).velocity.y +
        DEFAULT_CONFIG.gravity * (1/60)) * DEFAULT_CONFIG.damping := by
  refine ⟨by decide, ?_, ?_⟩
  · rw [engine30_update_getD2.2]
    decide
  · rw [engine30_update_getD2.1]
    decide

/-- C8 (amended): integration multiplies each alive particle's velocity
increment by damping, but the increment is `(F.y/m)·dt` for the particle's
TOTAL accumulated force, which equals gravity alone only when no other
alive particle is in interaction range.  Concretely: (1) for every alive
particle, the post-integration vertical velocity is
`(vy + F.y/m·dt)·damping`; (2) with no drag point and no keyboard input, an
alive particle of nonzero mass farther than the interaction radius from
every other alive particle, which clamps no vertical boundary this tick,
ends the call's particle stages with `vy' = (vy + gravity·dt)·damping`
exactly — the claim's formula.  For the constructed 30-particle engine the
claim fails in general: neighbouring particles add pair forces to gravity
(see the counterexample). -/
theorem C8_gravity_amended :
    (∀ (cfg : SimulationConfig) (dt : ℚ) (ps : List Particle) (k : ℕ),
      k < ps.length → aliveB (ps.getD k dummyParticle) = true →
      ((integrationStage cfg dt ps).getD k dummyParticle).velocity.y =
        ((ps.getD k dummyParticle).velocity.y +
          (ps.getD k dummyParticle).force.y / (ps.getD k dummyParticle).mass * dt) *
          cfg.damping) ∧
    (∀ (sq : ℚ → ℚ) (cfg : SimulationConfig) (dt : ℚ) (s : PhysicsEngine) (k : ℕ),
      k < s.particles.length →
      aliveB (s.particles.getD k dummyParticle) = true →
      (s.particles.getD k dummyParticle).mass ≠ 0 →
      (∀ j, j < s.particles.length → j ≠ k →
        aliveB (s.particles.getD j dummyParticle) = true →
        cfg.interactionRadius * cfg.interactionRadius <
          distSq (s.particles.getD j dummyParticle).position
            (s.particles.getD k dummyParticle).position) →
      ¬ (s.height - cfg.particleRadius <
        ((integrationStage cfg dt (interactionStage sq cfg
          (applyGravityStage cfg s.particles))).getD k dummyParticle).position.y) →
      ¬ (((integrationStage cfg dt (interactionStage sq cfg
          (applyGravityStage cfg s.particles))).getD k dummyParticle).position.y
          < cfg.particleRadius) →
      ((preUpdate sq cfg dt none false none s).particles.getD k
          dummyParticle).velocity.y
        = ((s.particles.getD k dummyParticle).velocity.y + cfg.gravity * dt)
            * cfg.damping) := by
  constructor
  · intro cfg dt ps k hk ha
    rw [integrationStage_getD_alive cfg dt ps k hk ha]
  · intro sq cfg dt s k hk ha hm hiso hfloor hceil
    exact preUpdate_isolated_vy sq cfg dt s k hk ha hm hiso hfloor hceil

/-- Witness for the amended C8 at concrete inputs: the single particle of
`sTiny` obeys both the general integration formula and, being isolated, the
gravity-only formula through stages 1–5. -/
theorem C8_witness :
    ((integrationStage DEFAULT_CONFIG (1/60) sTiny.particles).getD 0
        dummyParticle).velocity.y =
      ((sTiny.particles.getD 0 dummyParticle).velocity.y +
        (sTiny.particles.getD 0 dummyParticle).force.y /
          (sTiny.particles.getD 0 dummyParticle).mass * (1/60)) *
        DEFAULT_CONFIG.damping ∧
    ((preUpdate ratSqrt DEFAULT_CONFIG (1/60) none false none
        sTiny).particles.getD 0 dummyParticle).velocity.y
      = ((sTiny.particles.getD 0 dummyParticle).velocity.y +
          DEFAULT_CONFIG.gravity * (1/60)) * DEFAULT_CONFIG.damping := by
  constructor
  · exact C8_gravity_amended.1 DEFAULT_CONFIG (1/60) sTiny.particles 0 (by decide)
      (by decide)
  · exact C8_gravity_amended.2 ratSqrt DEFAULT_CONFIG (1/60) sTiny 0 (by decide)
      (by decide) (by decide)
      (fun j hj hjk _ => absurd (Nat.lt_one_iff.mp hj) hjk)
      (by decide) (by decide)

/-! ## C1: the connectivity analyzer returns the largest component -/

/-- Adjacency of the proximity graph as a proposition. -/
def AdjP (ps : List Particle) (r : ℚ) (a b : ℕ) : Prop :=
  adjacentB ps r a b = true

instance (ps : List Particle) (r : ℚ) (a b : ℕ) : Decidable (AdjP ps r a b) := by
  unfold AdjP
  infer_instance

/-- Reachability in the proximity graph (the spec's "connected component"
relation): the reflexive-transitive closure of adjacency. -/
def Reaches (ps : List Particle) (r : ℚ) : ℕ → ℕ → Prop :=
  Relation.ReflTransGen (AdjP ps r)

/-- `C` is the connected component of node `i`. -/
def CompOf (ps : List Particle) (r : ℚ) (i : ℕ) (C : Finset ℕ) : Prop :=
  ∀ x, x ∈ C ↔ Reaches ps r i x

lemma distSq_comm (u v : Vec2) : distSq u v = distSq v u := by
  unfold distSq
  ring

lemma adjP_alive {ps : List Particle} {r : ℚ} {a b : ℕ} (h : AdjP ps r a b) :
    a ∈ aliveIndices ps ∧ b ∈ aliveIndices ps := by
  unfold AdjP adjacentB at h
  repeat rw [Bool.and_eq_true] at h
  exact ⟨of_decide_eq_true h.1.1.2, of_decide_eq_true h.1.2⟩

lemma adjP_symm {ps : List Particle} {r : ℚ} {a b : ℕ} (h : AdjP ps r a b) :
    AdjP ps r b a := by
  unfold AdjP adjacentB areParticlesConnected at h ⊢
  repeat rw [Bool.and_eq_true] at h ⊢
  obtain ⟨⟨⟨hne, ha⟩, hb⟩, hr, hd⟩ := h
  refine ⟨⟨⟨decide_eq_true (Ne.symm (of_decide_eq_true hne)), hb⟩, ha⟩, hr, ?_⟩
  rw [decide_eq_true_eq] at hd ⊢
  rw [distSq_comm]
  exact hd

lemma reaches_symm {ps : List Particle} {r : ℚ} {a b : ℕ}
    (h : Reaches ps r a b) : Reaches ps r b a :=
  Relation.ReflTransGen.symmetric (fun _ _ hxy => adjP_symm hxy) h

lemma reaches_alive {ps : List Particle} {r : ℚ} {a b : ℕ}
    (ha : a ∈ aliveIndices ps) (h : Reaches ps r a b) : b ∈ aliveIndices ps := by
  induction h with
  | refl => exact ha
  | tail _ hadj _ => exact (adjP_alive hadj).2

lemma mem_neighborList {ps : List Particle} {r : ℚ} {i j : ℕ} :
    j ∈ neighborList ps r i ↔ AdjP ps r i j := by
  unfold neighborList
  rw [List.mem_filter]
  constructor
  · rintro ⟨-, h⟩
    exact h
  · intro h
    exact ⟨(adjP_alive h).2, h⟩

lemma aliveIndices_length_le (ps : List Particle) :
    (aliveIndices ps).length ≤ ps.length := by
  unfold aliveIndices
  exact (List.length_filter_le _ _).trans (le_of_eq (List.length_range _))

lemma neighborList_length_le (ps : List Particle) (r : ℚ) (i : ℕ) :
    (neighborList ps r i).length ≤ ps.length :=
  (List.length_filter_le _ _).trans (aliveIndices_length_le ps)

lemma aliveIndices_sorted (ps : List Particle) :
    (aliveIndices ps).Pairwise (· < ·) := by
  unfold aliveIndices
  exact (List.pairwise_lt_range _).filter _

/-- A component is determined by any of its members. -/
lemma compOf_mem_self {ps : List Particle} {r : ℚ} {i : ℕ} {C : Finset ℕ}
    (h : CompOf ps r i C) : i ∈ C :=
  (h i).mpr Relation.ReflTransGen.refl

lemma compOf_unique {ps : List Particle} {r : ℚ} {i : ℕ} {C C' : Finset ℕ}
    (h : CompOf ps r i C) (h' : CompOf ps r i C') : C = C' := by
  ext x
  rw [h x, h' x]

lemma compOf_shift {ps : List Particle} {r : ℚ} {i j : ℕ} {C : Finset ℕ}
    (h : CompOf ps r i C) (hij : Reaches ps r i j) : CompOf ps r j C := by
  intro x
  rw [h x]
  constructor
  · intro hx
    exact Relation.ReflTransGen.trans (reaches_symm hij) hx
  · intro hx
    exact Relation.ReflTransGen.trans hij hx

lemma compOf_pairwise {ps : List Particle} {r : ℚ} {i : ℕ} {C : Finset ℕ}
    (h : CompOf ps r i C) : ∀ x ∈ C, ∀ y ∈ C, Reaches ps r x y := by
  intro x hx y hy
  exact Relation.ReflTransGen.trans (reaches_symm ((h x).mp hx)) ((h y).mp hy)

lemma compOf_alive {ps : List Particle} {r : ℚ} {i : ℕ} {C : Finset ℕ}
    (h : CompOf ps r i C) (hi : i ∈ aliveIndices ps) :
    ∀ x ∈ C, x ∈ aliveIndices ps := by
  intro x hx
  exact reaches_alive hi ((h x).mp hx)

lemma compOf_closed {ps : List Particle} {r : ℚ} {i : ℕ} {C : Finset ℕ}
    (h : CompOf ps r i C) : ∀ x ∈ C, ∀ y, AdjP ps r x y → y ∈ C := by
  intro x hx y hadj
  exact (h y).mpr (Relation.ReflTransGen.tail ((h x).mp hx) hadj)

/-- A set closed under adjacency is closed under reachability. -/
lemma closed_reaches {ps : List Particle} {r : ℚ} {S : Finset ℕ}
    (hS : ∀ x ∈ S, ∀ y, AdjP ps r x y → y ∈ S) {a b : ℕ}
    (ha : a ∈ S) (h : Reaches ps r a b) : b ∈ S := by
  induction h with
  | refl => exact ha
  | tail _ hadj ih => exact hS _ ih _ hadj

/-- Postcondition of one BFS run from `i` on top of the already-visited set
`vis0`: the new visited set is `vis0` plus the freshly collected group, the
group consists of alive nodes reachable from `i`, the visited set is closed
under adjacency, and `i` was visited. -/
def BfsPost (ps : List Particle) (r : ℚ) (i : ℕ) (vis0 : Finset ℕ)
    (res : Finset ℕ × Finset ℕ) : Prop :=
  res.1 = vis0 ∪ res.2 ∧ Disjoint vis0 res.2 ∧
  (∀ x ∈ res.2, Reaches ps r i x ∧ x ∈ aliveIndices ps) ∧
  (∀ x ∈ res.1, ∀ y, AdjP ps r x y → y ∈ res.1) ∧
  i ∈ res.1

lemma bfsLoop_invariant (ps : List Particle) (r : ℚ) (i : ℕ) (vis0 : Finset ℕ) :
    ∀ (fuel : ℕ) (queue : List ℕ) (visited group : Finset ℕ),
      queue.length + (ps.length + 1) *
        (((aliveIndices ps).toFinset \ visited).card) ≤ fuel →
      (∀ x ∈ queue, Reaches ps r i x ∧ x ∈ aliveIndices ps) →
      visited = vis0 ∪ group →
      Disjoint vis0 group →
      (∀ x ∈ group, Reaches ps r i x ∧ x ∈ aliveIndices ps) →
      (∀ x ∈ visited, ∀ y, AdjP ps r x y → y ∈ visited ∨ y ∈ queue) →
      (i ∈ visited ∨ i ∈ queue) →
      BfsPost ps r i vis0 (bfsLoop (neighborList ps r) fuel queue visited group) := by
  intro fuel
  induction fuel with
  | zero =>
    intro queue visited group hfuel hq hg hdisj hgr hclo hi
    have hq0 : queue = [] := by
      have hlen : queue.length = 0 := by omega
      exact List.length_eq_zero.mp hlen
    subst hq0
    refine ⟨hg, hdisj, hgr, ?_, ?_⟩
    · intro x hx y hadj
      rcases hclo x hx y hadj with h | h
      · exact h
      · exact absurd h (List.not_mem_nil y)
    · rcases hi with h | h
      · exact h
      · exact absurd h (List.not_mem_nil i)
  | succ fuel ih =>
    intro queue visited group hfuel hq hg hdisj hgr hclo hi
    match queue with
    | [] =>
      refine ⟨hg, hdisj, hgr, ?_, ?_⟩
      · intro x hx y hadj
        rcases hclo x hx y hadj with h | h
        · exact h
        · exact absurd h (List.not_mem_nil y)
      · rcases hi with h | h
        · exact h
        · exact absurd h (List.not_mem_nil i)
    | c :: rest =>
      by_cases hc : c ∈ visited
      · have hstep : bfsLoop (neighborList ps r) (fuel + 1) (c :: rest) visited group
            = bfsLoop (neighborList ps r) fuel rest visited group := by
          simp only [bfsLoop]
          rw [if_pos hc]
        rw [hstep]
        apply ih rest visited group
        · simp only [List.length_cons] at hfuel
          omega
        · intro x hx
          exact hq x (List.mem_cons_of_mem c hx)
        · exact hg
        · exact hdisj
        · exact hgr
        · intro x hx y hadj
          rcases hclo x hx y hadj with h | h
          · exact Or.inl h
          · rcases List.mem_cons.mp h with rfl | h2
            · exact Or.inl hc
            · exact Or.inr h2
        · rcases hi with h | h
          · exact Or.inl h
          · rcases List.mem_cons.mp h with rfl | h2
            · exact Or.inl hc
            · exact Or.inr h2
      · have hstep : bfsLoop (neighborList ps r) (fuel + 1) (c :: rest) visited group
            = bfsLoop (neighborList ps r) fuel
                (rest ++ (neighborList ps r c).filter (fun n => n ∉ insert c visited))
                (insert c visited) (insert c group) := by
          simp only [bfsLoop]
          rw [if_neg hc]
        rw [hstep]
        have hcq := hq c (List.mem_cons_self c rest)
        apply ih
        · have hqlen : ((neighborList ps r c).filter
              (fun n => n ∉ insert c visited)).length ≤ ps.length :=
            (List.length_filter_le _ _).trans (neighborList_length_le ps r c)
          have hcmem : c ∈ (aliveIndices ps).toFinset \ visited := by
            rw [Finset.mem_sdiff, List.mem_toFinset]
            exact ⟨hcq.2, hc⟩
          have hlt : (((aliveIndices ps).toFinset \ insert c visited)).card <
              (((aliveIndices ps).toFinset \ visited)).card := by
            apply Finset.card_lt_card
            constructor
            · intro x hx
              rw [Finset.mem_sdiff] at hx ⊢
              exact ⟨hx.1, fun hxv => hx.2 (Finset.mem_insert_of_mem hxv)⟩
            · intro hsub
              have hcm := hsub hcmem
              rw [Finset.mem_sdiff] at hcm
              exact hcm.2 (Finset.mem_insert_self c visited)
          have hmul : (ps.length + 1) *
              ((((aliveIndices ps).toFinset \ insert c visited)).card + 1) ≤
              (ps.length + 1) * (((aliveIndices ps).toFinset \ visited)).card :=
            Nat.mul_le_mul_left _ hlt
          rw [Nat.mul_succ] at hmul
          simp only [List.length_append, List.length_cons] at hfuel ⊢
          omega
        · intro x hx
          rcases List.mem_append.mp hx with h | h
          · exact hq x (List.mem_cons_of_mem c h)
          · have h2 := List.mem_filter.mp h
            have hadj := mem_neighborList.mp h2.1
            exact ⟨Relation.ReflTransGen.tail hcq.1 hadj, (adjP_alive hadj).2⟩
        · rw [hg, Finset.union_insert]
        · rw [Finset.disjoint_insert_right]
          refine ⟨?_, hdisj⟩
          intro hcv
          exact hc (by rw [hg]; exact Finset.mem_union_left _ hcv)
        · intro x hx
          rcases Finset.mem_insert.mp hx with rfl | h
          · exact hcq
          · exact hgr x h
        · intro x hx y hadj
          rcases Finset.mem_insert.mp hx with rfl | h
          · by_cases hy : y ∈ insert x visited
            · exact Or.inl hy
            · right
              apply List.mem_append.mpr
              right
              rw [List.mem_filter]
              exact ⟨mem_neighborList.mpr hadj, by simpa using hy⟩
          · rcases hclo x h y hadj with h2 | h2
            · exact Or.inl (Finset.mem_insert_of_mem h2)
            · rcases List.mem_cons.mp h2 with rfl | h3
              · exact Or.inl (Finset.mem_insert_self y visited)
              · exact Or.inr (List.mem_append.mpr (Or.inl h3))
        · rcases hi with h | h
          · exact Or.inl (Finset.mem_insert_of_mem h)
          · rcases List.mem_cons.mp h with rfl | h2
            · exact Or.inl (Finset.mem_insert_self i visited)
            · exact Or.inr (List.mem_append.mpr (Or.inl h2))

/-- One BFS run started at an unvisited alive node on top of a closed
visited set satisfies the postcondition and collects exactly the connected
component of its start node. -/
lemma bfs_run (ps : List Particle) (r : ℚ) (i : ℕ) (vis0 : Finset ℕ)
    (hvis0 : ∀ x ∈ vis0, ∀ y, AdjP ps r x y → y ∈ vis0)
    (hi : i ∈ aliveIndices ps) (hni : i ∉ vis0) :
    BfsPost ps r i vis0
      (bfsLoop (neighborList ps r) (bfsFuel ps) [i] vis0 ∅) ∧
    CompOf ps r i (bfsLoop (neighborList ps r) (bfsFuel ps) [i] vis0 ∅).2 := by
  have hpost : BfsPost ps r i vis0
      (bfsLoop (neighborList ps r) (bfsFuel ps) [i] vis0 ∅) := by
    apply bfsLoop_invariant
    · have hu : (((aliveIndices ps).toFinset \ vis0)).card ≤ ps.length :=
        le_trans (Finset.card_le_card Finset.sdiff_subset)
          (le_trans (List.toFinset_card_le _) (aliveIndices_length_le ps))
      have hmul : (ps.length + 1) * (((aliveIndices ps).toFinset \ vis0)).card ≤
          (ps.length + 1) * ps.length := Nat.mul_le_mul_left _ hu
      have hexp : (ps.length + 1) * ps.length = ps.length * ps.length + ps.length := by
        ring
      unfold bfsFuel
      simp only [List.length_cons, List.length_nil]
      omega
    · intro x hx
      rcases List.mem_cons.mp hx with rfl | h
      · exact ⟨Relation.ReflTransGen.refl, hi⟩
      · exact absurd h (List.not_mem_nil x)
    · rw [Finset.union_empty]
    · exact Finset.disjoint_empty_right vis0
    · intro x hx
      exact absurd hx (Finset.not_mem_empty x)
    · intro x hx y hadj
      exact Or.inl (hvis0 x hx y hadj)
    · exact Or.inr (List.mem_cons_self i [])
  refine ⟨hpost, ?_⟩
  obtain ⟨hun, hdisj, hgr, hclo, hiv⟩ := hpost
  intro x
  constructor
  · intro hx
    exact (hgr x hx).1
  · intro hx
    have hxv : x ∈ (bfsLoop (neighborList ps r) (bfsFuel ps) [i] vis0 ∅).1 :=
      closed_reaches hclo hiv hx
    rw [hun] at hxv
    rcases Finset.mem_union.mp hxv with h | h
    · exact absurd (closed_reaches hvis0 h (reaches_symm hx)) hni
    · exact h

/-- Every alive node has a connected component. -/
lemma compOf_exists {ps : List Particle} {r : ℚ} {i : ℕ}
    (hi : i ∈ aliveIndices ps) : ∃ C, CompOf ps r i C :=
  ⟨_, (bfs_run ps r i ∅ (fun x hx => absurd hx (Finset.not_mem_empty x)) hi
    (Finset.not_mem_empty i)).2⟩

/-- Full specification of `findMainGroup`'s result: alive, closed under
adjacency, pairwise connected, at least as large as every component,
nonempty when any alive particle exists, and — on ties — found first in
index order (some member of the result precedes every member of any other
equally-sized component). -/
def GroupPost (ps : List Particle) (r : ℚ) (G : Finset ℕ) : Prop :=
  (∀ x ∈ G, x ∈ aliveIndices ps) ∧
  (∀ x ∈ G, ∀ y, AdjP ps r x y → y ∈ G) ∧
  (∀ x ∈ G, ∀ y ∈ G, Reaches ps r x y) ∧
  (∀ j ∈ aliveIndices ps, ∀ C : Finset ℕ, CompOf ps r j C → C.card ≤ G.card) ∧
  (aliveIndices ps ≠ [] → G.Nonempty) ∧
  (∀ j ∈ aliveIndices ps, ∀ C : Finset ℕ, CompOf ps r j C →
    C.card = G.card → C ≠ G → ∃ g ∈ G, ∀ c ∈ C, g < c)

lemma findMainGroupLoop_correct (ps : List Particle) (r : ℚ) :
    ∀ (l pre : List ℕ) (visited best : Finset ℕ) (bestSize : ℕ),
      aliveIndices ps = pre ++ l →
      (∀ x ∈ visited, ∀ y, AdjP ps r x y → y ∈ visited) →
      (∀ x ∈ visited, x ∈ aliveIndices ps) →
      (∀ x ∈ visited, ∃ j ∈ pre, Reaches ps r j x) →
      bestSize = best.card →
      (∀ j ∈ pre, ∀ C : Finset ℕ, CompOf ps r j C → C.card ≤ bestSize) →
      (best = ∅ ∨ ∃ i0 ∈ pre, CompOf ps r i0 best ∧
        ∀ j ∈ pre, j < i0 → ∀ C : Finset ℕ, CompOf ps r j C → C.card < bestSize) →
      (pre ≠ [] → 0 < bestSize) →
      GroupPost ps r (findMainGroupLoop ps r l visited best bestSize) := by
  intro l
  induction l with
  | nil =>
    intro pre visited best bestSize hsplit hclo hvA hvis hsize hmax htie hne
    rw [List.append_nil] at hsplit
    show GroupPost ps r best
    refine ⟨?_, ?_, ?_, ?_, ?_, ?_⟩
    · rcases htie with rfl | ⟨i0, hi0, hcomp, -⟩
      · intro x hx
        exact absurd hx (Finset.not_mem_empty x)
      · exact compOf_alive hcomp (by rw [hsplit]; exact hi0)
    · rcases htie with rfl | ⟨i0, hi0, hcomp, -⟩
      · intro x hx
        exact absurd hx (Finset.not_mem_empty x)
      · exact compOf_closed hcomp
    · rcases htie with rfl | ⟨i0, hi0, hcomp, -⟩
      · intro x hx
        exact absurd hx (Finset.not_mem_empty x)
      · exact compOf_pairwise hcomp
    · intro j hj C hC
      rw [← hsize]
      exact hmax j (by rw [← hsplit]; exact hj) C hC
    · intro hA
      have hp : pre ≠ [] := by rw [← hsplit]; exact hA
      have h0 := hne hp
      rw [hsize] at h0
      exact Finset.card_pos.mp h0
    · intro j hj C hC hcard hne2
      rcases htie with rfl | ⟨i0, hi0, hcomp, hstrict⟩
      · exfalso
        rw [Finset.card_empty] at hcard
        have hpos := Finset.card_pos.mpr ⟨j, compOf_mem_self hC⟩
        omega
      · refine ⟨i0, compOf_mem_self hcomp, ?_⟩
        intro c hc
        have hreach_jc : Reaches ps r j c := (hC c).mp hc
        have hCc : CompOf ps r c C := compOf_shift hC hreach_jc
        have hcA : c ∈ aliveIndices ps := reaches_alive hj hreach_jc
        have hcpre : c ∈ pre := by rw [← hsplit]; exact hcA
        rcases lt_trichotomy c i0 with hlt | heq | hgt
        · exfalso
          have hlt2 := hstrict c hcpre hlt C hCc
          rw [hsize] at hlt2
          omega
        · exfalso
          rw [heq] at hCc
          exact hne2 (compOf_unique hCc hcomp)
        · exact hgt
  | cons i t iht =>
    intro pre visited best bestSize hsplit hclo hvA hvis hsize hmax htie hne
    have hiA : i ∈ aliveIndices ps := by
      rw [hsplit]
      exact List.mem_append.mpr (Or.inr (List.mem_cons_self i t))
    have hsorted := aliveIndices_sorted ps
    rw [hsplit] at hsorted
    have hprelt : ∀ j ∈ pre, j < i := by
      have h2 := (List.pairwise_append.mp hsorted).2.2
      intro j hj
      exact h2 j hj i (List.mem_cons_self i t)
    have hsplit' : aliveIndices ps = (pre ++ [i]) ++ t := by
      rw [hsplit, List.append_assoc]
      rfl
    by_cases hc : i ∈ visited
    · have hstep : findMainGroupLoop ps r (i :: t) visited best bestSize
          = findMainGroupLoop ps r t visited best bestSize := by
        simp only [findMainGroupLoop]
        rw [if_pos hc]
      rw [hstep]
      apply iht (pre ++ [i]) visited best bestSize hsplit' hclo hvA
      · intro x hx
        obtain ⟨j, hj, hr⟩ := hvis x hx
        exact ⟨j, List.mem_append.mpr (Or.inl hj), hr⟩
      · exact hsize
      · intro j hj C hC
        rcases List.mem_append.mp hj with h | h
        · exact hmax j h C hC
        · have hji : j = i := by simpa using h
          subst hji
          obtain ⟨j1, hj1, hr1⟩ := hvis j hc
          exact hmax j1 hj1 C (compOf_shift hC (reaches_symm hr1))
      · rcases htie with hb | ⟨i0, hi0, hcomp, hstrict⟩
        · exact Or.inl hb
        · refine Or.inr ⟨i0, List.mem_append.mpr (Or.inl hi0), hcomp, ?_⟩
          intro j hj hlt C hC
          rcases List.mem_append.mp hj with h | h
          · exact hstrict j h hlt C hC
          · have hji : j = i := by simpa using h
            subst hji
            exact absurd hlt (not_lt.mpr (le_of_lt (hprelt i0 hi0)))
      · intro _
        obtain ⟨j1, hj1, -⟩ := hvis i hc
        refine hne ?_
        intro hp
        rw [hp] at hj1
        exact List.not_mem_nil j1 hj1
    · obtain ⟨hpost, hcomp⟩ := bfs_run ps r i visited hclo hiA hc
      obtain ⟨hun, hdisj, hgr, hcloV, hiV⟩ := hpost
      have hstep : findMainGroupLoop ps r (i :: t) visited best bestSize
          = (if bestSize < (bfsLoop (neighborList ps r) (bfsFuel ps) [i] visited ∅).2.card
             then findMainGroupLoop ps r t
               (bfsLoop (neighborList ps r) (bfsFuel ps) [i] visited ∅).1
               (bfsLoop (neighborList ps r) (bfsFuel ps) [i] visited ∅).2
               (bfsLoop (neighborList ps r) (bfsFuel ps) [i] visited ∅).2.card
             else findMainGroupLoop ps r t
               (bfsLoop (neighborList ps r) (bfsFuel ps) [i] visited ∅).1
               best bestSize) := by
        simp only [findMainGroupLoop]
        rw [if_neg hc]
      rw [hstep]
      have hvA' : ∀ x ∈ (bfsLoop (neighborList ps r) (bfsFuel ps) [i] visited ∅).1,
          x ∈ aliveIndices ps := by
        intro x hx
        rw [hun] at hx
        rcases Finset.mem_union.mp hx with h | h
        · exact hvA x h
        · exact (hgr x h).2
      have hvis' : ∀ x ∈ (bfsLoop (neighborList ps r) (bfsFuel ps) [i] visited ∅).1,
          ∃ j ∈ pre ++ [i], Reaches ps r j x := by
        intro x hx
        rw [hun] at hx
        rcases Finset.mem_union.mp hx with h | h
        · obtain ⟨j, hj, hr⟩ := hvis x h
          exact ⟨j, List.mem_append.mpr (Or.inl hj), hr⟩
        · exact ⟨i, List.mem_append.mpr (Or.inr (List.mem_cons_self i [])),
            (hgr x h).1⟩
      have hiG : i ∈ (bfsLoop (neighborList ps r) (bfsFuel ps) [i] visited ∅).2 :=
        compOf_mem_self hcomp
      by_cases hgt : bestSize <
          (bfsLoop (neighborList ps r) (bfsFuel ps) [i] visited ∅).2.card
      · rw [if_pos hgt]
        apply iht (pre ++ [i]) _ _ _ hsplit' hcloV hvA' hvis' rfl
        · intro j hj C hC
          rcases List.mem_append.mp hj with h | h
          · exact le_of_lt (lt_of_le_of_lt (hmax j h C hC) hgt)
          · have hji : j = i := by simpa using h
            subst hji
            rw [compOf_unique hC hcomp]
        · refine Or.inr ⟨i, List.mem_append.mpr (Or.inr (List.mem_cons_self i [])),
            hcomp, ?_⟩
          intro j hj hlt C hC
          rcases List.mem_append.mp hj with h | h
          · exact lt_of_le_of_lt (hmax j h C hC) hgt
          · have hji : j = i := by simpa using h
            subst hji
            exact absurd hlt (lt_irrefl j)
        · intro _
          exact Finset.card_pos.mpr ⟨i, hiG⟩
      · rw [if_neg hgt]
        apply iht (pre ++ [i]) _ _ _ hsplit' hcloV hvA' hvis' hsize
        · intro j hj C hC
          rcases List.mem_append.mp hj with h | h
          · exact hmax j h C hC
          · have hji : j = i := by simpa using h
            subst hji
            rw [compOf_unique hC hcomp]
            omega
        · rcases htie with hb | ⟨i0, hi0, hcomp0, hstrict⟩
          · exfalso
            rw [hb, Finset.card_empty] at hsize
            have h1 : 0 <
                (bfsLoop (neighborList ps r) (bfsFuel ps) [i] visited ∅).2.card :=
              Finset.card_pos.mpr ⟨i, hiG⟩
            omega
          · refine Or.inr ⟨i0, List.mem_append.mpr (Or.inl hi0), hcomp0, ?_⟩
            intro j hj hlt C hC
            rcases List.mem_append.mp hj with h | h
            · exact hstrict j h hlt C hC
            · have hji : j = i := by simpa using h
              subst hji
              exact absurd hlt (not_lt.mpr (le_of_lt (hprelt i0 hi0)))
        · intro _
          have h1 : 0 <
              (bfsLoop (neighborList ps r) (bfsFuel ps) [i] visited ∅).2.card :=
            Finset.card_pos.mpr ⟨i, hiG⟩
          omega

/-- `findMainGroup` satisfies the full largest-component specification. -/
lemma findMainGroup_correct (ps : List Particle) (r : ℚ) :
    GroupPost ps r (findMainGroup ps r) := by
  unfold findMainGroup
  apply findMainGroupLoop_correct ps r (aliveIndices ps) [] ∅ ∅ 0 rfl
  · intro x hx
    exact absurd hx (Finset.not_mem_empty x)
  · intro x hx
    exact absurd hx (Finset.not_mem_empty x)
  · intro x hx
    exact absurd hx (Finset.not_mem_empty x)
  · rw [Finset.card_empty]
  · intro j hj
    exact absurd hj (List.not_mem_nil j)
  · exact Or.inl rfl
  · intro hp
    exact absurd rfl hp

/-- Two clusters of alive body particles: three at x = 100/120/140 and
seven at x = 500..680 (neighbouring spacing 30 < 50, inter-cluster gap 360),
all at y = 100. -/
def psClusters : List Particle :=
  [particleAt 0 ⟨100, 100⟩ ⟨0, 0⟩ PKind.body false none,
   particleAt 1 ⟨120, 100⟩ ⟨0, 0⟩ PKind.body false none,
   particleAt 2 ⟨140, 100⟩ ⟨0, 0⟩ PKind.body false none,
   particleAt 3 ⟨500, 100⟩ ⟨0, 0⟩ PKind.body false none,
   particleAt 4 ⟨530, 100⟩ ⟨0, 0⟩ PKind.body false none,
   particleAt 5 ⟨560, 100⟩ ⟨0, 0⟩ PKind.body false none,
   particleAt 6 ⟨590, 100⟩ ⟨0, 0⟩ PKind.body false none,
   particleAt 7 ⟨620, 100⟩ ⟨0, 0⟩ PKind.body false none,
   particleAt 8 ⟨650, 100⟩ ⟨0, 0⟩ PKind.body false none,
   particleAt 9 ⟨680, 100⟩ ⟨0, 0⟩ PKind.body false none]

/-- Two components of equal size 2: `{0, 1}` and `{2, 3}`. -/
def psTie : List Particle :=
  [particleAt 0 ⟨100, 100⟩ ⟨0, 0⟩ PKind.body false none,
   particleAt 1 ⟨130, 100⟩ ⟨0, 0⟩ PKind.body false none,
   particleAt 2 ⟨300, 100⟩ ⟨0, 0⟩ PKind.body false none,
   particleAt 3 ⟨330, 100⟩ ⟨0, 0⟩ PKind.body false none]

/-- C1: `findMainGroup` returns the largest connected component of the
proximity graph on alive particles (adjacency: Euclidean distance strictly
below the interaction radius, embedded square-free in `adjacentB`): the
result consists of alive indices, is closed under adjacency, is pairwise
connected, has cardinality at least that of every connected set of alive
indices, is nonempty whenever an alive particle exists, and on ties it is
the component found first scanning in index order (some member of the
result precedes every member of any other component of equal size).  On the
synthetic 3-cluster/7-cluster configuration it returns exactly the seven
indices of the larger cluster. -/
theorem C1_main_group :
    (∀ (ps : List Particle) (r : ℚ),
      (∀ x ∈ findMainGroup ps r, x ∈ aliveIndices ps) ∧
      (∀ x ∈ findMainGroup ps r, ∀ y, AdjP ps r x y → y ∈ findMainGroup ps r) ∧
      (∀ x ∈ findMainGroup ps r, ∀ y ∈ findMainGroup ps r, Reaches ps r x y) ∧
      (∀ C : Finset ℕ, (∀ x ∈ C, x ∈ aliveIndices ps) →
        (∀ x ∈ C, ∀ y ∈ C, Reaches ps r x y) →
        C.card ≤ (findMainGroup ps r).card) ∧
      (aliveIndices ps ≠ [] → (findMainGroup ps r).Nonempty) ∧
      (∀ j ∈ aliveIndices ps, ∀ C : Finset ℕ, CompOf ps r j C →
        C.card = (findMainGroup ps r).card → C ≠ findMainGroup ps r →
        ∃ g ∈ findMainGroup ps r, ∀ c ∈ C, g < c)) ∧
    findMainGroup psClusters 50 = ({3, 4, 5, 6, 7, 8, 9} : Finset ℕ) := by
  constructor
  · intro ps r
    obtain ⟨h1, h2, h3, h4, h5, h6⟩ := findMainGroup_correct ps r
    refine ⟨h1, h2, h3, ?_, h5, h6⟩
    intro C hCA hCconn
    rcases Finset.eq_empty_or_nonempty C with rfl | ⟨j, hj⟩
    · simp
    · obtain ⟨Cj, hCj⟩ := compOf_exists (hCA j hj)
      have hsub : C ⊆ Cj := by
        intro x hx
        exact (hCj x).mpr (hCconn j hj x hx)
      exact le_trans (Finset.card_le_card hsub) (h4 j (hCA j hj) Cj hCj)
  · decide

/-- Witness for C1 at concrete inputs: the maximality bound applied to the
singleton `{3}` in the cluster fixture; nonemptiness; and the first-found
tie-break applied to the second equal-size component `{2, 3}` of the tie
fixture (whose main group is `{0, 1}`). -/
theorem C1_witness :
    ({3} : Finset ℕ).card ≤ (findMainGroup psClusters 50).card ∧
    (findMainGroup psClusters 50).Nonempty ∧
    (∃ g ∈ findMainGroup psTie 50, ∀ c ∈ ({2, 3} : Finset ℕ), g < c) := by
  refine ⟨?_, ?_, ?_⟩
  · apply (C1_main_group.1 psClusters 50).2.2.2.1 {3}
    · decide
    · intro x hx y hy
      rw [Finset.mem_singleton] at hx hy
      rw [hx, hy]
      exact Relation.ReflTransGen.refl
  · exact (C1_main_group.1 psClusters 50).2.2.2.2.1 (by decide)
  · apply (C1_main_group.1 psTie 50).2.2.2.2.2 2 (by decide) {2, 3} ?_ (by decide)
      (by decide)
    intro x
    constructor
    · intro hx
      rw [Finset.mem_insert, Finset.mem_singleton] at hx
      rcases hx with rfl | rfl
      · exact Relation.ReflTransGen.refl
      · exact Relation.ReflTransGen.single (by decide)
    · intro hx
      induction hx with
      | refl => decide
      | tail hab hadj ih =>
        have hcA := (adjP_alive hadj).2
        rw [show aliveIndices psTie = [0, 1, 2, 3] from by decide] at hcA
        rw [Finset.mem_insert, Finset.mem_singleton] at ih ⊢
        rcases ih with rfl | rfl <;>
          fin_cases hcA <;>
            first
              | exact absurd hadj (by decide)
              | decide

end SlimeLab
